import Mathlib

/-!
# Schema syncer (`backend/runner/schemasync/syncer.go`)

A shallow embedding of the schema syncer: the interval policy, the periodic
fleet walker `trySyncAll`, the instance task `SyncInstance`, the database task
`SyncDatabaseSchema` and the classification annotators, followed by the
properties established for them.

Conventions of the embedding.

* `time.Duration` is an `Int` number of nanoseconds kept in the `int64` range;
  `time.Time` is an `Int` number of nanoseconds since the Unix epoch. Go stores a
  `Time` as 64-bit seconds plus nanoseconds, so `Time.Add` of an `int64`
  duration to a valid protobuf timestamp is exact.
* A Go pointer that may be `nil` is an `Option`.
* Calls on external collaborators (driver, store, licence service) are explicit:
  their outcomes are fields of an environment record and every call made is
  recorded, in order, in a list of events.
-/

namespace SchemaSync

/-! ## Errors -/

/-- An `error` value handed back by a collaborator (driver, store, licence
service), identified by the text its `Error()` method answers. -/
structure Err where
  Error : String
  deriving DecidableEq, Repr

/-- The `error` a syncer task returns: `nil` is `none` of `Option RetErr`; an
error is either a collaborator's error handed on unchanged, or one built by
`errors.Wrapf` or `errors.Errorf`, kept as the format string and its arguments. -/
inductive RetErr where
  | same (err : Err)
  | wrapf (cause : Err) (format : String) (args : List String)
  | errorf (format : String) (args : List String)
  deriving DecidableEq, Repr

/-! ## Engines -/

/-- The `storepb.Engine` enumeration: the engines the syncer names, and an
open-ended tail of further engines identified by their tag. -/
inductive Engine where
  | MYSQL
  | POSTGRES
  | MONGODB
  | REDIS
  | ORACLE
  | OCEANBASE_ORACLE
  | MSSQL
  | REDSHIFT
  | other (tag : Nat)
  deriving DecidableEq, Repr

/-! ## Durations and timestamps -/

/-- Two's-complement wrap-around of `int64` arithmetic. -/
def wrapInt64 (x : Int) : Int :=
  (x + 9223372036854775808) % 18446744073709551616 - 9223372036854775808

/-- The largest `int64`. -/
def maxInt64 : Int := 9223372036854775807

/-- The smallest `int64`. -/
def minInt64 : Int := -9223372036854775808

/-- A `durationpb.Duration` message: `int64` seconds and `int32` nanoseconds. -/
structure Duration where
  Seconds : Int
  Nanos : Int
  deriving DecidableEq, Repr

/-- Getter `GetSeconds`, which answers `0` on a nil message. -/
def Duration.GetSeconds : Option Duration → Int
  | none => 0
  | some x => x.Seconds

/-- Getter `GetNanos`, which answers `0` on a nil message. -/
def Duration.GetNanos : Option Duration → Int
  | none => 0
  | some x => x.Nanos

/-- Validity of a duration message (`durationpb.Duration.IsValid`): not nil, at
most 10000 years in either direction, nanoseconds strictly inside one second,
and no disagreement of sign between seconds and nanoseconds. -/
def Duration.IsValid : Option Duration → Bool
  | none => false
  | some x =>
    if x.Seconds < -315576000000 then false
    else if x.Seconds > 315576000000 then false
    else if x.Nanos ≤ -1000000000 ∨ x.Nanos ≥ 1000000000 then false
    else if (x.Seconds > 0 ∧ x.Nanos < 0) ∨ (x.Seconds < 0 ∧ x.Nanos > 0) then false
    else true

/-- Conversion `durationpb.Duration.AsDuration` to a `time.Duration`: the
nanosecond count computed in `int64`, saturated when it overflows. -/
def Duration.AsDuration (x : Option Duration) : Int :=
  let secs := Duration.GetSeconds x
  let nanos := Duration.GetNanos x
  let d := wrapInt64 (secs * 1000000000)
  let overflow := decide (Int.tdiv d 1000000000 ≠ secs)
  let d := wrapInt64 (d + nanos)
  let overflow := overflow || decide (secs < 0 ∧ nanos < 0 ∧ d > 0)
  let overflow := overflow || decide (secs > 0 ∧ nanos > 0 ∧ d < 0)
  if overflow then
    if secs < 0 then minInt64
    else if secs > 0 then maxInt64
    else d
  else d

/-- A `timestamppb.Timestamp` message. -/
structure Timestamp where
  Seconds : Int
  Nanos : Int
  deriving DecidableEq, Repr

/-- Validity of a timestamp message (`timestamppb.Timestamp.IsValid`): not nil,
between 0001-01-01 and 9999-12-31, nanoseconds in `[0, 1e9)`. -/
def Timestamp.IsValid : Option Timestamp → Bool
  | none => false
  | some t =>
    if t.Seconds < -62135596800 then false
    else if t.Seconds > 253402300799 then false
    else if t.Nanos < 0 ∨ t.Nanos ≥ 1000000000 then false
    else true

/-- The instant `time.Unix(sec, nsec)`, in nanoseconds since the Unix epoch. -/
def timeUnix (sec nsec : Int) : Int := sec * 1000000000 + nsec

/-- Conversion `timestamppb.Timestamp.AsTime`. -/
def Timestamp.AsTime : Option Timestamp → Int
  | none => timeUnix 0 0
  | some t => timeUnix t.Seconds t.Nanos

/-- Method `time.Time.Add`. -/
def timeAdd (t : Int) (d : Int) : Int := t + d

/-- Method `time.Time.Before`. -/
def timeBefore (t u : Int) : Bool := decide (t < u)

/-! ## Store messages -/

/-- The sync state of a database row (`api.OK`, `api.NotFound`). -/
inductive SyncStatus where
  | OK
  | NotFound
  deriving DecidableEq, Repr

/-- The `storepb.InstanceOptions` fields the syncer reads. -/
structure InstanceOptions where
  SyncInterval : Option Duration
  deriving DecidableEq, Repr

/-- The `storepb.InstanceMetadata` fields the syncer reads and writes. -/
structure InstanceMetadata where
  LastSyncTime : Option Timestamp
  MysqlLowerCaseTableNames : Int
  deriving DecidableEq, Repr

/-- The `store.InstanceMessage` fields the syncer reads. -/
structure InstanceMessage where
  ResourceID : String
  UID : Int
  Activation : Bool
  Engine : Engine
  EngineVersion : String
  Options : InstanceOptions
  Metadata : InstanceMetadata
  deriving DecidableEq, Repr

/-- The `storepb.DatabaseMetadata` fields the syncer reads and writes. -/
structure DatabaseMetadata where
  LastSyncTime : Option Timestamp
  deriving DecidableEq, Repr

/-- The `store.DatabaseMessage` fields the syncer reads and writes. -/
structure DatabaseMessage where
  UID : Int
  ProjectID : String
  InstanceID : String
  DatabaseName : String
  SyncState : SyncStatus
  SuccessfulSyncTimeTs : Int
  DataShare : Bool
  ServiceName : String
  Metadata : DatabaseMetadata
  deriving DecidableEq, Repr

/-! ## Interval policy -/

/-- The constant `defaultSyncInterval`, which means never sync. -/
def defaultSyncInterval : Int := 0

/-- Function `getOrDefaultSyncInterval`. -/
def getOrDefaultSyncInterval (inst : InstanceMessage) : Int :=
  if !inst.Activation then defaultSyncInterval
  else if !Duration.IsValid inst.Options.SyncInterval then defaultSyncInterval
  else if Duration.GetSeconds inst.Options.SyncInterval = 0
      ∧ Duration.GetNanos inst.Options.SyncInterval = 0 then defaultSyncInterval
  else Duration.AsDuration inst.Options.SyncInterval

/-- Function `getOrDefaultLastSyncTime`. -/
def getOrDefaultLastSyncTime (t : Option Timestamp) : Int :=
  if Timestamp.IsValid t then Timestamp.AsTime t else timeUnix 0 0

/-! ## The periodic walker `trySyncAll` -/

/-- A Go map with the operations the walker uses (store and lookup). -/
def GoMap (κ : Type) (α : Type) : Type := κ → Option α

/-- The empty map. -/
def GoMap.empty {κ α : Type} : GoMap κ α := fun _ => none

/-- Assignment `m[k] = v` (also `sync.Map.Store`). -/
def GoMap.store {κ α : Type} [DecidableEq κ] (m : GoMap κ α) (k : κ) (v : α) : GoMap κ α :=
  fun j => if j = k then some v else m j

/-- Lookup `v, ok := m[k]`. -/
def GoMap.lookup {κ α : Type} (m : GoMap κ α) (k : κ) : Option α := m k

/-- What one tick of the instance loop observed from its collaborators. -/
structure TickEnv where
  /-- Result of `store.ListInstancesV2`. -/
  listInstances : Except Err (List InstanceMessage)
  /-- Reading of `time.Now()`. -/
  now : Int
  /-- Result of `store.ListDatabases`, read after the instance pool has drained. -/
  listDatabases : Except Err (List DatabaseMessage)

/-- What one tick did: the instances handed to the worker pool, in order, and
the coalescing map `databaseSyncMap` after the tick. -/
structure TickResult where
  dispatched : List InstanceMessage
  databaseSyncMap : GoMap Int DatabaseMessage

/-- The first loop of `trySyncAll`: the instances for which `wp.Go` is called. -/
def trySyncAllInstances (now : Int) : List InstanceMessage → List InstanceMessage
  | [] => []
  | inst :: rest =>
    let interval := getOrDefaultSyncInterval inst
    if interval = defaultSyncInterval then trySyncAllInstances now rest
    else
      let lastSyncTime := getOrDefaultLastSyncTime inst.Metadata.LastSyncTime
      let nextSyncTime := timeAdd lastSyncTime interval
      if timeBefore now nextSyncTime then trySyncAllInstances now rest
      else inst :: trySyncAllInstances now rest

/-- The loop of `trySyncAll` that fills `instancesMap`, keyed on `ResourceID`. -/
def buildInstancesMap (instances : List InstanceMessage) : GoMap String InstanceMessage :=
  instances.foldl (fun m inst => m.store inst.ResourceID inst) GoMap.empty

/-- The last loop of `trySyncAll`, over the databases, acting on `databaseSyncMap`. -/
def trySyncAllDatabases (instancesMap : GoMap String InstanceMessage) (now : Int) :
    List DatabaseMessage → GoMap Int DatabaseMessage → GoMap Int DatabaseMessage
  | [], m => m
  | database :: rest, m =>
    if database.SyncState ≠ SyncStatus.OK then trySyncAllDatabases instancesMap now rest m
    else
      match instancesMap.lookup database.InstanceID with
      | none => trySyncAllDatabases instancesMap now rest m
      | some inst =>
        let interval := getOrDefaultSyncInterval inst
        if interval = defaultSyncInterval then trySyncAllDatabases instancesMap now rest m
        else
          let lastSyncTime := getOrDefaultLastSyncTime database.Metadata.LastSyncTime
          let nextSyncTime := timeAdd lastSyncTime interval
          if timeBefore now nextSyncTime then trySyncAllDatabases instancesMap now rest m
          else trySyncAllDatabases instancesMap now rest (m.store database.UID database)

/-- Method `Syncer.trySyncAll`, on the coalescing map `m` the syncer holds. -/
def trySyncAll (env : TickEnv) (m : GoMap Int DatabaseMessage) : TickResult :=
  match env.listInstances with
  | .error _ => { dispatched := [], databaseSyncMap := m }
  | .ok instances =>
    let dispatched := trySyncAllInstances env.now instances
    let instancesMap := buildInstancesMap instances
    match env.listDatabases with
    | .error _ => { dispatched := dispatched, databaseSyncMap := m }
    | .ok databases =>
      { dispatched := dispatched,
        databaseSyncMap := trySyncAllDatabases instancesMap env.now databases m }

/-! ## Schema metadata -/

/-- The `storepb.ColumnMetadata` message: the fields the syncer reads or writes,
and `Rest` for all the fields it never touches. -/
structure ColumnMetadata where
  Name : String
  Comment : String
  UserComment : String
  Classification : String
  Rest : String
  deriving DecidableEq, Repr

/-- The `storepb.TableMetadata` message: the fields the syncer reads or writes,
the four volatile statistics, and `Rest` for all the other fields. -/
structure TableMetadata where
  Name : String
  Columns : List ColumnMetadata
  RowCount : Int
  DataSize : Int
  IndexSize : Int
  DataFree : Int
  Comment : String
  UserComment : String
  Classification : String
  Rest : String
  deriving DecidableEq, Repr

/-- The `storepb.SchemaMetadata` message. -/
structure SchemaMetadata where
  Name : String
  Tables : List TableMetadata
  Rest : String
  deriving DecidableEq, Repr

/-- The `storepb.DatabaseSchemaMetadata` message. -/
structure DatabaseSchemaMetadata where
  Name : String
  Schemas : List SchemaMetadata
  Rest : String
  deriving DecidableEq, Repr

/-- A table with the fields named in `protocmp.IgnoreFields(&storepb.TableMetadata{},
"row_count", "data_size", "index_size", "data_free")` blanked. -/
def TableMetadata.ignoreFields (t : TableMetadata) : TableMetadata :=
  { t with RowCount := 0, DataSize := 0, IndexSize := 0, DataFree := 0 }

/-- A schema with the ignored fields of every table blanked. -/
def SchemaMetadata.ignoreFields (s : SchemaMetadata) : SchemaMetadata :=
  { s with Tables := s.Tables.map TableMetadata.ignoreFields }

/-- A metadata tree with the ignored fields of every table blanked. -/
def DatabaseSchemaMetadata.ignoreFields (d : DatabaseSchemaMetadata) : DatabaseSchemaMetadata :=
  { d with Schemas := d.Schemas.map SchemaMetadata.ignoreFields }

/-- The comparison `cmp.Equal(x, y, protocmp.Transform())`: deep equality of two
messages, a nil message being equal to a nil message only. -/
def cmpEqual (x y : Option DatabaseSchemaMetadata) : Bool :=
  match x, y with
  | none, none => true
  | some a, some b => decide (a = b)
  | _, _ => false

/-- Function `equalDatabaseMetadata`: deep equality that ignores the four
volatile fields of every table. -/
def equalDatabaseMetadata (x y : Option DatabaseSchemaMetadata) : Bool :=
  match x, y with
  | none, none => true
  | some a, some b => decide (a.ignoreFields = b.ignoreFields)
  | _, _ => false

/-- Function `setUserCommentFromComment`. -/
def setUserCommentFromComment (dbSchema : DatabaseSchemaMetadata) : DatabaseSchemaMetadata :=
  { dbSchema with
    Schemas := dbSchema.Schemas.map fun schema =>
      { schema with
        Tables := schema.Tables.map fun table =>
          { table with
            UserComment := table.Comment
            Columns := table.Columns.map fun col => { col with UserComment := col.Comment } } } }

/-! ## The internal config tree (`model.DatabaseConfig`) -/

/-- Modelled from the spec: the `storepb.ColumnConfig` message is declared
outside this file; a column config carries a classification identifier, labels
and a semantic-type identifier, and its column name is its key in the table. -/
structure ColumnConfig where
  SemanticTypeId : String
  Labels : List (String × String)
  ClassificationId : String
  deriving DecidableEq

/-- Modelled from the spec: `model.TableConfig` is declared outside this file; a
table config owns a classification identifier and a map from column names to
column configs. -/
structure TableConfig where
  ClassificationID : String
  internal : Finmap (fun _ : String => ColumnConfig)
  deriving DecidableEq

/-- Modelled from the spec: `model.SchemaConfig` is declared outside this file; a
schema config owns a map from table names to table configs. -/
structure SchemaConfig where
  internal : Finmap (fun _ : String => TableConfig)
  deriving DecidableEq

/-- Modelled from the spec: `model.DatabaseConfig` is declared outside this file;
a database config owns a map from schema names to schema configs. -/
structure DatabaseConfig where
  name : String
  internal : Finmap (fun _ : String => SchemaConfig)
  deriving DecidableEq

/-- Modelled from the spec: `model.NewDatabaseConfig(nil)`, the config tree with
no node. -/
def NewDatabaseConfigNil : DatabaseConfig := { name := "", internal := ∅ }

/-- Function `isEmptyColumnConfig`. -/
def isEmptyColumnConfig (config : ColumnConfig) : Bool :=
  decide (config.Labels.length = 0) && decide (config.ClassificationId = "")
    && decide (config.SemanticTypeId = "")

/-- Modelled from the spec: method `TableConfig.CreateOrGetColumnConfig`, which
answers the node stored under `name`, after storing a fresh node when there
is none. -/
def TableConfig.CreateOrGetColumnConfig (t : TableConfig) (name : String) :
    ColumnConfig × TableConfig :=
  match t.internal.lookup name with
  | some config => (config, t)
  | none =>
    let config : ColumnConfig := { SemanticTypeId := "", Labels := [], ClassificationId := "" }
    (config, { t with internal := t.internal.insert name config })

/-- A write through the pointer that `CreateOrGetColumnConfig` answered: the node
stored under `name` becomes `config`. -/
def TableConfig.assignColumnConfig (t : TableConfig) (name : String) (config : ColumnConfig) :
    TableConfig :=
  { t with internal := t.internal.insert name config }

/-- Modelled from the spec: method `TableConfig.RemoveColumnConfig`. -/
def TableConfig.RemoveColumnConfig (t : TableConfig) (name : String) : TableConfig :=
  { t with internal := t.internal.erase name }

/-- Modelled from the spec: method `TableConfig.IsEmpty`; a table config is
empty iff its columns map and its own fields are empty. -/
def TableConfig.IsEmpty (t : TableConfig) : Bool :=
  decide (t.internal.keys.card = 0) && decide (t.ClassificationID = "")

/-- Modelled from the spec: method `SchemaConfig.CreateOrGetTableConfig`. -/
def SchemaConfig.CreateOrGetTableConfig (s : SchemaConfig) (name : String) :
    TableConfig × SchemaConfig :=
  match s.internal.lookup name with
  | some config => (config, s)
  | none =>
    let config : TableConfig := { ClassificationID := "", internal := ∅ }
    (config, { s with internal := s.internal.insert name config })

/-- A write through the pointer that `CreateOrGetTableConfig` answered. -/
def SchemaConfig.assignTableConfig (s : SchemaConfig) (name : String) (config : TableConfig) :
    SchemaConfig :=
  { s with internal := s.internal.insert name config }

/-- Modelled from the spec: method `SchemaConfig.RemoveTableConfig`. -/
def SchemaConfig.RemoveTableConfig (s : SchemaConfig) (name : String) : SchemaConfig :=
  { s with internal := s.internal.erase name }

/-- Modelled from the spec: method `SchemaConfig.IsEmpty`; a schema config is
empty iff its tables map is empty. -/
def SchemaConfig.IsEmpty (s : SchemaConfig) : Bool :=
  decide (s.internal.keys.card = 0)

/-- Modelled from the spec: method `DatabaseConfig.CreateOrGetSchemaConfig`. -/
def DatabaseConfig.CreateOrGetSchemaConfig (d : DatabaseConfig) (name : String) :
    SchemaConfig × DatabaseConfig :=
  match d.internal.lookup name with
  | some config => (config, d)
  | none =>
    let config : SchemaConfig := { internal := ∅ }
    (config, { d with internal := d.internal.insert name config })

/-- A write through the pointer that `CreateOrGetSchemaConfig` answered. -/
def DatabaseConfig.assignSchemaConfig (d : DatabaseConfig) (name : String)
    (config : SchemaConfig) : DatabaseConfig :=
  { d with internal := d.internal.insert name config }

/-- Modelled from the spec: method `DatabaseConfig.RemoveSchemaConfig`. -/
def DatabaseConfig.RemoveSchemaConfig (d : DatabaseConfig) (name : String) : DatabaseConfig :=
  { d with internal := d.internal.erase name }

/-! ## The annotator that reads classifications from comments -/

/-- The inner loop of `setClassificationAndUserCommentFromComment`, over the
columns of one table; `parseComment` is `common.GetClassificationAndUserComment`. -/
def setClassificationAndUserCommentFromCommentColumns (parseComment : String → String × String) :
    List ColumnMetadata → TableConfig → List ColumnMetadata × TableConfig
  | [], tableConfig => ([], tableConfig)
  | col :: rest, tableConfig =>
    let got := tableConfig.CreateOrGetColumnConfig col.Name
    let parsed := parseComment col.Comment
    let col1 := { col with UserComment := parsed.2 }
    let columnConfig := { got.1 with ClassificationId := parsed.1 }
    let tableConfig1 := got.2.assignColumnConfig col.Name columnConfig
    let tableConfig2 :=
      if isEmptyColumnConfig columnConfig then tableConfig1.RemoveColumnConfig col.Name
      else tableConfig1
    let done := setClassificationAndUserCommentFromCommentColumns parseComment rest tableConfig2
    (col1 :: done.1, done.2)

/-- The middle loop of `setClassificationAndUserCommentFromComment`, over the
tables of one schema. -/
def setClassificationAndUserCommentFromCommentTables (parseComment : String → String × String) :
    List TableMetadata → SchemaConfig → List TableMetadata × SchemaConfig
  | [], schemaConfig => ([], schemaConfig)
  | table :: rest, schemaConfig =>
    let got := schemaConfig.CreateOrGetTableConfig table.Name
    let parsed := parseComment table.Comment
    let tableConfig := { got.1 with ClassificationID := parsed.1 }
    let cols := setClassificationAndUserCommentFromCommentColumns parseComment table.Columns
      tableConfig
    let table1 := { table with UserComment := parsed.2, Columns := cols.1 }
    let schemaConfig1 := got.2.assignTableConfig table.Name cols.2
    let schemaConfig2 :=
      if cols.2.IsEmpty then schemaConfig1.RemoveTableConfig table.Name else schemaConfig1
    let done := setClassificationAndUserCommentFromCommentTables parseComment rest schemaConfig2
    (table1 :: done.1, done.2)

/-- The outer loop of `setClassificationAndUserCommentFromComment`, over the
schemas. -/
def setClassificationAndUserCommentFromCommentSchemas (parseComment : String → String × String) :
    List SchemaMetadata → DatabaseConfig → List SchemaMetadata × DatabaseConfig
  | [], databaseConfig => ([], databaseConfig)
  | schema :: rest, databaseConfig =>
    let got := databaseConfig.CreateOrGetSchemaConfig schema.Name
    let tables := setClassificationAndUserCommentFromCommentTables parseComment schema.Tables got.1
    let schema1 := { schema with Tables := tables.1 }
    let databaseConfig1 := got.2.assignSchemaConfig schema.Name tables.2
    let databaseConfig2 :=
      if tables.2.IsEmpty then databaseConfig1.RemoveSchemaConfig schema.Name
      else databaseConfig1
    let done := setClassificationAndUserCommentFromCommentSchemas parseComment rest databaseConfig2
    (schema1 :: done.1, done.2)

/-- Function `setClassificationAndUserCommentFromComment`: the metadata tree and
the config tree after the call, both of which the source mutates in place. -/
def setClassificationAndUserCommentFromComment (parseComment : String → String × String)
    (dbSchema : DatabaseSchemaMetadata) (databaseConfig : DatabaseConfig) :
    DatabaseSchemaMetadata × DatabaseConfig :=
  let done := setClassificationAndUserCommentFromCommentSchemas parseComment dbSchema.Schemas
    databaseConfig
  ({ dbSchema with Schemas := done.1 }, done.2)

/-- Function `disableSchemaDriftAnomalyCheck`: membership of the engine in the
map literal of six engines. -/
def disableSchemaDriftAnomalyCheck (dbTp : Engine) : Bool :=
  let m : List Engine := [Engine.MONGODB, Engine.REDIS, Engine.ORACLE, Engine.OCEANBASE_ORACLE,
    Engine.MSSQL, Engine.REDSHIFT]
  decide (dbTp ∈ m)

/-! ## Collaborator messages and calls -/

/-- A Go byte slice; a Go `string` that is compared with one is the same
sequence of bytes. -/
abbrev Bytes : Type := List UInt8

/-- The anomaly types the syncer reports (`api.AnomalyType`). -/
inductive AnomalyType where
  | InstanceConnection
  | DatabaseConnection
  | DatabaseSchemaDrift
  deriving DecidableEq, Repr

/-- The value handed to `json.Marshal`, standing for the JSON object stored as
the payload: `AnomalyInstanceConnectionPayload` and
`AnomalyDatabaseConnectionPayload` have the single field `Detail`;
`AnomalyDatabaseSchemaDriftPayload` has `Version`, `Expect` and `Actual`.
Marshalling a struct of strings never fails. -/
inductive AnomalyPayload where
  | connection (Detail : String)
  | schemaDrift (Version : String) (Expect : Bytes) (Actual : Bytes)
  deriving DecidableEq, Repr

/-- The `store.AnomalyMessage` fields the syncer sets. -/
structure AnomalyMessage where
  InstanceID : String
  DatabaseUID : Option Int
  Type_ : AnomalyType
  Payload : AnomalyPayload
  deriving DecidableEq, Repr

/-- The `store.ArchiveAnomalyMessage` fields the syncer sets. -/
structure ArchiveAnomalyMessage where
  InstanceID : Option String
  DatabaseUID : Option Int
  Type_ : AnomalyType
  deriving DecidableEq, Repr

/-- The `store.UpdateDatabaseMessage` fields the syncer sets. -/
structure UpdateDatabaseMessage where
  InstanceID : String
  DatabaseName : String
  SyncState : Option SyncStatus
  SuccessfulSyncTimeTs : Option Int
  MetadataUpsert : Option DatabaseMetadata
  deriving DecidableEq, Repr

/-- The `store.UpdateInstanceMessage` fields the syncer sets. -/
structure UpdateInstanceMessage where
  ResourceID : String
  Metadata : InstanceMetadata
  EngineVersion : Option String
  deriving DecidableEq, Repr

/-- The `store.InstanceUserMessage` fields the syncer sets. -/
structure InstanceUserMessage where
  Name : String
  Grant : String
  deriving DecidableEq, Repr

/-- The `store.DatabaseMessage` literal handed to `CreateDatabaseDefault`: the
five fields it sets. -/
structure CreateDatabaseMessage where
  InstanceID : String
  DatabaseName : String
  DataShare : Bool
  ServiceName : String
  ProjectID : String
  deriving DecidableEq, Repr

/-- One entry of `instanceMeta.Databases` in the probe of an instance. -/
structure ProbedDatabase where
  Name : String
  Datashare : Bool
  ServiceName : String
  deriving DecidableEq, Repr

/-- The result of `driver.SyncInstance` (`db.InstanceMetadata`). -/
structure InstanceMeta where
  Version : String
  Metadata : Option InstanceMetadata
  Databases : List ProbedDatabase
  InstanceRoles : List InstanceUserMessage
  deriving DecidableEq, Repr

/-- The stored snapshot of a database (`model.DBSchema`): metadata, raw dump and
internal config. -/
structure DBSchema where
  metadata : DatabaseSchemaMetadata
  schema : Bytes
  config : DatabaseConfig
  deriving DecidableEq

/-- The `store.ProjectMessage` fields the syncer reads. -/
structure ProjectMessage where
  ResourceID : String
  DataClassificationConfigID : String
  deriving DecidableEq, Repr

/-- The classification config fields the syncer reads. -/
structure DataClassificationConfig where
  ClassificationFromConfig : Bool
  deriving DecidableEq, Repr

/-- The `store.InstanceChangeHistoryMessage` fields the syncer reads; `Version`
is `Version.Version`. -/
structure InstanceChangeHistoryMessage where
  Schema : Bytes
  Version : String
  deriving DecidableEq, Repr

/-- A call the syncer makes on the driver factory, the driver, the store or the
licence service; logging is not recorded. -/
inductive Event where
  | GetInstanceV2 (resourceID : String)
  | GetAdminDatabaseDriver (instanceID : String) (databaseName : Option String)
  | UpsertActiveAnomalyV2 (anomaly : AnomalyMessage)
  | ArchiveAnomalyV2 (archive : ArchiveAnomalyMessage)
  | DriverSyncInstance
  | DriverSyncDBSchema
  | DriverDump
  | DriverClose
  | UpdateInstanceV2 (update : UpdateInstanceMessage)
  | UpsertInstanceUsers (instanceUID : Int) (users : List InstanceUserMessage)
  | ListDatabases (instanceID : Option String)
  | CreateDatabaseDefault (create : CreateDatabaseMessage)
  | GetDBSchema (databaseUID : Int)
  | GetProjectV2 (resourceID : String)
  | GetDataClassificationConfigByID (id : String)
  | UpdateDatabase (update : UpdateDatabaseMessage)
  | UpsertDBSchema (databaseUID : Int) (metadata : DatabaseSchemaMetadata) (rawDump : Bytes)
      (config : DatabaseConfig)
  | IsFeatureEnabledForInstance (instanceID : String)
  | ListInstanceChangeHistory (instanceUID : Int) (databaseUID : Int) (limit : Nat)
  deriving DecidableEq

/-- The constant `api.DefaultProjectID`. -/
def DefaultProjectID : String := "default"

/-- Method `Syncer.upsertDatabaseConnectionAnomaly`: the store call it makes.
The outcome `_storeErr` of that call, `NotFound` or not, is at most logged. -/
def upsertDatabaseConnectionAnomaly (inst : InstanceMessage) (database : DatabaseMessage)
    (connErr : Option Err) (_storeErr : Option Err) : List Event :=
  match connErr with
  | some err =>
    [Event.UpsertActiveAnomalyV2
      { InstanceID := inst.ResourceID
        DatabaseUID := some database.UID
        Type_ := AnomalyType.DatabaseConnection
        Payload := AnomalyPayload.connection err.Error }]
  | none =>
    [Event.ArchiveAnomalyV2
      { InstanceID := none
        DatabaseUID := some database.UID
        Type_ := AnomalyType.DatabaseConnection }]

/-- Method `Syncer.upsertInstanceConnectionAnomaly`: the store call it makes.
The outcome `_storeErr` of that call, `NotFound` or not, is at most logged. -/
def upsertInstanceConnectionAnomaly (inst : InstanceMessage) (connErr : Option Err)
    (_storeErr : Option Err) : List Event :=
  match connErr with
  | some err =>
    [Event.UpsertActiveAnomalyV2
      { InstanceID := inst.ResourceID
        DatabaseUID := none
        Type_ := AnomalyType.InstanceConnection
        Payload := AnomalyPayload.connection err.Error }]
  | none =>
    [Event.ArchiveAnomalyV2
      { InstanceID := some inst.ResourceID
        DatabaseUID := none
        Type_ := AnomalyType.InstanceConnection }]

/-! ## The instance task `SyncInstance` -/

/-- Modelled from the spec: the store's database rows, a table keyed on
`(InstanceID, DatabaseName)`. -/
abbrev DatabaseTable : Type := List DatabaseMessage

/-- Whether a row has the key `(instanceID, databaseName)`. -/
def DatabaseMessage.hasKey (d : DatabaseMessage) (instanceID databaseName : String) : Bool :=
  decide (d.InstanceID = instanceID) && decide (d.DatabaseName = databaseName)

/-- Modelled from the spec: `store.ListDatabases`, the rows of one instance, or
all rows when no instance is given. -/
def storeListDatabases (table : DatabaseTable) (instanceID : Option String) :
    List DatabaseMessage :=
  match instanceID with
  | none => table
  | some id => table.filter fun d => decide (d.InstanceID = id)

/-- A UID no row of the table has. -/
def freshUID (table : DatabaseTable) : Int :=
  (table.map fun d => d.UID).foldl max 0 + 1

/-- Modelled from the spec: the row that `store.CreateDatabaseDefault` adds, in
sync state `OK` and never synced. -/
def newDatabaseRow (uid : Int) (create : CreateDatabaseMessage) : DatabaseMessage :=
  { UID := uid
    ProjectID := create.ProjectID
    InstanceID := create.InstanceID
    DatabaseName := create.DatabaseName
    SyncState := SyncStatus.OK
    SuccessfulSyncTimeTs := 0
    DataShare := create.DataShare
    ServiceName := create.ServiceName
    Metadata := { LastSyncTime := none } }

/-- Modelled from the spec: `store.CreateDatabaseDefault`, which adds a row with
sync state `OK` under a key the table does not hold, and fails on a key it
holds. -/
def storeCreateDatabaseDefault (table : DatabaseTable) (create : CreateDatabaseMessage) :
    Except Err DatabaseTable :=
  if table.any fun d => d.hasKey create.InstanceID create.DatabaseName then
    Except.error { Error := "database already exists" }
  else
    Except.ok (table ++ [newDatabaseRow (freshUID table) create])

/-- The row after an `UpdateDatabaseMessage` is applied: the fields the message
sets are overwritten. -/
def DatabaseMessage.applyUpdate (d : DatabaseMessage) (update : UpdateDatabaseMessage) :
    DatabaseMessage :=
  { d with
    SyncState := update.SyncState.getD d.SyncState
    SuccessfulSyncTimeTs := update.SuccessfulSyncTimeTs.getD d.SuccessfulSyncTimeTs
    Metadata := update.MetadataUpsert.getD d.Metadata }

/-- Modelled from the spec: `store.UpdateDatabase`, which updates the row under
the key of the message and fails when the table holds no such row. -/
def storeUpdateDatabase (table : DatabaseTable) (update : UpdateDatabaseMessage) :
    Except Err DatabaseTable :=
  if table.any fun d => d.hasKey update.InstanceID update.DatabaseName then
    Except.ok (table.map fun d =>
      if d.hasKey update.InstanceID update.DatabaseName then d.applyUpdate update else d)
  else
    Except.error { Error := "database not found" }

/-- Function `equalInstanceMetadata`: deep equality that ignores `last_sync_time`. -/
def equalInstanceMetadata (x y : Option InstanceMetadata) : Bool :=
  match x, y with
  | none, none => true
  | some a, some b => decide (a.MysqlLowerCaseTableNames = b.MysqlLowerCaseTableNames)
  | _, _ => false

/-- Getter `GetMysqlLowerCaseTableNames`, which answers `0` on a nil message. -/
def InstanceMetadata.GetMysqlLowerCaseTableNames : Option InstanceMetadata → Int
  | none => 0
  | some m => m.MysqlLowerCaseTableNames

/-- What one run of `SyncInstance` observed from its collaborators, the
database table apart. -/
structure InstanceSyncEnv where
  /-- Field `profile.Readonly`. -/
  Readonly : Bool
  /-- Error of `dbFactory.GetAdminDatabaseDriver`, if any. -/
  getAdminDatabaseDriver : Option Err
  /-- Error of `store.UpsertActiveAnomalyV2`, if any. -/
  upsertActiveAnomalyV2 : Option Err
  /-- Error of `store.ArchiveAnomalyV2`, if any. -/
  archiveAnomalyV2 : Option Err
  /-- Result of `driver.SyncInstance`. -/
  driverSyncInstance : Except Err InstanceMeta
  /-- Reading of `timestamppb.Now()`. -/
  now : Timestamp
  /-- Error of `store.UpdateInstanceV2`, if any. -/
  updateInstanceV2 : Option Err
  /-- Error of `store.UpsertInstanceUsers`, if any. -/
  upsertInstanceUsers : Option Err
  /-- Error of `store.ListDatabases`, if any. -/
  listDatabases : Option Err

/-- What one run of `SyncInstance` did: the two values it returns, the calls it
made, and the database table afterwards. -/
structure InstanceSyncResult where
  updatedInstance : Option InstanceMessage
  err : Option RetErr
  events : List Event
  table : DatabaseTable

/-- What a reconciliation loop did: the error that stopped it, if any, the
calls it made, and the database table afterwards. -/
structure LoopResult where
  err : Option RetErr
  events : List Event
  table : DatabaseTable

/-- The first reconciliation loop of `SyncInstance`: a row is created for every
probed database whose name no listed row has. -/
def syncInstanceCreateLoop (inst : InstanceMessage) (databases : List DatabaseMessage) :
    List ProbedDatabase → DatabaseTable → LoopResult
  | [], table => { err := none, events := [], table := table }
  | databaseMetadata :: rest, table =>
    let exist := databases.any fun database =>
      decide (database.DatabaseName = databaseMetadata.Name)
    if !exist then
      let create : CreateDatabaseMessage :=
        { InstanceID := inst.ResourceID
          DatabaseName := databaseMetadata.Name
          DataShare := databaseMetadata.Datashare
          ServiceName := databaseMetadata.ServiceName
          ProjectID := DefaultProjectID }
      match storeCreateDatabaseDefault table create with
      | Except.error err =>
        { err := some (RetErr.wrapf err
            "failed to create instance %q database %q in sync runner"
            [inst.ResourceID, databaseMetadata.Name])
          events := [Event.CreateDatabaseDefault create]
          table := table }
      | Except.ok table1 =>
        let done := syncInstanceCreateLoop inst databases rest table1
        { done with events := Event.CreateDatabaseDefault create :: done.events }
    else syncInstanceCreateLoop inst databases rest table

/-- The second reconciliation loop of `SyncInstance`: every listed row whose
name the probe does not have is set to `NotFound`. -/
def syncInstanceNotFoundLoop (inst : InstanceMessage) (probed : List ProbedDatabase) :
    List DatabaseMessage → DatabaseTable → LoopResult
  | [], table => { err := none, events := [], table := table }
  | database :: rest, table =>
    let exist := probed.any fun databaseMetadata =>
      decide (database.DatabaseName = databaseMetadata.Name)
    if !exist then
      let update : UpdateDatabaseMessage :=
        { InstanceID := inst.ResourceID
          DatabaseName := database.DatabaseName
          SyncState := some SyncStatus.NotFound
          SuccessfulSyncTimeTs := none
          MetadataUpsert := none }
      match storeUpdateDatabase table update with
      | Except.error _ =>
        { err := some (RetErr.errorf "failed to update database %q for instance %q"
            [database.DatabaseName, inst.ResourceID])
          events := [Event.UpdateDatabase update]
          table := table }
      | Except.ok table1 =>
        let done := syncInstanceNotFoundLoop inst probed rest table1
        { done with events := Event.UpdateDatabase update :: done.events }
    else syncInstanceNotFoundLoop inst probed rest table

/-- The reconciliation of `SyncInstance` (from `store.ListDatabases` to the
end), once the instance row and the instance users are written. -/
def syncInstanceReconcile (env : InstanceSyncEnv) (table : DatabaseTable)
    (inst : InstanceMessage) (instanceMeta : InstanceMeta) : LoopResult :=
  match env.listDatabases with
  | some err =>
    { err := some (RetErr.wrapf err
        "failed to sync database for instance: %s. Failed to find database list"
        [inst.ResourceID])
      events := [Event.ListDatabases (some inst.ResourceID)]
      table := table }
  | none =>
    let databases := storeListDatabases table (some inst.ResourceID)
    let created := syncInstanceCreateLoop inst databases instanceMeta.Databases table
    match created.err with
    | some err =>
      { err := some err
        events := Event.ListDatabases (some inst.ResourceID) :: created.events
        table := created.table }
    | none =>
      let marked := syncInstanceNotFoundLoop inst instanceMeta.Databases databases created.table
      { err := marked.err
        events := Event.ListDatabases (some inst.ResourceID) :: (created.events ++ marked.events)
        table := marked.table }

/-- Method `Syncer.SyncInstance`, on the database table the store holds. The
deferred `driver.Close` is the last call of every run that opened a driver. -/
def SyncInstance (env : InstanceSyncEnv) (table : DatabaseTable) (inst : InstanceMessage) :
    InstanceSyncResult :=
  if env.Readonly then { updatedInstance := none, err := none, events := [], table := table }
  else
    match env.getAdminDatabaseDriver with
    | some err =>
      { updatedInstance := none
        err := some (RetErr.same err)
        events := Event.GetAdminDatabaseDriver inst.ResourceID none
          :: upsertInstanceConnectionAnomaly inst (some err) env.upsertActiveAnomalyV2
        table := table }
    | none =>
      let opened := Event.GetAdminDatabaseDriver inst.ResourceID none
        :: upsertInstanceConnectionAnomaly inst none env.archiveAnomalyV2
      match env.driverSyncInstance with
      | Except.error err =>
        { updatedInstance := none
          err := some (RetErr.wrapf err "failed to sync instance: %s" [inst.ResourceID])
          events := opened ++ [Event.DriverSyncInstance, Event.DriverClose]
          table := table }
      | Except.ok instanceMeta =>
        let updateInstance : UpdateInstanceMessage :=
          { ResourceID := inst.ResourceID
            Metadata :=
              { LastSyncTime := some env.now
                MysqlLowerCaseTableNames :=
                  InstanceMetadata.GetMysqlLowerCaseTableNames instanceMeta.Metadata }
            EngineVersion :=
              if instanceMeta.Version ≠ inst.EngineVersion then some instanceMeta.Version
              else none }
        let updateInstance :=
          if !equalInstanceMetadata instanceMeta.Metadata (some inst.Metadata) then
            { updateInstance with
              Metadata := { updateInstance.Metadata with
                MysqlLowerCaseTableNames :=
                  InstanceMetadata.GetMysqlLowerCaseTableNames instanceMeta.Metadata } }
          else updateInstance
        match env.updateInstanceV2 with
        | some err =>
          { updatedInstance := none
            err := some (RetErr.same err)
            events := opened ++ [Event.DriverSyncInstance, Event.UpdateInstanceV2 updateInstance,
              Event.DriverClose]
            table := table }
        | none =>
          let updatedInstance : InstanceMessage :=
            { inst with
              Metadata := updateInstance.Metadata
              EngineVersion := updateInstance.EngineVersion.getD inst.EngineVersion }
          let instanceUsers := instanceMeta.InstanceRoles.map fun instanceUser =>
            ({ Name := instanceUser.Name, Grant := instanceUser.Grant } : InstanceUserMessage)
          let written := opened ++ [Event.DriverSyncInstance,
            Event.UpdateInstanceV2 updateInstance,
            Event.UpsertInstanceUsers inst.UID instanceUsers]
          match env.upsertInstanceUsers with
          | some err =>
            { updatedInstance := some updatedInstance
              err := some (RetErr.same err)
              events := written ++ [Event.DriverClose]
              table := table }
          | none =>
            let reconciled := syncInstanceReconcile env table inst instanceMeta
            { updatedInstance := some updatedInstance
              err := reconciled.err
              events := written ++ reconciled.events ++ [Event.DriverClose]
              table := reconciled.table }

/-! ## The database task `SyncDatabaseSchema` -/

/-- What one run of `SyncDatabaseSchema` observed from its collaborators. -/
structure SyncEnv where
  /-- Field `profile.Readonly`. -/
  Readonly : Bool
  /-- Result of `store.GetInstanceV2`. -/
  getInstanceV2 : Except Err (Option InstanceMessage)
  /-- Error of `dbFactory.GetAdminDatabaseDriver`, if any. -/
  getAdminDatabaseDriver : Option Err
  /-- Error of `store.UpsertActiveAnomalyV2` for the connection anomaly, if any. -/
  upsertConnectionAnomaly : Option Err
  /-- Error of `store.ArchiveAnomalyV2` for the connection anomaly, if any. -/
  archiveConnectionAnomaly : Option Err
  /-- Result of `driver.SyncDBSchema`. -/
  driverSyncDBSchema : Except Err DatabaseSchemaMetadata
  /-- Result of `store.GetDBSchema`. -/
  getDBSchema : Except Err (Option DBSchema)
  /-- Result of `store.GetProjectV2`. -/
  getProjectV2 : Except Err ProjectMessage
  /-- Result of `store.GetDataClassificationConfigByID`. -/
  getDataClassificationConfigByID : Except Err DataClassificationConfig
  /-- Reading of `time.Now().Unix()`. -/
  nowUnix : Int
  /-- Error of `store.UpdateDatabase`, if any. -/
  updateDatabase : Option Err
  /-- Result of `driver.Dump`: the bytes written to the buffer. -/
  driverDump : Except Err Bytes
  /-- Error of `store.UpsertDBSchema`, if any. -/
  upsertDBSchema : Option Err
  /-- Result of `licenseService.IsFeatureEnabledForInstance`: `none` is `nil`. -/
  isFeatureEnabledForInstance : Option Err
  /-- Result of `store.ListInstanceChangeHistory`. -/
  listInstanceChangeHistory : Except Err (List InstanceChangeHistoryMessage)
  /-- Error of `store.UpsertActiveAnomalyV2` for the drift anomaly, if any. -/
  upsertDriftAnomaly : Option Err
  /-- Error of `store.ArchiveAnomalyV2` for the drift anomaly, if any. -/
  archiveDriftAnomaly : Option Err

/-- What a stage of `SyncDatabaseSchema` did: the error it returns, if any, and
the calls it made. -/
structure StageResult where
  err : Option RetErr
  events : List Event

/-- The annotation step of `SyncDatabaseSchema`: the engine check that forces
`ClassificationFromConfig`, then the annotator of the resulting mode. -/
def syncDatabaseSchemaAnnotate (parseComment : String → String × String)
    (inst : InstanceMessage) (classificationConfig : DataClassificationConfig)
    (databaseMetadata : DatabaseSchemaMetadata) (dbModelConfig : DatabaseConfig) :
    DatabaseSchemaMetadata × DatabaseConfig :=
  let classificationConfig : DataClassificationConfig :=
    if inst.Engine ≠ Engine.MYSQL ∧ inst.Engine ≠ Engine.POSTGRES then
      { classificationConfig with ClassificationFromConfig := true }
    else classificationConfig
  if classificationConfig.ClassificationFromConfig then
    (setUserCommentFromComment databaseMetadata, dbModelConfig)
  else
    setClassificationAndUserCommentFromComment parseComment databaseMetadata dbModelConfig

/-- What the snapshot step did: the error it returns, if any, the calls it
made, and the value of `rawDump` after it. -/
structure SnapshotResult where
  err : Option RetErr
  events : List Event
  rawDump : Bytes

/-- The snapshot step of `SyncDatabaseSchema` (from `var oldDatabaseMetadata` to
the end of the `if force || !cmp.Equal(...)` block); `dbModelConfig` is the tree
on which `BuildDatabaseConfig` is called. -/
def syncDatabaseSchemaSnapshot (env : SyncEnv) (database : DatabaseMessage) (force : Bool)
    (dbSchema : Option DBSchema) (databaseMetadata : DatabaseSchemaMetadata)
    (dbModelConfig : DatabaseConfig) : SnapshotResult :=
  let oldDatabaseMetadata : Option DatabaseSchemaMetadata := dbSchema.map fun s => s.metadata
  let rawDump : Bytes :=
    match dbSchema with
    | none => []
    | some s => s.schema
  if force || !cmpEqual oldDatabaseMetadata (some databaseMetadata) then
    let dumped : SnapshotResult :=
      if force || !equalDatabaseMetadata oldDatabaseMetadata (some databaseMetadata) then
        match env.driverDump with
        | Except.error err =>
          { err := some (RetErr.wrapf err "failed to dump database schema for database %q"
              [database.DatabaseName])
            events := [Event.DriverDump]
            rawDump := rawDump }
        | Except.ok schemaBuf => { err := none, events := [Event.DriverDump], rawDump := schemaBuf }
      else { err := none, events := [], rawDump := rawDump }
    match dumped.err with
    | some err => { err := some err, events := dumped.events, rawDump := dumped.rawDump }
    | none =>
      let upsert := Event.UpsertDBSchema database.UID databaseMetadata dumped.rawDump
        dbModelConfig
      match env.upsertDBSchema with
      | some err =>
        { err := some (RetErr.wrapf err "failed to upsert database schema for database %q"
            [database.DatabaseName])
          events := dumped.events ++ [upsert]
          rawDump := dumped.rawDump }
      | none => { err := none, events := dumped.events ++ [upsert], rawDump := dumped.rawDump }
  else { err := none, events := [], rawDump := rawDump }

/-- The drift check of `SyncDatabaseSchema` (from `// Check schema drift` to the
end): the calls it makes; every path of it returns `nil`. -/
def syncDatabaseSchemaDrift (env : SyncEnv) (inst : InstanceMessage)
    (database : DatabaseMessage) (rawDump : Bytes) : List Event :=
  match env.isFeatureEnabledForInstance with
  | some _ => [Event.IsFeatureEnabledForInstance inst.ResourceID]
  | none =>
    if disableSchemaDriftAnomalyCheck inst.Engine then
      [Event.IsFeatureEnabledForInstance inst.ResourceID]
    else
      let limit := 1
      let asked := [Event.IsFeatureEnabledForInstance inst.ResourceID,
        Event.ListInstanceChangeHistory inst.UID database.UID limit]
      match env.listInstanceChangeHistory with
      | Except.error _ => asked
      | Except.ok list =>
        let latestSchema : Bytes := rawDump
        match list with
        | [] => asked
        | latest :: _ =>
          if latest.Schema ≠ latestSchema then
            asked ++ [Event.UpsertActiveAnomalyV2
              { InstanceID := inst.ResourceID
                DatabaseUID := some database.UID
                Type_ := AnomalyType.DatabaseSchemaDrift
                Payload := AnomalyPayload.schemaDrift latest.Version latest.Schema
                  latestSchema }]
          else
            asked ++ [Event.ArchiveAnomalyV2
              { InstanceID := none
                DatabaseUID := some database.UID
                Type_ := AnomalyType.DatabaseSchemaDrift }]

/-- The value of `dbModelConfig` before the annotation step: the internal config
of the stored snapshot, or `model.NewDatabaseConfig(nil)` when there is none. -/
def initialModelConfig (dbSchema : Option DBSchema) : DatabaseConfig :=
  match dbSchema with
  | none => NewDatabaseConfigNil
  | some s => s.config

/-- The part of `SyncDatabaseSchema` that runs with the driver open, from
`driver.SyncDBSchema` to the end, the deferred `driver.Close` apart. -/
def syncDatabaseSchemaWithDriver (parseComment : String → String × String) (env : SyncEnv)
    (inst : InstanceMessage) (database : DatabaseMessage) (force : Bool) : StageResult :=
  match env.driverSyncDBSchema with
  | Except.error err =>
    { err := some (RetErr.wrapf err "failed to sync database schema for database %q"
        [database.DatabaseName])
      events := [Event.DriverSyncDBSchema] }
  | Except.ok databaseMetadata =>
    match env.getDBSchema with
    | Except.error err =>
      { err := some (RetErr.wrapf err "failed to get database schema for database %q"
          [database.DatabaseName])
        events := [Event.DriverSyncDBSchema, Event.GetDBSchema database.UID] }
    | Except.ok dbSchema =>
      let dbModelConfig : DatabaseConfig := initialModelConfig dbSchema
      match env.getProjectV2 with
      | Except.error err =>
        { err := some (RetErr.wrapf err "failed to get project by id \"%s\""
            [database.ProjectID])
          events := [Event.DriverSyncDBSchema, Event.GetDBSchema database.UID,
            Event.GetProjectV2 database.ProjectID] }
      | Except.ok project =>
        let read := [Event.DriverSyncDBSchema, Event.GetDBSchema database.UID,
          Event.GetProjectV2 database.ProjectID,
          Event.GetDataClassificationConfigByID project.DataClassificationConfigID]
        match env.getDataClassificationConfigByID with
        | Except.error err =>
          { err := some (RetErr.wrapf err "failed to get classification config by id \"%s\""
              [project.DataClassificationConfigID])
            events := read }
        | Except.ok classificationConfig =>
          let annotated := syncDatabaseSchemaAnnotate parseComment inst classificationConfig
            databaseMetadata dbModelConfig
          let ts := env.nowUnix
          let update : UpdateDatabaseMessage :=
            { InstanceID := database.InstanceID
              DatabaseName := database.DatabaseName
              SyncState := some SyncStatus.OK
              SuccessfulSyncTimeTs := some ts
              MetadataUpsert := some { LastSyncTime := some { Seconds := ts, Nanos := 0 } } }
          match env.updateDatabase with
          | some err =>
            { err := some (RetErr.wrapf err "failed to update database %q for instance %q"
                [database.DatabaseName, database.InstanceID])
              events := read ++ [Event.UpdateDatabase update] }
          | none =>
            let snapshot := syncDatabaseSchemaSnapshot env database force dbSchema annotated.1
              annotated.2
            match snapshot.err with
            | some err =>
              { err := some err, events := read ++ [Event.UpdateDatabase update] ++ snapshot.events }
            | none =>
              { err := none
                events := read ++ [Event.UpdateDatabase update] ++ snapshot.events
                  ++ syncDatabaseSchemaDrift env inst database snapshot.rawDump }

/-- Method `Syncer.SyncDatabaseSchema`: the error it returns and the calls it
makes, in order. The deferred `driver.Close` is the last call of every run that
opened a driver. -/
def SyncDatabaseSchema (parseComment : String → String × String) (env : SyncEnv)
    (database : DatabaseMessage) (force : Bool) : StageResult :=
  if env.Readonly then { err := none, events := [] }
  else
    match env.getInstanceV2 with
    | Except.error err =>
      { err := some (RetErr.wrapf err "failed to get instance %q" [database.InstanceID])
        events := [Event.GetInstanceV2 database.InstanceID] }
    | Except.ok none =>
      { err := some (RetErr.errorf "instance %q not found" [database.InstanceID])
        events := [Event.GetInstanceV2 database.InstanceID] }
    | Except.ok (some inst) =>
      let asked := [Event.GetInstanceV2 database.InstanceID,
        Event.GetAdminDatabaseDriver inst.ResourceID (some database.DatabaseName)]
      match env.getAdminDatabaseDriver with
      | some err =>
        { err := some (RetErr.same err)
          events := asked
            ++ upsertDatabaseConnectionAnomaly inst database (some err) env.upsertConnectionAnomaly }
      | none =>
        let done := syncDatabaseSchemaWithDriver parseComment env inst database force
        { err := done.err
          events := asked
            ++ upsertDatabaseConnectionAnomaly inst database none env.archiveConnectionAnomaly
            ++ done.events ++ [Event.DriverClose] }

/-! ## Keyed updates with pruning

The three loops of the annotator have one shape: fetch or create the node under
a key, change it, store it, and remove it when it is empty. -/

/-- A map from names to nodes. -/
abbrev NodeMap (V : Type) : Type := Finmap (fun _ : String => V)

/-- One keyed update: the node under `k` (or `dflt` when there is none) is
changed by `g` and stored, unless it is then empty, in which case `k` is
removed. -/
def putOrPrune {V : Type} (dflt : V) (isEmpty : V → Bool) (k : String) (g : V → V)
    (m : NodeMap V) : NodeMap V :=
  if isEmpty (g ((m.lookup k).getD dflt)) then m.erase k
  else m.insert k (g ((m.lookup k).getD dflt))

/-- A run of keyed updates, in order. -/
def runUpdates {V : Type} (dflt : V) (isEmpty : V → Bool) (ops : List (String × (V → V)))
    (m : NodeMap V) : NodeMap V :=
  ops.foldl (fun m op => putOrPrune dflt isEmpty op.1 op.2 m) m

/-- The changes a run of keyed updates makes under the key `k`, in order. -/
def changesAt {V : Type} (k : String) (ops : List (String × (V → V))) : List (V → V) :=
  (ops.filter fun op => decide (op.1 = k)).map fun op => op.2

/-- A list of changes applied in order. -/
def applyAll {V : Type} (gs : List (V → V)) (v : V) : V :=
  gs.foldl (fun v g => g v) v

/-- The node with no content of a table's column map. -/
def emptyColumnConfig : ColumnConfig :=
  { SemanticTypeId := "", Labels := [], ClassificationId := "" }

/-- The node with no content of a schema's table map. -/
def emptyTableConfig : TableConfig := { ClassificationID := "", internal := ∅ }

/-- The node with no content of a database's schema map. -/
def emptySchemaConfig : SchemaConfig := { internal := ∅ }

/-- The keyed update that the column loop makes for one column. -/
def columnUpdate (parseComment : String → String × String) (col : ColumnMetadata) :
    String × (ColumnConfig → ColumnConfig) :=
  (col.Name, fun config => { config with ClassificationId := (parseComment col.Comment).1 })

/-- The keyed update that the table loop makes for one table. -/
def tableUpdate (parseComment : String → String × String) (table : TableMetadata) :
    String × (TableConfig → TableConfig) :=
  (table.Name, fun config =>
    { ClassificationID := (parseComment table.Comment).1
      internal := runUpdates emptyColumnConfig isEmptyColumnConfig
        (table.Columns.map (columnUpdate parseComment)) config.internal })

/-- The keyed update that the schema loop makes for one schema. -/
def schemaUpdate (parseComment : String → String × String) (schema : SchemaMetadata) :
    String × (SchemaConfig → SchemaConfig) :=
  (schema.Name, fun config =>
    { internal := runUpdates emptyTableConfig TableConfig.IsEmpty
        (schema.Tables.map (tableUpdate parseComment)) config.internal })

/-- A column after the annotator that reads classifications from comments. -/
def annotatedColumn (parseComment : String → String × String) (col : ColumnMetadata) :
    ColumnMetadata :=
  { col with UserComment := (parseComment col.Comment).2 }

/-- A table after the annotator that reads classifications from comments. -/
def annotatedTable (parseComment : String → String × String) (table : TableMetadata) :
    TableMetadata :=
  { table with
    UserComment := (parseComment table.Comment).2
    Columns := table.Columns.map (annotatedColumn parseComment) }

/-- A schema after the annotator that reads classifications from comments. -/
def annotatedSchema (parseComment : String → String × String) (schema : SchemaMetadata) :
    SchemaMetadata :=
  { schema with Tables := schema.Tables.map (annotatedTable parseComment) }

/-! ## Observations on the calls of a run -/

/-- Whether a call is `driver.Dump`. -/
def Event.isDump : Event → Bool
  | Event.DriverDump => true
  | _ => false

/-- Whether a call is `store.UpsertDBSchema`. -/
def Event.isUpsertDBSchema : Event → Bool
  | Event.UpsertDBSchema _ _ _ _ => true
  | _ => false

/-- Whether a call upserts an anomaly of type `DatabaseSchemaDrift`. -/
def Event.isDriftUpsert : Event → Bool
  | Event.UpsertActiveAnomalyV2 anomaly => decide (anomaly.Type_ = AnomalyType.DatabaseSchemaDrift)
  | _ => false

/-- Whether a call is made on the driver. -/
def Event.isDriverCall : Event → Bool
  | Event.DriverSyncInstance => true
  | Event.DriverSyncDBSchema => true
  | Event.DriverDump => true
  | Event.DriverClose => true
  | _ => false

/-- Whether a call writes to the store. -/
def Event.isStoreWrite : Event → Bool
  | Event.UpsertActiveAnomalyV2 _ => true
  | Event.ArchiveAnomalyV2 _ => true
  | Event.UpdateInstanceV2 _ => true
  | Event.UpsertInstanceUsers _ _ => true
  | Event.CreateDatabaseDefault _ => true
  | Event.UpdateDatabase _ => true
  | Event.UpsertDBSchema _ _ _ _ => true
  | _ => false

/-- The tables of a metadata tree. -/
def DatabaseSchemaMetadata.tables (d : DatabaseSchemaMetadata) : List TableMetadata :=
  d.Schemas.flatMap fun schema => schema.Tables

/-- A comment splitter that finds no classification. -/
def exampleParseComment (s : String) : String × String := ("", s)

/-- A MySQL instance with a five-minute sync interval. -/
def exampleInstance : InstanceMessage :=
  { ResourceID := "prod", UID := 1, Activation := true, Engine := Engine.MYSQL,
    EngineVersion := "8.0", Options := { SyncInterval := some { Seconds := 300, Nanos := 0 } },
    Metadata := { LastSyncTime := none, MysqlLowerCaseTableNames := 0 } }

/-- A database of `exampleInstance`. -/
def exampleDatabase : DatabaseMessage :=
  { UID := 7, ProjectID := "shop", InstanceID := "prod", DatabaseName := "orders",
    SyncState := SyncStatus.OK, SuccessfulSyncTimeTs := 0, DataShare := false,
    ServiceName := "", Metadata := { LastSyncTime := none } }

/-- Metadata with one table `t` of one column `c`; `rowCount` is the table's
row count and `userComment` the user comment of the table and the column. -/
def exampleMetadata (rowCount : Int) (userComment : String) : DatabaseSchemaMetadata :=
  { Name := "orders"
    Schemas := [{
      Name := "public"
      Tables := [{
        Name := "t"
        Columns := [{ Name := "c", Comment := "id", UserComment := userComment,
                      Classification := "", Rest := "" }]
        RowCount := rowCount, DataSize := 0, IndexSize := 0, DataFree := 0
        Comment := "items", UserComment := userComment, Classification := "", Rest := "" }]
      Rest := "" }]
    Rest := "" }

/-- A stored snapshot: the annotated metadata with 100 rows and a three-byte dump. -/
def exampleStored : DBSchema :=
  { metadata :=
      { (exampleMetadata 100 "") with
        Schemas := [{
          Name := "public"
          Tables := [{
            Name := "t"
            Columns := [{ Name := "c", Comment := "id", UserComment := "id",
                          Classification := "", Rest := "" }]
            RowCount := 100, DataSize := 0, IndexSize := 0, DataFree := 0
            Comment := "items", UserComment := "items", Classification := "", Rest := "" }]
          Rest := "" }] }
    schema := [1, 2, 3]
    config := NewDatabaseConfigNil }

/-- A run in which every collaborator succeeds: the driver reports `live`, the
store holds `dbSchema`, the project classifies from config, the dump is two
bytes, and the drift feature is not licensed. -/
def exampleEnv (live : DatabaseSchemaMetadata) (dbSchema : Option DBSchema) : SyncEnv :=
  { Readonly := false
    getInstanceV2 := Except.ok (some exampleInstance)
    getAdminDatabaseDriver := none
    upsertConnectionAnomaly := none
    archiveConnectionAnomaly := none
    driverSyncDBSchema := Except.ok live
    getDBSchema := Except.ok dbSchema
    getProjectV2 := Except.ok { ResourceID := "shop", DataClassificationConfigID := "cfg" }
    getDataClassificationConfigByID := Except.ok { ClassificationFromConfig := true }
    nowUnix := 1700000000
    updateDatabase := none
    driverDump := Except.ok [4, 5]
    upsertDBSchema := none
    isFeatureEnabledForInstance := some { Error := "feature not licensed" }
    listInstanceChangeHistory := Except.ok []
    upsertDriftAnomaly := none
    archiveDriftAnomaly := none }

/-- An instance whose sync interval is `seconds` seconds. -/
def exampleIntervalInstance (activation : Bool) (seconds : Int) : InstanceMessage :=
  { ResourceID := "i", UID := 1, Activation := activation, Engine := Engine.MYSQL,
    EngineVersion := "8", Options := { SyncInterval := some { Seconds := seconds, Nanos := 0 } },
    Metadata := { LastSyncTime := none, MysqlLowerCaseTableNames := 0 } }

/-! ## The reconciled table of the specification -/

/-- A row after reconciliation with the probe of `inst`: a row of that instance
whose name the probe does not have is in state `NotFound`; every other row is
as it was. -/
def reconciledRow (inst : InstanceMessage) (probed : List ProbedDatabase)
    (d : DatabaseMessage) : DatabaseMessage :=
  if d.InstanceID = inst.ResourceID ∧ ∀ p ∈ probed, p.Name ≠ d.DatabaseName then
    { d with SyncState := SyncStatus.NotFound }
  else d

/-- A table with two rows of instance `prod`, named `a` and `b`. -/
def exampleTable : DatabaseTable :=
  [{ UID := 1, ProjectID := "shop", InstanceID := "prod", DatabaseName := "a",
     SyncState := SyncStatus.OK, SuccessfulSyncTimeTs := 0, DataShare := false,
     ServiceName := "", Metadata := { LastSyncTime := none } },
   { UID := 2, ProjectID := "shop", InstanceID := "prod", DatabaseName := "b",
     SyncState := SyncStatus.OK, SuccessfulSyncTimeTs := 0, DataShare := false,
     ServiceName := "", Metadata := { LastSyncTime := none } }]

/-- A run of `SyncInstance` in which every collaborator succeeds and the probe
reports the databases `a` and `c`. -/
def exampleInstanceSyncEnv : InstanceSyncEnv :=
  { Readonly := false
    getAdminDatabaseDriver := none
    upsertActiveAnomalyV2 := none
    archiveAnomalyV2 := none
    driverSyncInstance := Except.ok
      { Version := "8.0", Metadata := none,
        Databases := [{ Name := "a", Datashare := false, ServiceName := "" },
                      { Name := "c", Datashare := true, ServiceName := "svc" }],
        InstanceRoles := [] }
    now := { Seconds := 1700000000, Nanos := 0 }
    updateInstanceV2 := none
    upsertInstanceUsers := none
    listDatabases := none }

/-! ## The eligibility predicates of the specification -/

/-- The specification's `due(instance, now)`: the effective interval is not
Never and `now ≥ lastSyncTime + effectiveInterval`, where `lastSyncTime` is the
stored `LastSyncTime` of the instance if valid and the epoch origin otherwise. -/
def specDue (inst : InstanceMessage) (now : Int) : Bool :=
  decide (getOrDefaultSyncInterval inst ≠ defaultSyncInterval) &&
    decide (now ≥ (if Timestamp.IsValid inst.Metadata.LastSyncTime
        then Timestamp.AsTime inst.Metadata.LastSyncTime else timeUnix 0 0)
      + getOrDefaultSyncInterval inst)

/-- The parent instance of a database in a tick: the instance that
`instancesMap` holds under the database's `InstanceID`, which is the last
listed instance with that `ResourceID`. -/
def specParent (instances : List InstanceMessage) (database : DatabaseMessage) :
    Option InstanceMessage :=
  (instances.filter fun inst => decide (inst.ResourceID = database.InstanceID)).getLast?

/-- Database eligibility as the specification words it: the sync state is `OK`
and the parent instance exists and is `due` at `now`, on the parent's own
`LastSyncTime`. -/
def specDatabaseDueOnParent (instances : List InstanceMessage) (now : Int)
    (database : DatabaseMessage) : Bool :=
  decide (database.SyncState = SyncStatus.OK) &&
    match specParent instances database with
    | none => false
    | some inst => specDue inst now

/-- Database eligibility on the database's own clock: the sync state is `OK`,
the parent instance exists, its effective interval is not Never, and
`now ≥ lastSyncTime + effectiveInterval` where `lastSyncTime` is the stored
`LastSyncTime` of the database if valid and the epoch origin otherwise. -/
def specDatabaseDue (instances : List InstanceMessage) (now : Int)
    (database : DatabaseMessage) : Bool :=
  decide (database.SyncState = SyncStatus.OK) &&
    match specParent instances database with
    | none => false
    | some inst =>
      decide (getOrDefaultSyncInterval inst ≠ defaultSyncInterval) &&
        decide (now ≥ (if Timestamp.IsValid database.Metadata.LastSyncTime
            then Timestamp.AsTime database.Metadata.LastSyncTime else timeUnix 0 0)
          + getOrDefaultSyncInterval inst)

/-! ## The drift decision of the specification -/

/-- Whether a call upserts or archives an anomaly. -/
def Event.isAnomalyCall : Event → Bool
  | Event.UpsertActiveAnomalyV2 _ => true
  | Event.ArchiveAnomalyV2 _ => true
  | _ => false

/-- The value of `rawDump` when the drift check starts: the bytes `driver.Dump`
wrote when the snapshot step dumped, and otherwise the stored raw dump (empty
when there is no stored snapshot). -/
def specRawDump (env : SyncEnv) (force : Bool) (dbSchema : Option DBSchema)
    (databaseMetadata : DatabaseSchemaMetadata) : Bytes :=
  if force || !equalDatabaseMetadata (dbSchema.map fun s => s.metadata)
      (some databaseMetadata) then
    match env.driverDump with
    | Except.ok schemaBuf => schemaBuf
    | Except.error _ => []
  else
    match dbSchema with
    | none => []
    | some s => s.schema

/-- The anomaly calls the specification asks of the drift check, given the
change history that was read: none when it is empty; otherwise, with `latest`
its first row, an upsert of a `DatabaseSchemaDrift` anomaly keyed on the
database UID with payload `Version`, `Expect`, `Actual` when the schema of
`latest` differs from `rawDump`, and an archive of that anomaly when they are
equal. -/
def specDriftCalls (inst : InstanceMessage) (database : DatabaseMessage) (rawDump : Bytes)
    (history : List InstanceChangeHistoryMessage) : List Event :=
  match history with
  | [] => []
  | latest :: _ =>
    if latest.Schema ≠ rawDump then
      [Event.UpsertActiveAnomalyV2
        { InstanceID := inst.ResourceID
          DatabaseUID := some database.UID
          Type_ := AnomalyType.DatabaseSchemaDrift
          Payload := AnomalyPayload.schemaDrift latest.Version latest.Schema rawDump }]
    else
      [Event.ArchiveAnomalyV2
        { InstanceID := none
          DatabaseUID := some database.UID
          Type_ := AnomalyType.DatabaseSchemaDrift }]


/-! ## Empty nodes of a config tree -/

/-- Whether every node of a map satisfies `p`. -/
def allNodes {V : Type} (m : NodeMap V) (p : V → Bool) : Bool :=
  decide (∀ k ∈ m.keys, ((m.lookup k).map p).getD true = true)

/-- Whether a table config holds no empty column config. -/
def TableConfig.noEmptyNode (t : TableConfig) : Bool :=
  allNodes t.internal fun config => !isEmptyColumnConfig config

/-- Whether a schema config holds no empty table config and no empty column
config. -/
def SchemaConfig.noEmptyNode (s : SchemaConfig) : Bool :=
  allNodes s.internal fun config => !config.IsEmpty && config.noEmptyNode

/-- Whether a config tree contains no empty node: no empty schema config, no
empty table config and no empty column config. -/
def DatabaseConfig.noEmptyNode (d : DatabaseConfig) : Bool :=
  allNodes d.internal fun config => !config.IsEmpty && config.noEmptyNode

/-- A config tree in which the table `t` of the schema `public` holds, under
the column name `dropped`, a column config with no labels, no classification
and no semantic type. -/
def exampleConfigWithEmptyNode : DatabaseConfig :=
  { name := "orders"
    internal := Finmap.singleton "public"
      { internal := Finmap.singleton "t"
          { ClassificationID := ""
            internal := Finmap.singleton "dropped" emptyColumnConfig } } }


/-! ## Places of a config tree and the names of a metadata tree -/

/-- The schema config at the place `s` of a config tree. -/
def DatabaseConfig.schemaAt (d : DatabaseConfig) (s : String) : Option SchemaConfig :=
  d.internal.lookup s

/-- The table config at the place `(s, t)` of a config tree. -/
def DatabaseConfig.tableAt (d : DatabaseConfig) (s t : String) : Option TableConfig :=
  (d.internal.lookup s).bind fun schemaConfig => schemaConfig.internal.lookup t

/-- The column config at the place `(s, t, c)` of a config tree. -/
def DatabaseConfig.columnAt (d : DatabaseConfig) (s t c : String) : Option ColumnConfig :=
  (d.internal.lookup s).bind fun schemaConfig =>
    (schemaConfig.internal.lookup t).bind fun tableConfig => tableConfig.internal.lookup c

/-- Whether the metadata tree has a schema named `s`. -/
def DatabaseSchemaMetadata.namesSchema (d : DatabaseSchemaMetadata) (s : String) : Bool :=
  d.Schemas.any fun schema => decide (schema.Name = s)

/-- Whether the metadata tree has a schema named `s` with a table named `t`. -/
def DatabaseSchemaMetadata.namesTable (d : DatabaseSchemaMetadata) (s t : String) : Bool :=
  d.Schemas.any fun schema => decide (schema.Name = s) &&
    schema.Tables.any fun table => decide (table.Name = t)

/-- Whether the metadata tree has a schema named `s` with a table named `t` with
a column named `c`. -/
def DatabaseSchemaMetadata.namesColumn (d : DatabaseSchemaMetadata) (s t c : String) : Bool :=
  d.Schemas.any fun schema => decide (schema.Name = s) &&
    schema.Tables.any fun table => decide (table.Name = t) &&
      table.Columns.any fun col => decide (col.Name = c)

/-- A config tree in which the table `t` of the schema `public` holds, under
the column name `c`, a column config with no labels, no classification and no
semantic type, and nothing else. -/
def exampleConfigWithEmptyNamedNode : DatabaseConfig :=
  { name := "orders"
    internal := Finmap.singleton "public"
      { internal := Finmap.singleton "t"
          { ClassificationID := ""
            internal := Finmap.singleton "c" emptyColumnConfig } } }


/-! # Properties -/

/-- Truncated division by a positive literal, in terms of floor division. -/
theorem tdiv_billion (d : Int) :
    Int.tdiv d 1000000000 = if 0 ≤ d then d / 1000000000 else -((-d) / 1000000000) := by
  split
  · next h => exact Int.tdiv_eq_ediv h (by decide)
  · next h =>
    have h1 : d = -(-d) := by omega
    rw [h1, Int.neg_tdiv, Int.tdiv_eq_ediv (by omega) (by decide)]
    simp

/-- On a valid duration message `AsDuration` is the nanosecond count, saturated
to the `int64` range. -/
theorem AsDuration_of_valid (x : Duration) (h : Duration.IsValid (some x) = true) :
    Duration.AsDuration (some x)
      = max minInt64 (min maxInt64 (x.Seconds * 1000000000 + x.Nanos)) := by
  simp only [Duration.IsValid] at h
  have h1 : ¬ x.Seconds < -315576000000 := by
    intro hc; simp [hc] at h
  have h2 : ¬ x.Seconds > 315576000000 := by
    intro hc; simp [h1, hc] at h
  have h3 : ¬ (x.Nanos ≤ -1000000000 ∨ x.Nanos ≥ 1000000000) := by
    intro hc; simp [h1, h2, hc] at h
  have h4 : ¬ ((x.Seconds > 0 ∧ x.Nanos < 0) ∨ (x.Seconds < 0 ∧ x.Nanos > 0)) := by
    intro hc; simp [h1, h2, h3, hc] at h
  simp only [Duration.AsDuration, Duration.GetSeconds, Duration.GetNanos, wrapInt64,
    tdiv_billion, minInt64, maxInt64]
  simp only [Bool.or_eq_true, decide_eq_true_eq]
  split_ifs <;> omega

/-- C4 (amended). Interval policy: `getOrDefaultSyncInterval` answers Never (the
zero `defaultSyncInterval`) when `Activation` is false, when
`Options.SyncInterval` is absent or invalid, and when its seconds and nanos are
both zero; in every other case it answers the stated nanosecond count
`seconds * 10^9 + nanos` saturated to the `int64` range of a `time.Duration`:
exactly that count when it fits, the largest `int64` when the count is above
the range and the smallest when it is below; and that answer is different from
Never. -/
theorem getOrDefaultSyncInterval_policy (inst : InstanceMessage) :
    (inst.Activation = false → getOrDefaultSyncInterval inst = defaultSyncInterval) ∧
    (inst.Options.SyncInterval = none → getOrDefaultSyncInterval inst = defaultSyncInterval) ∧
    (Duration.IsValid inst.Options.SyncInterval = false →
      getOrDefaultSyncInterval inst = defaultSyncInterval) ∧
    (Duration.GetSeconds inst.Options.SyncInterval = 0
        ∧ Duration.GetNanos inst.Options.SyncInterval = 0 →
      getOrDefaultSyncInterval inst = defaultSyncInterval) ∧
    (inst.Activation = true → Duration.IsValid inst.Options.SyncInterval = true →
      ¬ (Duration.GetSeconds inst.Options.SyncInterval = 0
        ∧ Duration.GetNanos inst.Options.SyncInterval = 0) →
      getOrDefaultSyncInterval inst
        = max minInt64 (min maxInt64
            (Duration.GetSeconds inst.Options.SyncInterval * 1000000000
              + Duration.GetNanos inst.Options.SyncInterval))
      ∧ getOrDefaultSyncInterval inst ≠ defaultSyncInterval
      ∧ (minInt64 ≤ Duration.GetSeconds inst.Options.SyncInterval * 1000000000
            + Duration.GetNanos inst.Options.SyncInterval
          ∧ Duration.GetSeconds inst.Options.SyncInterval * 1000000000
            + Duration.GetNanos inst.Options.SyncInterval ≤ maxInt64 →
        getOrDefaultSyncInterval inst
          = Duration.GetSeconds inst.Options.SyncInterval * 1000000000
            + Duration.GetNanos inst.Options.SyncInterval)
      ∧ (maxInt64 < Duration.GetSeconds inst.Options.SyncInterval * 1000000000
            + Duration.GetNanos inst.Options.SyncInterval →
        getOrDefaultSyncInterval inst = maxInt64)
      ∧ (Duration.GetSeconds inst.Options.SyncInterval * 1000000000
            + Duration.GetNanos inst.Options.SyncInterval < minInt64 →
        getOrDefaultSyncInterval inst = minInt64)) := by
  refine ⟨?_, ?_, ?_, ?_, ?_⟩
  · intro h
    simp [getOrDefaultSyncInterval, h]
  · intro h
    simp [getOrDefaultSyncInterval, h, Duration.IsValid]
  · intro h
    simp [getOrDefaultSyncInterval, h]
  · intro h
    simp [getOrDefaultSyncInterval, h]
  · intro hact hvalid hnz
    have hres : getOrDefaultSyncInterval inst
        = Duration.AsDuration inst.Options.SyncInterval := by
      simp only [getOrDefaultSyncInterval, hact, hvalid, Bool.not_true, if_neg hnz]
      simp
    cases hsi : inst.Options.SyncInterval with
    | none => rw [hsi] at hvalid; simp [Duration.IsValid] at hvalid
    | some x =>
      rw [hsi] at hvalid hnz
      have hsat := AsDuration_of_valid x hvalid
      simp only [Duration.IsValid] at hvalid
      have h1 : ¬ x.Seconds < -315576000000 := by
        intro hc; simp [hc] at hvalid
      have h2 : ¬ x.Seconds > 315576000000 := by
        intro hc; simp [h1, hc] at hvalid
      have h3 : ¬ (x.Nanos ≤ -1000000000 ∨ x.Nanos ≥ 1000000000) := by
        intro hc; simp [h1, h2, hc] at hvalid
      have h4 : ¬ ((x.Seconds > 0 ∧ x.Nanos < 0) ∨ (x.Seconds < 0 ∧ x.Nanos > 0)) := by
        intro hc; simp [h1, h2, h3, hc] at hvalid
      simp only [Duration.GetSeconds, Duration.GetNanos] at hnz
      rw [hres, hsi, hsat]
      simp only [Duration.GetSeconds, Duration.GetNanos, minInt64, maxInt64, defaultSyncInterval]
      refine ⟨trivial, ?_, ?_, ?_, ?_⟩
      · omega
      · omega
      · omega
      · omega

/-- C4 (amended) at concrete instances: an inactive one, an active one whose
interval is five minutes, and an active one whose interval is a thousand years
(a valid duration message), for which the answer is the largest `int64`. -/
theorem getOrDefaultSyncInterval_policy_witness :
    getOrDefaultSyncInterval (exampleIntervalInstance false 300) = defaultSyncInterval
    ∧ getOrDefaultSyncInterval (exampleIntervalInstance true 300) = 300000000000
    ∧ getOrDefaultSyncInterval (exampleIntervalInstance true 31557600000) = maxInt64 :=
  ⟨(getOrDefaultSyncInterval_policy (exampleIntervalInstance false 300)).1 rfl,
   ((getOrDefaultSyncInterval_policy (exampleIntervalInstance true 300)).2.2.2.2
      rfl (by decide) (by decide)).2.2.1 (by decide),
   ((getOrDefaultSyncInterval_policy (exampleIntervalInstance true 31557600000)).2.2.2.2
      rfl (by decide) (by decide)).2.2.2.1 (by decide)⟩

/-- C4 as stated fails: an active instance whose interval is the valid duration
message of a thousand years (31557600000 seconds, no nanos) does not get that
duration: the stated count is `31557600000 * 10^9` nanoseconds, and the answer
is the largest `int64`, about 292 years. -/
theorem getOrDefaultSyncInterval_exact_counterexample :
    (exampleIntervalInstance true 31557600000).Activation = true
    ∧ Duration.IsValid (exampleIntervalInstance true 31557600000).Options.SyncInterval = true
    ∧ Duration.GetSeconds (exampleIntervalInstance true 31557600000).Options.SyncInterval
        = 31557600000
    ∧ Duration.GetNanos (exampleIntervalInstance true 31557600000).Options.SyncInterval = 0
    ∧ getOrDefaultSyncInterval (exampleIntervalInstance true 31557600000)
        = 9223372036854775807
    ∧ getOrDefaultSyncInterval (exampleIntervalInstance true 31557600000)
        ≠ 31557600000 * 1000000000 + 0 := by
  decide

/-- The instance loop keeps exactly the instances that are due. -/
theorem trySyncAllInstances_eq_filter (now : Int) (instances : List InstanceMessage) :
    trySyncAllInstances now instances = instances.filter fun inst => specDue inst now := by
  induction instances with
  | nil => rfl
  | cons inst rest ih =>
    simp only [trySyncAllInstances, List.filter_cons, ih, getOrDefaultLastSyncTime,
      timeAdd, timeBefore]
    by_cases h1 : getOrDefaultSyncInterval inst = defaultSyncInterval
    · simp [h1, specDue]
    · by_cases h2 : now < (if Timestamp.IsValid inst.Metadata.LastSyncTime = true
            then Timestamp.AsTime inst.Metadata.LastSyncTime else timeUnix 0 0)
            + getOrDefaultSyncInterval inst
      · simp [h1, h2, specDue, not_le.mpr h2]
      · simp [h1, h2, specDue, not_lt.mp h2]

/-- C5. Instance eligibility: when the store returns the instances, `trySyncAll`
hands to the worker pool exactly the listed instances that are `due` at the
tick time, in order; so a listed instance is dispatched iff its effective
interval is not Never and `now ≥ lastSyncTime + interval`, an instance whose
effective interval is Never is not dispatched, and one at the boundary
`now = lastSyncTime + interval` is. -/
theorem trySyncAll_dispatches_iff_due (env : TickEnv) (m : GoMap Int DatabaseMessage)
    (instances : List InstanceMessage) (hlist : env.listInstances = Except.ok instances) :
    (trySyncAll env m).dispatched = instances.filter (fun inst => specDue inst env.now)
    ∧ (∀ inst ∈ instances, (inst ∈ (trySyncAll env m).dispatched ↔
        (getOrDefaultSyncInterval inst ≠ defaultSyncInterval
          ∧ env.now ≥ (if Timestamp.IsValid inst.Metadata.LastSyncTime
              then Timestamp.AsTime inst.Metadata.LastSyncTime else timeUnix 0 0)
            + getOrDefaultSyncInterval inst)))
    ∧ (∀ inst, getOrDefaultSyncInterval inst = defaultSyncInterval →
        inst ∉ (trySyncAll env m).dispatched)
    ∧ (∀ inst ∈ instances, getOrDefaultSyncInterval inst ≠ defaultSyncInterval →
        env.now = (if Timestamp.IsValid inst.Metadata.LastSyncTime
              then Timestamp.AsTime inst.Metadata.LastSyncTime else timeUnix 0 0)
            + getOrDefaultSyncInterval inst →
        inst ∈ (trySyncAll env m).dispatched) := by
  have hd : (trySyncAll env m).dispatched
      = instances.filter (fun inst => specDue inst env.now) := by
    simp only [trySyncAll, hlist]
    cases env.listDatabases <;> simp [trySyncAllInstances_eq_filter]
  refine ⟨hd, ?_, ?_, ?_⟩
  · intro inst hin
    rw [hd, List.mem_filter]
    simp [specDue, hin]
  · intro inst hnever
    rw [hd, List.mem_filter]
    simp [specDue, hnever]
  · intro inst hin hne hnow
    rw [hd, List.mem_filter]
    refine ⟨hin, ?_⟩
    simp only [specDue, Bool.and_eq_true, decide_eq_true_eq]
    exact ⟨hne, le_of_eq hnow.symm⟩

/-- C5 at a tick with an inactive instance and an active one with a one-minute
interval, never synced, at the boundary `now = 60 s`: only the second is
dispatched. -/
theorem trySyncAll_dispatches_iff_due_witness :
    (trySyncAll
      { listInstances := Except.ok
          [{ ResourceID := "a", UID := 1, Activation := false, Engine := Engine.MYSQL,
             EngineVersion := "8", Options := { SyncInterval := some { Seconds := 60, Nanos := 0 } },
             Metadata := { LastSyncTime := none, MysqlLowerCaseTableNames := 0 } },
           { ResourceID := "b", UID := 2, Activation := true, Engine := Engine.MYSQL,
             EngineVersion := "8", Options := { SyncInterval := some { Seconds := 60, Nanos := 0 } },
             Metadata := { LastSyncTime := none, MysqlLowerCaseTableNames := 0 } }],
        now := 60000000000,
        listDatabases := Except.ok [] } GoMap.empty).dispatched
      = [{ ResourceID := "b", UID := 2, Activation := true, Engine := Engine.MYSQL,
           EngineVersion := "8", Options := { SyncInterval := some { Seconds := 60, Nanos := 0 } },
           Metadata := { LastSyncTime := none, MysqlLowerCaseTableNames := 0 } }] := by
  rw [(trySyncAll_dispatches_iff_due _ GoMap.empty _ rfl).1]
  decide
/-- What a run of stores keyed by `key` leaves under `k`: the last stored value
whose key is `k`, or what was there before. -/
theorem foldl_store_lookup {κ α : Type} [DecidableEq κ] (key : α → κ) (l : List α)
    (m : GoMap κ α) (k : κ) :
    (l.foldl (fun m a => m.store (key a) a) m).lookup k
      = ((l.filter fun a => decide (key a = k)).getLast?).or (m.lookup k) := by
  induction l using List.reverseRecOn with
  | nil => rfl
  | append_singleton l a ih =>
    rw [List.foldl_append, List.filter_append]
    simp only [List.foldl_cons, List.foldl_nil, List.filter_cons, List.filter_nil]
    by_cases h : key a = k
    · simp [h, GoMap.lookup, GoMap.store]
    · have hk : ¬ k = key a := fun hc => h hc.symm
      simp only [h, decide_False, Bool.false_eq_true, if_false, List.append_nil]
      rw [← ih]
      simp [GoMap.lookup, GoMap.store, hk]

/-- The map `instancesMap` holds the parent instance of every database. -/
theorem buildInstancesMap_lookup (instances : List InstanceMessage)
    (database : DatabaseMessage) :
    (buildInstancesMap instances).lookup database.InstanceID = specParent instances database := by
  have h := foldl_store_lookup (fun inst : InstanceMessage => inst.ResourceID) instances
    GoMap.empty database.InstanceID
  rw [buildInstancesMap, h, specParent]
  simp [GoMap.lookup, GoMap.empty]

/-- One step of the database loop, by the eligibility of the database. -/
theorem trySyncAllDatabases_cons (instances : List InstanceMessage) (now : Int)
    (database : DatabaseMessage) (rest : List DatabaseMessage) (m : GoMap Int DatabaseMessage) :
    trySyncAllDatabases (buildInstancesMap instances) now (database :: rest) m
      = trySyncAllDatabases (buildInstancesMap instances) now rest
          (if specDatabaseDue instances now database then m.store database.UID database
            else m) := by
  rw [trySyncAllDatabases, buildInstancesMap_lookup]
  by_cases h0 : database.SyncState = SyncStatus.OK
  · cases hp : specParent instances database with
    | none => simp [h0, specDatabaseDue, hp]
    | some inst =>
      simp only [getOrDefaultLastSyncTime, timeAdd, timeBefore, specDatabaseDue, hp]
      by_cases h1 : getOrDefaultSyncInterval inst = defaultSyncInterval
      · simp [h0, h1]
      · by_cases h2 : now < (if Timestamp.IsValid database.Metadata.LastSyncTime = true
            then Timestamp.AsTime database.Metadata.LastSyncTime else timeUnix 0 0)
            + getOrDefaultSyncInterval inst
        · simp [h0, h1, h2, not_le.mpr h2]
        · simp [h0, h1, h2, not_lt.mp h2]
  · simp [h0, specDatabaseDue]

/-- The database loop stores exactly the databases that are eligible on their
own clock, in order. -/
theorem trySyncAllDatabases_eq_foldl (instances : List InstanceMessage) (now : Int)
    (databases : List DatabaseMessage) (m : GoMap Int DatabaseMessage) :
    trySyncAllDatabases (buildInstancesMap instances) now databases m
      = (databases.filter (specDatabaseDue instances now)).foldl
          (fun m database => m.store database.UID database) m := by
  induction databases generalizing m with
  | nil => rfl
  | cons database rest ih =>
    rw [trySyncAllDatabases_cons, ih, List.filter_cons]
    cases specDatabaseDue instances now database <;> simp

/-- C6 (amended). Database eligibility: when the store returns the instances and
then the databases, `trySyncAll` stores into the coalescing map, keyed on
`Database.UID` and in order, exactly the listed databases whose `SyncState` is
`OK`, whose parent instance exists with an effective interval other than Never,
and for which `now ≥ lastSyncTime + interval` on the database's own
`Metadata.LastSyncTime` (the epoch origin when invalid); after the tick the map
holds under each UID the last such database, or what it held before; and no
database whose parent's effective interval is Never is stored. -/
theorem trySyncAll_stores_iff_database_due (env : TickEnv) (m : GoMap Int DatabaseMessage)
    (instances : List InstanceMessage) (databases : List DatabaseMessage)
    (hinstances : env.listInstances = Except.ok instances)
    (hdatabases : env.listDatabases = Except.ok databases) :
    (trySyncAll env m).databaseSyncMap
      = (databases.filter (specDatabaseDue instances env.now)).foldl
          (fun m database => m.store database.UID database) m
    ∧ (∀ uid, (trySyncAll env m).databaseSyncMap.lookup uid
        = (((databases.filter (specDatabaseDue instances env.now)).filter
            fun database => decide (database.UID = uid)).getLast?).or (m.lookup uid))
    ∧ (∀ database inst, specParent instances database = some inst →
        getOrDefaultSyncInterval inst = defaultSyncInterval →
        database ∉ databases.filter (specDatabaseDue instances env.now)) := by
  have hmap : (trySyncAll env m).databaseSyncMap
      = (databases.filter (specDatabaseDue instances env.now)).foldl
          (fun m database => m.store database.UID database) m := by
    simp only [trySyncAll, hinstances, hdatabases]
    exact trySyncAllDatabases_eq_foldl instances env.now databases m
  refine ⟨hmap, ?_, ?_⟩
  · intro uid
    rw [hmap]
    exact foldl_store_lookup (fun database : DatabaseMessage => database.UID) _ m uid
  · intro database inst hparent hnever hmem
    rw [List.mem_filter] at hmem
    have hdue := hmem.2
    simp [specDatabaseDue, hparent, hnever] at hdue

/-- C6 (amended) at a tick with one instance of a one-minute interval and two of
its databases, one synced 30 s ago and one never synced: only the second is
stored. -/
theorem trySyncAll_stores_iff_database_due_witness :
    (trySyncAll
      { listInstances := Except.ok
          [{ ResourceID := "a", UID := 1, Activation := true, Engine := Engine.MYSQL,
             EngineVersion := "8", Options := { SyncInterval := some { Seconds := 60, Nanos := 0 } },
             Metadata := { LastSyncTime := none, MysqlLowerCaseTableNames := 0 } }],
        now := 1030000000000,
        listDatabases := Except.ok
          [{ UID := 7, ProjectID := "p", InstanceID := "a", DatabaseName := "x",
             SyncState := SyncStatus.OK, SuccessfulSyncTimeTs := 1000, DataShare := false,
             ServiceName := "", Metadata := { LastSyncTime := some { Seconds := 1000, Nanos := 0 } } },
           { UID := 8, ProjectID := "p", InstanceID := "a", DatabaseName := "y",
             SyncState := SyncStatus.OK, SuccessfulSyncTimeTs := 0, DataShare := false,
             ServiceName := "", Metadata := { LastSyncTime := none } }] }
      GoMap.empty).databaseSyncMap.lookup 7 = none
    ∧ (trySyncAll
      { listInstances := Except.ok
          [{ ResourceID := "a", UID := 1, Activation := true, Engine := Engine.MYSQL,
             EngineVersion := "8", Options := { SyncInterval := some { Seconds := 60, Nanos := 0 } },
             Metadata := { LastSyncTime := none, MysqlLowerCaseTableNames := 0 } }],
        now := 1030000000000,
        listDatabases := Except.ok
          [{ UID := 7, ProjectID := "p", InstanceID := "a", DatabaseName := "x",
             SyncState := SyncStatus.OK, SuccessfulSyncTimeTs := 1000, DataShare := false,
             ServiceName := "", Metadata := { LastSyncTime := some { Seconds := 1000, Nanos := 0 } } },
           { UID := 8, ProjectID := "p", InstanceID := "a", DatabaseName := "y",
             SyncState := SyncStatus.OK, SuccessfulSyncTimeTs := 0, DataShare := false,
             ServiceName := "", Metadata := { LastSyncTime := none } }] }
      GoMap.empty).databaseSyncMap.lookup 8
      = some { UID := 8, ProjectID := "p", InstanceID := "a", DatabaseName := "y",
               SyncState := SyncStatus.OK, SuccessfulSyncTimeTs := 0, DataShare := false,
               ServiceName := "", Metadata := { LastSyncTime := none } } := by
  constructor
  · rw [(trySyncAll_stores_iff_database_due _ GoMap.empty _ _ rfl rfl).2.1 7]
    decide
  · rw [(trySyncAll_stores_iff_database_due _ GoMap.empty _ _ rfl rfl).2.1 8]
    decide

/-- C6 as stated fails: with a parent instance that is due on its own clock
(one-minute interval, never synced, `now = 1030 s`) and a database in state
`OK` that was synced at `1000 s`, the database is eligible on the parent's clock
yet the tick leaves the coalescing map without it. -/
theorem trySyncAll_parent_clock_counterexample :
    specDatabaseDueOnParent
      [{ ResourceID := "a", UID := 1, Activation := true, Engine := Engine.MYSQL,
         EngineVersion := "8", Options := { SyncInterval := some { Seconds := 60, Nanos := 0 } },
         Metadata := { LastSyncTime := none, MysqlLowerCaseTableNames := 0 } }]
      1030000000000
      { UID := 7, ProjectID := "p", InstanceID := "a", DatabaseName := "x",
        SyncState := SyncStatus.OK, SuccessfulSyncTimeTs := 1000, DataShare := false,
        ServiceName := "", Metadata := { LastSyncTime := some { Seconds := 1000, Nanos := 0 } } }
      = true
    ∧ (trySyncAll
      { listInstances := Except.ok
          [{ ResourceID := "a", UID := 1, Activation := true, Engine := Engine.MYSQL,
             EngineVersion := "8", Options := { SyncInterval := some { Seconds := 60, Nanos := 0 } },
             Metadata := { LastSyncTime := none, MysqlLowerCaseTableNames := 0 } }],
        now := 1030000000000,
        listDatabases := Except.ok
          [{ UID := 7, ProjectID := "p", InstanceID := "a", DatabaseName := "x",
             SyncState := SyncStatus.OK, SuccessfulSyncTimeTs := 1000, DataShare := false,
             ServiceName := "",
             Metadata := { LastSyncTime := some { Seconds := 1000, Nanos := 0 } } }] }
      GoMap.empty).databaseSyncMap.lookup 7 = none := by
  constructor <;> decide
/-- Full equality of two metadata trees implies their equality up to the
volatile table fields. -/
theorem equalDatabaseMetadata_of_cmpEqual (x y : Option DatabaseSchemaMetadata)
    (h : cmpEqual x y = true) : equalDatabaseMetadata x y = true := by
  cases x <;> cases y <;> simp_all [cmpEqual, equalDatabaseMetadata]

/-- The drift check neither dumps nor upserts a snapshot. -/
theorem syncDatabaseSchemaDrift_filter (env : SyncEnv) (inst : InstanceMessage)
    (database : DatabaseMessage) (rawDump : Bytes) :
    (syncDatabaseSchemaDrift env inst database rawDump).filter Event.isDump = []
    ∧ (syncDatabaseSchemaDrift env inst database rawDump).filter Event.isUpsertDBSchema = [] := by
  unfold syncDatabaseSchemaDrift
  constructor <;>
  · split
    · rfl
    · split
      · rfl
      · split
        · rfl
        · split
          · rfl
          · dsimp only
            split <;> simp [Event.isDump, Event.isUpsertDBSchema]

/-- In a run that reaches the snapshot step, the dumps and the snapshot upserts
are those of the snapshot step. -/
theorem SyncDatabaseSchema_filter_of_reach (parseComment : String → String × String)
    (env : SyncEnv) (database : DatabaseMessage) (force : Bool) (inst : InstanceMessage)
    (live : DatabaseSchemaMetadata) (dbSchema : Option DBSchema) (project : ProjectMessage)
    (classificationConfig : DataClassificationConfig)
    (hreadonly : env.Readonly = false)
    (hinst : env.getInstanceV2 = Except.ok (some inst))
    (hopen : env.getAdminDatabaseDriver = none)
    (hlive : env.driverSyncDBSchema = Except.ok live)
    (hstored : env.getDBSchema = Except.ok dbSchema)
    (hproject : env.getProjectV2 = Except.ok project)
    (hclass : env.getDataClassificationConfigByID = Except.ok classificationConfig)
    (hupdate : env.updateDatabase = none) :
    (SyncDatabaseSchema parseComment env database force).events.filter Event.isDump
      = (syncDatabaseSchemaSnapshot env database force dbSchema
            (syncDatabaseSchemaAnnotate parseComment inst classificationConfig live
              (initialModelConfig dbSchema)).1
            (syncDatabaseSchemaAnnotate parseComment inst classificationConfig live
              (initialModelConfig dbSchema)).2).events.filter Event.isDump
    ∧ (SyncDatabaseSchema parseComment env database force).events.filter Event.isUpsertDBSchema
      = (syncDatabaseSchemaSnapshot env database force dbSchema
            (syncDatabaseSchemaAnnotate parseComment inst classificationConfig live
              (initialModelConfig dbSchema)).1
            (syncDatabaseSchemaAnnotate parseComment inst classificationConfig live
              (initialModelConfig dbSchema)).2).events.filter Event.isUpsertDBSchema := by
  simp only [SyncDatabaseSchema, hreadonly, hinst, hopen, syncDatabaseSchemaWithDriver, hlive,
    hstored, hproject, hclass, hupdate]
  generalize (syncDatabaseSchemaSnapshot env database force dbSchema _ _) = snap
  have hd := syncDatabaseSchemaDrift_filter env inst database snap.rawDump
  cases hs : snap.err with
  | none =>
    simp [List.filter_append, hd.1, hd.2, upsertDatabaseConnectionAnomaly, Event.isDump,
      Event.isUpsertDBSchema]
  | some err =>
    simp [List.filter_append, upsertDatabaseConnectionAnomaly, Event.isDump,
      Event.isUpsertDBSchema]

/-- C1. Dump stability: in a run of `SyncDatabaseSchema` with `force = false`
that reaches the snapshot step and in which the stored metadata and the
annotated live metadata are equal under `equalDatabaseMetadata`, `driver.Dump`
is called zero times; `store.UpsertDBSchema` is called exactly when the two
trees are not fully equal, once, and then with the annotated live metadata and
the stored raw dump. -/
theorem SyncDatabaseSchema_dump_stability (parseComment : String → String × String)
    (env : SyncEnv) (database : DatabaseMessage) (inst : InstanceMessage)
    (live : DatabaseSchemaMetadata) (stored : DBSchema) (project : ProjectMessage)
    (classificationConfig : DataClassificationConfig)
    (hreadonly : env.Readonly = false)
    (hinst : env.getInstanceV2 = Except.ok (some inst))
    (hopen : env.getAdminDatabaseDriver = none)
    (hlive : env.driverSyncDBSchema = Except.ok live)
    (hstored : env.getDBSchema = Except.ok (some stored))
    (hproject : env.getProjectV2 = Except.ok project)
    (hclass : env.getDataClassificationConfigByID = Except.ok classificationConfig)
    (hupdate : env.updateDatabase = none)
    (hequal : equalDatabaseMetadata (some stored.metadata)
      (some (syncDatabaseSchemaAnnotate parseComment inst classificationConfig live
        stored.config).1) = true) :
    (SyncDatabaseSchema parseComment env database false).events.filter Event.isDump = []
    ∧ (SyncDatabaseSchema parseComment env database false).events.filter Event.isUpsertDBSchema
      = if cmpEqual (some stored.metadata)
            (some (syncDatabaseSchemaAnnotate parseComment inst classificationConfig live
              stored.config).1) = true
        then []
        else [Event.UpsertDBSchema database.UID
          (syncDatabaseSchemaAnnotate parseComment inst classificationConfig live stored.config).1
          stored.schema
          (syncDatabaseSchemaAnnotate parseComment inst classificationConfig live
            stored.config).2] := by
  have hreach := SyncDatabaseSchema_filter_of_reach parseComment env database false inst live
    (some stored) project classificationConfig hreadonly hinst hopen hlive hstored hproject
    hclass hupdate
  rw [hreach.1, hreach.2]
  simp only [initialModelConfig] at hequal ⊢
  simp only [syncDatabaseSchemaSnapshot, Option.map_some', hequal, Bool.false_or,
    Bool.not_true, Bool.false_eq_true, if_false]
  by_cases hfull : cmpEqual (some stored.metadata)
      (some (syncDatabaseSchemaAnnotate parseComment inst classificationConfig live
        stored.config).1) = true
  · simp [hfull]
  · cases hup : env.upsertDBSchema <;>
      simp [hfull, hup, Event.isDump, Event.isUpsertDBSchema]

/-- C2. Dump trigger: in a run of `SyncDatabaseSchema` that reaches the snapshot
step, if `force` is set or the stored metadata (none when there is no stored
snapshot) and the annotated live metadata differ under `equalDatabaseMetadata`,
`driver.Dump` is called exactly once, and when it succeeds
`store.UpsertDBSchema` is called exactly once, with the annotated live metadata
and the dump just produced. -/
theorem SyncDatabaseSchema_dump_trigger (parseComment : String → String × String)
    (env : SyncEnv) (database : DatabaseMessage) (force : Bool) (inst : InstanceMessage)
    (live : DatabaseSchemaMetadata) (dbSchema : Option DBSchema) (project : ProjectMessage)
    (classificationConfig : DataClassificationConfig)
    (hreadonly : env.Readonly = false)
    (hinst : env.getInstanceV2 = Except.ok (some inst))
    (hopen : env.getAdminDatabaseDriver = none)
    (hlive : env.driverSyncDBSchema = Except.ok live)
    (hstored : env.getDBSchema = Except.ok dbSchema)
    (hproject : env.getProjectV2 = Except.ok project)
    (hclass : env.getDataClassificationConfigByID = Except.ok classificationConfig)
    (hupdate : env.updateDatabase = none)
    (htrigger : force = true ∨ equalDatabaseMetadata (dbSchema.map fun s => s.metadata)
      (some (syncDatabaseSchemaAnnotate parseComment inst classificationConfig live
        (initialModelConfig dbSchema)).1) = false) :
    (SyncDatabaseSchema parseComment env database force).events.filter Event.isDump
      = [Event.DriverDump]
    ∧ (∀ schemaBuf, env.driverDump = Except.ok schemaBuf →
        (SyncDatabaseSchema parseComment env database force).events.filter
            Event.isUpsertDBSchema
          = [Event.UpsertDBSchema database.UID
              (syncDatabaseSchemaAnnotate parseComment inst classificationConfig live
                (initialModelConfig dbSchema)).1
              schemaBuf
              (syncDatabaseSchemaAnnotate parseComment inst classificationConfig live
                (initialModelConfig dbSchema)).2]) := by
  have hreach := SyncDatabaseSchema_filter_of_reach parseComment env database force inst live
    dbSchema project classificationConfig hreadonly hinst hopen hlive hstored hproject
    hclass hupdate
  rw [hreach.1, hreach.2]
  have houter : (force || !cmpEqual (dbSchema.map fun s => s.metadata)
      (some (syncDatabaseSchemaAnnotate parseComment inst classificationConfig live
        (initialModelConfig dbSchema)).1)) = true := by
    rcases htrigger with hf | hne
    · simp [hf]
    · cases hfull : cmpEqual (dbSchema.map fun s => s.metadata)
        (some (syncDatabaseSchemaAnnotate parseComment inst classificationConfig live
          (initialModelConfig dbSchema)).1)
      · simp
      · rw [equalDatabaseMetadata_of_cmpEqual _ _ hfull] at hne
        exact absurd hne (by decide)
  have hinner : (force || !equalDatabaseMetadata (dbSchema.map fun s => s.metadata)
      (some (syncDatabaseSchemaAnnotate parseComment inst classificationConfig live
        (initialModelConfig dbSchema)).1)) = true := by
    rcases htrigger with hf | hne
    · simp [hf]
    · simp [hne]
  simp only [syncDatabaseSchemaSnapshot, houter, hinner, if_true]
  constructor
  · cases hdump : env.driverDump with
    | error err => simp [Event.isDump]
    | ok schemaBuf =>
      cases hup : env.upsertDBSchema <;> simp [hup, Event.isDump]
  · intro schemaBuf hdump
    cases hup : env.upsertDBSchema <;> simp [hdump, hup, Event.isDump, Event.isUpsertDBSchema]
/-- C1 at a stored snapshot with 100 rows and a probe with 200 rows and nothing
else changed: no dump, and one snapshot upsert with the new metadata and the
stored three-byte dump. -/
theorem SyncDatabaseSchema_dump_stability_witness :
    (SyncDatabaseSchema exampleParseComment
        (exampleEnv (exampleMetadata 200 "") (some exampleStored)) exampleDatabase
        false).events.filter Event.isDump = []
    ∧ (SyncDatabaseSchema exampleParseComment
        (exampleEnv (exampleMetadata 200 "") (some exampleStored)) exampleDatabase
        false).events.filter Event.isUpsertDBSchema
      = [Event.UpsertDBSchema 7 (setUserCommentFromComment (exampleMetadata 200 ""))
          [1, 2, 3] NewDatabaseConfigNil] := by
  have h := SyncDatabaseSchema_dump_stability exampleParseComment
    (exampleEnv (exampleMetadata 200 "") (some exampleStored)) exampleDatabase exampleInstance
    (exampleMetadata 200 "") exampleStored
    { ResourceID := "shop", DataClassificationConfigID := "cfg" }
    { ClassificationFromConfig := true } rfl rfl rfl rfl rfl rfl rfl rfl (by decide)
  refine ⟨h.1, h.2.trans ?_⟩
  decide

/-- C2 at a first sync, with no stored snapshot: one dump, and one snapshot
upsert with the live metadata and the two-byte dump just produced. -/
theorem SyncDatabaseSchema_dump_trigger_witness :
    (SyncDatabaseSchema exampleParseComment
        (exampleEnv (exampleMetadata 200 "") none) exampleDatabase
        false).events.filter Event.isDump = [Event.DriverDump]
    ∧ (SyncDatabaseSchema exampleParseComment
        (exampleEnv (exampleMetadata 200 "") none) exampleDatabase
        false).events.filter Event.isUpsertDBSchema
      = [Event.UpsertDBSchema 7 (setUserCommentFromComment (exampleMetadata 200 ""))
          [4, 5] NewDatabaseConfigNil] := by
  have h := SyncDatabaseSchema_dump_trigger exampleParseComment
    (exampleEnv (exampleMetadata 200 "") none) exampleDatabase false exampleInstance
    (exampleMetadata 200 "") none
    { ResourceID := "shop", DataClassificationConfigID := "cfg" }
    { ClassificationFromConfig := true } rfl rfl rfl rfl rfl rfl rfl rfl (Or.inr (by decide))
  exact ⟨h.1, h.2 [4, 5] rfl⟩
/-- The snapshot step upserts no anomaly. -/
theorem syncDatabaseSchemaSnapshot_no_drift_upsert (env : SyncEnv) (database : DatabaseMessage)
    (force : Bool) (dbSchema : Option DBSchema) (databaseMetadata : DatabaseSchemaMetadata)
    (dbModelConfig : DatabaseConfig) :
    (syncDatabaseSchemaSnapshot env database force dbSchema databaseMetadata
      dbModelConfig).events.filter Event.isDriftUpsert = [] := by
  unfold syncDatabaseSchemaSnapshot
  by_cases ho : (force || !cmpEqual (dbSchema.map fun s => s.metadata)
      (some databaseMetadata)) = true
  · by_cases hi : (force || !equalDatabaseMetadata (dbSchema.map fun s => s.metadata)
        (some databaseMetadata)) = true
    · cases hd : env.driverDump <;> cases hu : env.upsertDBSchema <;>
        simp only [ho, hi, hd, hu, if_true] <;> simp [Event.isDriftUpsert]
    · cases hu : env.upsertDBSchema <;>
        simp only [ho, hi, hu, if_true, if_false] <;> simp [Event.isDriftUpsert]
  · simp only [ho, if_false]
    rfl

/-- For an engine of the exclusion set the drift check upserts no anomaly. -/
theorem syncDatabaseSchemaDrift_no_upsert_of_disabled (env : SyncEnv) (inst : InstanceMessage)
    (database : DatabaseMessage) (rawDump : Bytes)
    (h : disableSchemaDriftAnomalyCheck inst.Engine = true) :
    (syncDatabaseSchemaDrift env inst database rawDump).filter Event.isDriftUpsert = [] := by
  unfold syncDatabaseSchemaDrift
  cases env.isFeatureEnabledForInstance <;> simp [h, Event.isDriftUpsert]

/-- C3. Drift exemption: `disableSchemaDriftAnomalyCheck` is true exactly for
MONGODB, REDIS, ORACLE, OCEANBASE_ORACLE, MSSQL and REDSHIFT, and a run of
`SyncDatabaseSchema` on an instance with one of these engines upserts no
`DatabaseSchemaDrift` anomaly, whatever the licence state, the change history,
the dump and every other collaborator outcome are. -/
theorem SyncDatabaseSchema_drift_exemption :
    (∀ dbTp : Engine, disableSchemaDriftAnomalyCheck dbTp = true ↔
      (dbTp = Engine.MONGODB ∨ dbTp = Engine.REDIS ∨ dbTp = Engine.ORACLE
        ∨ dbTp = Engine.OCEANBASE_ORACLE ∨ dbTp = Engine.MSSQL ∨ dbTp = Engine.REDSHIFT))
    ∧ (∀ (parseComment : String → String × String) (env : SyncEnv) (database : DatabaseMessage)
        (force : Bool),
        (∀ inst, env.getInstanceV2 = Except.ok (some inst) →
          disableSchemaDriftAnomalyCheck inst.Engine = true) →
        (SyncDatabaseSchema parseComment env database force).events.filter
          Event.isDriftUpsert = []) := by
  constructor
  · intro dbTp
    simp [disableSchemaDriftAnomalyCheck]
  · intro parseComment env database force hengine
    unfold SyncDatabaseSchema
    split
    · rfl
    · split
      · rfl
      · rfl
      · next inst hinst =>
        have hdis := hengine inst hinst
        dsimp only
        split
        · simp [upsertDatabaseConnectionAnomaly, Event.isDriftUpsert]
        · simp only [List.filter_append, upsertDatabaseConnectionAnomaly]
          have hbody : (syncDatabaseSchemaWithDriver parseComment env inst database
              force).events.filter Event.isDriftUpsert = [] := by
            unfold syncDatabaseSchemaWithDriver
            cases env.driverSyncDBSchema with
            | error err => rfl
            | ok databaseMetadata =>
              cases env.getDBSchema with
              | error err => rfl
              | ok dbSchema =>
                cases env.getProjectV2 with
                | error err => rfl
                | ok project =>
                  cases env.getDataClassificationConfigByID with
                  | error err => rfl
                  | ok classificationConfig =>
                    cases env.updateDatabase with
                    | some err => simp [Event.isDriftUpsert]
                    | none =>
                      dsimp only
                      split
                      · simp [List.filter_append, Event.isDriftUpsert,
                          syncDatabaseSchemaSnapshot_no_drift_upsert]
                      · simp [List.filter_append, Event.isDriftUpsert,
                          syncDatabaseSchemaSnapshot_no_drift_upsert,
                          syncDatabaseSchemaDrift_no_upsert_of_disabled _ _ _ _ hdis]
          simp [hbody, Event.isDriftUpsert]

/-- C3 at an Oracle instance with the drift feature licensed and a change
history whose schema differs from the dump: no drift anomaly is upserted. -/
theorem SyncDatabaseSchema_drift_exemption_witness :
    (SyncDatabaseSchema exampleParseComment
      { exampleEnv (exampleMetadata 200 "") none with
        getInstanceV2 := Except.ok (some { exampleInstance with Engine := Engine.ORACLE })
        isFeatureEnabledForInstance := none
        listInstanceChangeHistory := Except.ok [{ Schema := [9], Version := "v1" }] }
      exampleDatabase false).events.filter Event.isDriftUpsert = [] :=
  SyncDatabaseSchema_drift_exemption.2 exampleParseComment _ exampleDatabase false
    (by intro inst h; cases h; rfl)
/-- C8. Connection failure handling: when `SyncDatabaseSchema` is not readonly
and finds the instance, an error `E` of opening the admin session makes it
return `E` itself after exactly the calls: instance lookup, opening attempt, and
one upsert of an active `DatabaseConnection` anomaly keyed on the database UID
with payload `Detail = E.Error()`; so it makes no driver call and no other store
write. When the session opens, the call after the opening attempt archives the
`DatabaseConnection` anomaly of that database, and the run is the same whatever
the archive answers, `NotFound` included. -/
theorem SyncDatabaseSchema_connection_anomaly (parseComment : String → String × String)
    (env : SyncEnv) (database : DatabaseMessage) (force : Bool) (inst : InstanceMessage)
    (hreadonly : env.Readonly = false)
    (hinst : env.getInstanceV2 = Except.ok (some inst)) :
    (∀ E : Err, env.getAdminDatabaseDriver = some E →
      (SyncDatabaseSchema parseComment env database force).err = some (RetErr.same E)
      ∧ (SyncDatabaseSchema parseComment env database force).events
        = [Event.GetInstanceV2 database.InstanceID,
           Event.GetAdminDatabaseDriver inst.ResourceID (some database.DatabaseName),
           Event.UpsertActiveAnomalyV2
            { InstanceID := inst.ResourceID
              DatabaseUID := some database.UID
              Type_ := AnomalyType.DatabaseConnection
              Payload := AnomalyPayload.connection E.Error }]
      ∧ (SyncDatabaseSchema parseComment env database force).events.filter Event.isDriverCall
        = []
      ∧ (SyncDatabaseSchema parseComment env database force).events.filter Event.isStoreWrite
        = [Event.UpsertActiveAnomalyV2
            { InstanceID := inst.ResourceID
              DatabaseUID := some database.UID
              Type_ := AnomalyType.DatabaseConnection
              Payload := AnomalyPayload.connection E.Error }])
    ∧ (env.getAdminDatabaseDriver = none →
      (∃ rest, (SyncDatabaseSchema parseComment env database force).events
        = [Event.GetInstanceV2 database.InstanceID,
           Event.GetAdminDatabaseDriver inst.ResourceID (some database.DatabaseName),
           Event.ArchiveAnomalyV2
            { InstanceID := none
              DatabaseUID := some database.UID
              Type_ := AnomalyType.DatabaseConnection }] ++ rest)
      ∧ (∀ archived : Option Err,
          SyncDatabaseSchema parseComment { env with archiveConnectionAnomaly := archived }
              database force
            = SyncDatabaseSchema parseComment env database force)) := by
  constructor
  · intro E hopen
    simp [SyncDatabaseSchema, hreadonly, hinst, hopen, upsertDatabaseConnectionAnomaly,
      Event.isDriverCall, Event.isStoreWrite]
  · intro hopen
    constructor
    · refine ⟨(syncDatabaseSchemaWithDriver parseComment env inst database force).events
        ++ [Event.DriverClose], ?_⟩
      simp [SyncDatabaseSchema, hreadonly, hinst, hopen, upsertDatabaseConnectionAnomaly]
    · intro archived
      simp only [SyncDatabaseSchema, hreadonly, hinst, hopen, upsertDatabaseConnectionAnomaly]
      rfl

/-- C8 at a database whose admin session fails with `connection refused`, and
at one whose session opens. -/
theorem SyncDatabaseSchema_connection_anomaly_witness :
    (SyncDatabaseSchema exampleParseComment
      { exampleEnv (exampleMetadata 200 "") none with
        getAdminDatabaseDriver := some { Error := "connection refused" } }
      exampleDatabase false).events
      = [Event.GetInstanceV2 "prod",
         Event.GetAdminDatabaseDriver "prod" (some "orders"),
         Event.UpsertActiveAnomalyV2
          { InstanceID := "prod"
            DatabaseUID := some 7
            Type_ := AnomalyType.DatabaseConnection
            Payload := AnomalyPayload.connection "connection refused" }]
    ∧ SyncDatabaseSchema exampleParseComment
        { exampleEnv (exampleMetadata 200 "") none with
          archiveConnectionAnomaly := some { Error := "not found" } }
        exampleDatabase false
      = SyncDatabaseSchema exampleParseComment (exampleEnv (exampleMetadata 200 "") none)
        exampleDatabase false :=
  ⟨((SyncDatabaseSchema_connection_anomaly exampleParseComment
      { exampleEnv (exampleMetadata 200 "") none with
        getAdminDatabaseDriver := some { Error := "connection refused" } }
      exampleDatabase false exampleInstance rfl rfl).1 _ rfl).2.1,
   ((SyncDatabaseSchema_connection_anomaly exampleParseComment
      (exampleEnv (exampleMetadata 200 "") none)
      exampleDatabase false exampleInstance rfl rfl).2 rfl).2 _⟩
/-- The create loop, when it ends without error, appends rows to the table: one
for every probed database whose name no listed row has, in the default
project, with the fields of the probe entry. -/
theorem syncInstanceCreateLoop_spec (inst : InstanceMessage) (databases : List DatabaseMessage)
    (probed : List ProbedDatabase) (table : DatabaseTable)
    (hok : (syncInstanceCreateLoop inst databases probed table).err = none) :
    ∃ created : List DatabaseMessage,
      (syncInstanceCreateLoop inst databases probed table).table = table ++ created
      ∧ (∀ c ∈ created, c.InstanceID = inst.ResourceID ∧ c.ProjectID = DefaultProjectID
          ∧ ∃ p ∈ probed, p.Name = c.DatabaseName)
      ∧ (∀ p ∈ probed, (∃ d ∈ databases, d.DatabaseName = p.Name)
          ∨ ∃ c ∈ created, c.InstanceID = inst.ResourceID ∧ c.DatabaseName = p.Name
            ∧ c.ProjectID = DefaultProjectID ∧ c.DataShare = p.Datashare
            ∧ c.ServiceName = p.ServiceName) := by
  induction probed generalizing table with
  | nil => exact ⟨[], by simp [syncInstanceCreateLoop]⟩
  | cons p rest ih =>
    rw [syncInstanceCreateLoop] at hok ⊢
    by_cases hexist : (databases.any fun database =>
        decide (database.DatabaseName = p.Name)) = true
    · simp only [hexist, Bool.not_true, Bool.false_eq_true, if_false] at hok ⊢
      obtain ⟨created, htable, hrows, hall⟩ := ih table hok
      refine ⟨created, htable, ?_, ?_⟩
      · intro c hc
        obtain ⟨h1, h2, q, hq, h3⟩ := hrows c hc
        exact ⟨h1, h2, q, List.mem_cons_of_mem _ hq, h3⟩
      · intro q hq
        rcases List.mem_cons.mp hq with rfl | hq
        · left
          simpa using hexist
        · exact hall q hq
    · simp only [hexist, Bool.not_false, if_true] at hok ⊢
      cases hcreate : storeCreateDatabaseDefault table
          { InstanceID := inst.ResourceID, DatabaseName := p.Name, DataShare := p.Datashare,
            ServiceName := p.ServiceName, ProjectID := DefaultProjectID } with
      | error err => simp [hcreate] at hok
      | ok table1 =>
        simp only [hcreate] at hok ⊢
        obtain ⟨created, htable, hrows, hall⟩ := ih table1 hok
        simp only [storeCreateDatabaseDefault] at hcreate
        split at hcreate
        · cases hcreate
        · injection hcreate with hcreate
          subst hcreate
          refine ⟨newDatabaseRow (freshUID table)
            { InstanceID := inst.ResourceID, DatabaseName := p.Name, DataShare := p.Datashare,
              ServiceName := p.ServiceName, ProjectID := DefaultProjectID } :: created,
            by simp [htable], ?_, ?_⟩
          · intro c hc
            rcases List.mem_cons.mp hc with rfl | hc
            · exact ⟨rfl, rfl, p, List.mem_cons_self _ _, rfl⟩
            · obtain ⟨h1, h2, q, hq, h3⟩ := hrows c hc
              exact ⟨h1, h2, q, List.mem_cons_of_mem _ hq, h3⟩
          · intro q hq
            rcases List.mem_cons.mp hq with rfl | hq
            · right
              exact ⟨_, List.mem_cons_self _ _, rfl, rfl, rfl, rfl, rfl⟩
            · rcases hall q hq with h | ⟨c, hc, h⟩
              · exact Or.inl h
              · exact Or.inr ⟨c, List.mem_cons_of_mem _ hc, h⟩

/-- The second loop, when it ends without error, sets to `NotFound` the rows of
the instance that have the name of a listed row which the probe does not have,
and changes nothing else. -/
theorem syncInstanceNotFoundLoop_spec (inst : InstanceMessage) (probed : List ProbedDatabase)
    (databases : List DatabaseMessage) (table : DatabaseTable)
    (hok : (syncInstanceNotFoundLoop inst probed databases table).err = none) :
    (syncInstanceNotFoundLoop inst probed databases table).table
      = table.map fun d =>
          if d.InstanceID = inst.ResourceID
              ∧ ∃ database ∈ databases, database.DatabaseName = d.DatabaseName
                ∧ ∀ p ∈ probed, p.Name ≠ database.DatabaseName then
            { d with SyncState := SyncStatus.NotFound }
          else d := by
  induction databases generalizing table with
  | nil => simp [syncInstanceNotFoundLoop]
  | cons database rest ih =>
    rw [syncInstanceNotFoundLoop] at hok ⊢
    by_cases hexist : (probed.any fun databaseMetadata =>
        decide (database.DatabaseName = databaseMetadata.Name)) = true
    · simp only [hexist, Bool.not_true, Bool.false_eq_true, if_false] at hok ⊢
      rw [ih table hok]
      apply List.map_congr_left
      intro d _
      have hno : ¬ ∀ p ∈ probed, p.Name ≠ database.DatabaseName := by
        simp only [List.any_eq_true, decide_eq_true_eq] at hexist
        obtain ⟨p, hp, hname⟩ := hexist
        exact fun h => h p hp hname.symm
      simp [hno]
    · simp only [hexist, Bool.not_false, if_true] at hok ⊢
      have hyes : ∀ p ∈ probed, p.Name ≠ database.DatabaseName := by
        intro p hp hname
        apply hexist
        simp only [List.any_eq_true, decide_eq_true_eq]
        exact ⟨p, hp, hname.symm⟩
      cases hupdate : storeUpdateDatabase table
          { InstanceID := inst.ResourceID, DatabaseName := database.DatabaseName,
            SyncState := some SyncStatus.NotFound, SuccessfulSyncTimeTs := none,
            MetadataUpsert := none } with
      | error err => simp [hupdate] at hok
      | ok table1 =>
        simp only [hupdate] at hok ⊢
        rw [ih table1 hok]
        simp only [storeUpdateDatabase] at hupdate
        split at hupdate
        · injection hupdate with hupdate
          subst hupdate
          rw [List.map_map]
          apply List.map_congr_left
          intro d _
          simp only [Function.comp, DatabaseMessage.hasKey, DatabaseMessage.applyUpdate,
            Bool.and_eq_true, decide_eq_true_eq, Option.getD_some, Option.getD_none]
          by_cases hkey : d.InstanceID = inst.ResourceID ∧ d.DatabaseName = database.DatabaseName
          · have hcond : d.InstanceID = inst.ResourceID
                ∧ ∃ database_1 ∈ database :: rest, database_1.DatabaseName = d.DatabaseName
                  ∧ ∀ p ∈ probed, p.Name ≠ database_1.DatabaseName :=
              ⟨hkey.1, database, List.mem_cons_self _ _, hkey.2.symm, hyes⟩
            rw [if_pos hkey, if_pos hcond]
            split <;> rfl
          · rw [if_neg hkey]
            by_cases hrest : d.InstanceID = inst.ResourceID
                ∧ ∃ database_1 ∈ rest, database_1.DatabaseName = d.DatabaseName
                  ∧ ∀ p ∈ probed, p.Name ≠ database_1.DatabaseName
            · have hcond : d.InstanceID = inst.ResourceID
                  ∧ ∃ database_1 ∈ database :: rest, database_1.DatabaseName = d.DatabaseName
                    ∧ ∀ p ∈ probed, p.Name ≠ database_1.DatabaseName := by
                obtain ⟨h1, db, hdb, h2⟩ := hrest
                exact ⟨h1, db, List.mem_cons_of_mem _ hdb, h2⟩
              rw [if_pos hrest, if_pos hcond]
            · have hcond : ¬ (d.InstanceID = inst.ResourceID
                  ∧ ∃ database_1 ∈ database :: rest, database_1.DatabaseName = d.DatabaseName
                    ∧ ∀ p ∈ probed, p.Name ≠ database_1.DatabaseName) := by
                rintro ⟨h1, db, hdb, h2, h3⟩
                rcases List.mem_cons.mp hdb with rfl | hdb
                · exact hkey ⟨h1, h2.symm⟩
                · exact hrest ⟨h1, db, hdb, h2, h3⟩
              rw [if_neg hrest, if_neg hcond]
        · cases hupdate

/-- The reconciliation, when it ends without error, leaves the table with every
former row reconciled with the probe, followed by the rows it created. -/
theorem syncInstanceReconcile_spec (env : InstanceSyncEnv) (table : DatabaseTable)
    (inst : InstanceMessage) (instanceMeta : InstanceMeta)
    (hok : (syncInstanceReconcile env table inst instanceMeta).err = none) :
    ∃ created : List DatabaseMessage,
      (syncInstanceReconcile env table inst instanceMeta).table
        = table.map (reconciledRow inst instanceMeta.Databases) ++ created
      ∧ (∀ c ∈ created, c.InstanceID = inst.ResourceID ∧ c.ProjectID = DefaultProjectID
          ∧ ∃ p ∈ instanceMeta.Databases, p.Name = c.DatabaseName)
      ∧ (∀ p ∈ instanceMeta.Databases,
          (∃ d ∈ table, d.InstanceID = inst.ResourceID ∧ d.DatabaseName = p.Name)
          ∨ ∃ c ∈ created, c.InstanceID = inst.ResourceID ∧ c.DatabaseName = p.Name
            ∧ c.ProjectID = DefaultProjectID ∧ c.DataShare = p.Datashare
            ∧ c.ServiceName = p.ServiceName) := by
  unfold syncInstanceReconcile at hok ⊢
  cases hlist : env.listDatabases with
  | some err => simp [hlist] at hok
  | none =>
    simp only [hlist] at hok ⊢
    cases hcreated : (syncInstanceCreateLoop inst
        (storeListDatabases table (some inst.ResourceID)) instanceMeta.Databases table).err with
    | some err => simp [hcreated] at hok
    | none =>
      simp only [hcreated] at hok ⊢
      obtain ⟨created, htable, hrows, hall⟩ := syncInstanceCreateLoop_spec inst _ _ _ hcreated
      refine ⟨created, ?_, hrows, ?_⟩
      · rw [syncInstanceNotFoundLoop_spec inst _ _ _ hok, htable, List.map_append]
        congr 1
        · apply List.map_congr_left
          intro d hd
          simp only [reconciledRow]
          by_cases hcond : d.InstanceID = inst.ResourceID
              ∧ ∀ p ∈ instanceMeta.Databases, p.Name ≠ d.DatabaseName
          · have hloop : d.InstanceID = inst.ResourceID
                ∧ ∃ database ∈ storeListDatabases table (some inst.ResourceID),
                  database.DatabaseName = d.DatabaseName
                  ∧ ∀ p ∈ instanceMeta.Databases, p.Name ≠ database.DatabaseName := by
              refine ⟨hcond.1, d, ?_, rfl, hcond.2⟩
              simp [storeListDatabases, hd, hcond.1]
            rw [if_pos hcond, if_pos hloop]
          · have hloop : ¬ (d.InstanceID = inst.ResourceID
                ∧ ∃ database ∈ storeListDatabases table (some inst.ResourceID),
                  database.DatabaseName = d.DatabaseName
                  ∧ ∀ p ∈ instanceMeta.Databases, p.Name ≠ database.DatabaseName) := by
              rintro ⟨h1, database, _, h2, h3⟩
              exact hcond ⟨h1, fun p hp => h2 ▸ h3 p hp⟩
            rw [if_neg hcond, if_neg hloop]
        · conv_rhs => rw [← List.map_id created]
          apply List.map_congr_left
          intro c hc
          obtain ⟨_, _, p, hp, hname⟩ := hrows c hc
          have hloop : ¬ (c.InstanceID = inst.ResourceID
              ∧ ∃ database ∈ storeListDatabases table (some inst.ResourceID),
                database.DatabaseName = c.DatabaseName
                ∧ ∀ p ∈ instanceMeta.Databases, p.Name ≠ database.DatabaseName) := by
            rintro ⟨_, database, _, h2, h3⟩
            exact h3 p hp (hname.trans h2.symm)
          rw [if_neg hloop]
          rfl
      · intro p hp
        rcases hall p hp with ⟨d, hd, hname⟩ | h
        · left
          simp only [storeListDatabases, List.mem_filter, decide_eq_true_eq] at hd
          exact ⟨d, hd.1, hd.2, hname⟩
        · exact Or.inr h

/-- A reconciled row keeps its key and every field but the sync state. -/
theorem reconciledRow_fields (inst : InstanceMessage) (probed : List ProbedDatabase)
    (d : DatabaseMessage) :
    (reconciledRow inst probed d).UID = d.UID
    ∧ (reconciledRow inst probed d).InstanceID = d.InstanceID
    ∧ (reconciledRow inst probed d).DatabaseName = d.DatabaseName
    ∧ (reconciledRow inst probed d).ProjectID = d.ProjectID := by
  unfold reconciledRow
  split <;> exact ⟨rfl, rfl, rfl, rfl⟩

/-- C7. Reconciliation closure: when `SyncInstance`, not readonly, returns
without error for a probe with the databases `instanceMeta.Databases`, the
store's table afterwards consists of every former row, in place, those of the
instance whose name the probe does not have now in state `NotFound` and all
others unchanged, followed by created rows; so no row is deleted, every row of
the instance whose name is not probed has `SyncState = NotFound`, every probed
name has a row of the instance, and a probed name that had no row has one in
the default project with `DataShare` and `ServiceName` of the probe entry. -/
theorem SyncInstance_reconciliation_closure (env : InstanceSyncEnv) (table : DatabaseTable)
    (inst : InstanceMessage) (instanceMeta : InstanceMeta)
    (hreadonly : env.Readonly = false)
    (hprobe : env.driverSyncInstance = Except.ok instanceMeta)
    (hok : (SyncInstance env table inst).err = none) :
    (∃ created : List DatabaseMessage,
      (SyncInstance env table inst).table
        = table.map (reconciledRow inst instanceMeta.Databases) ++ created)
    ∧ (∀ d ∈ (SyncInstance env table inst).table, d.InstanceID = inst.ResourceID →
        (∀ p ∈ instanceMeta.Databases, p.Name ≠ d.DatabaseName) →
        d.SyncState = SyncStatus.NotFound)
    ∧ (∀ p ∈ instanceMeta.Databases, ∃ d ∈ (SyncInstance env table inst).table,
        d.InstanceID = inst.ResourceID ∧ d.DatabaseName = p.Name)
    ∧ (∀ p ∈ instanceMeta.Databases,
        (∀ d ∈ table, ¬ (d.InstanceID = inst.ResourceID ∧ d.DatabaseName = p.Name)) →
        ∃ d ∈ (SyncInstance env table inst).table,
          d.InstanceID = inst.ResourceID ∧ d.DatabaseName = p.Name
          ∧ d.ProjectID = DefaultProjectID ∧ d.DataShare = p.Datashare
          ∧ d.ServiceName = p.ServiceName)
    ∧ (∀ d ∈ table, ∃ r ∈ (SyncInstance env table inst).table,
        r.UID = d.UID ∧ r.InstanceID = d.InstanceID ∧ r.DatabaseName = d.DatabaseName) := by
  have hrun : (SyncInstance env table inst).table
        = (syncInstanceReconcile env table inst instanceMeta).table
      ∧ (syncInstanceReconcile env table inst instanceMeta).err = none := by
    unfold SyncInstance at hok ⊢
    simp only [hreadonly, Bool.false_eq_true, if_false, hprobe] at hok ⊢
    cases hopen : env.getAdminDatabaseDriver with
    | some err => simp [hopen] at hok
    | none =>
      simp only [hopen] at hok ⊢
      cases hupdate : env.updateInstanceV2 with
      | some err => simp [hupdate] at hok
      | none =>
        simp only [hupdate] at hok ⊢
        cases husers : env.upsertInstanceUsers with
        | some err => simp [husers] at hok
        | none =>
          simp only [husers] at hok ⊢
          exact ⟨trivial, hok⟩
  obtain ⟨created, htable, hrows, hall⟩ :=
    syncInstanceReconcile_spec env table inst instanceMeta hrun.2
  rw [hrun.1, htable]
  refine ⟨⟨created, rfl⟩, ?_, ?_, ?_, ?_⟩
  · intro d hd hinst hnot
    rcases List.mem_append.mp hd with hd | hd
    · obtain ⟨d0, _, rfl⟩ := List.mem_map.mp hd
      have hf := reconciledRow_fields inst instanceMeta.Databases d0
      rw [hf.2.1] at hinst
      rw [hf.2.2.1] at hnot
      have hcond : d0.InstanceID = inst.ResourceID
          ∧ ∀ p ∈ instanceMeta.Databases, p.Name ≠ d0.DatabaseName := ⟨hinst, hnot⟩
      rw [reconciledRow, if_pos hcond]
    · obtain ⟨_, _, p, hp, hname⟩ := hrows d hd
      exact absurd hname (hnot p hp)
  · intro p hp
    rcases hall p hp with ⟨d, hd, hinst, hname⟩ | ⟨c, hc, hinst, hname, _⟩
    · have hf := reconciledRow_fields inst instanceMeta.Databases d
      exact ⟨reconciledRow inst instanceMeta.Databases d,
        List.mem_append_left _ (List.mem_map_of_mem _ hd),
        hf.2.1.trans hinst, hf.2.2.1.trans hname⟩
    · exact ⟨c, List.mem_append_right _ hc, hinst, hname⟩
  · intro p hp habsent
    rcases hall p hp with ⟨d, hd, hkey⟩ | ⟨c, hc, h⟩
    · exact absurd hkey (habsent d hd)
    · exact ⟨c, List.mem_append_right _ hc, h⟩
  · intro d hd
    have hf := reconciledRow_fields inst instanceMeta.Databases d
    exact ⟨reconciledRow inst instanceMeta.Databases d,
      List.mem_append_left _ (List.mem_map_of_mem _ hd), hf.1, hf.2.1, hf.2.2.1⟩

/-- C7 at a table with the rows `a` and `b` of instance `prod` and a probe that
reports `a` and `c`: the run ends without error, `a` is unchanged, `b` is
`NotFound` and `c` is created in the default project. -/
theorem SyncInstance_reconciliation_closure_witness :
    (SyncInstance exampleInstanceSyncEnv exampleTable exampleInstance).err = none
    ∧ (SyncInstance exampleInstanceSyncEnv exampleTable exampleInstance).table
      = [{ UID := 1, ProjectID := "shop", InstanceID := "prod", DatabaseName := "a",
           SyncState := SyncStatus.OK, SuccessfulSyncTimeTs := 0, DataShare := false,
           ServiceName := "", Metadata := { LastSyncTime := none } },
         { UID := 2, ProjectID := "shop", InstanceID := "prod", DatabaseName := "b",
           SyncState := SyncStatus.NotFound, SuccessfulSyncTimeTs := 0, DataShare := false,
           ServiceName := "", Metadata := { LastSyncTime := none } },
         { UID := 3, ProjectID := "default", InstanceID := "prod", DatabaseName := "c",
           SyncState := SyncStatus.OK, SuccessfulSyncTimeTs := 0, DataShare := true,
           ServiceName := "svc", Metadata := { LastSyncTime := none } }]
    ∧ ∀ d ∈ (SyncInstance exampleInstanceSyncEnv exampleTable exampleInstance).table,
        d.InstanceID = exampleInstance.ResourceID →
        (∀ p ∈ [({ Name := "a", Datashare := false, ServiceName := "" } : ProbedDatabase),
                { Name := "c", Datashare := true, ServiceName := "svc" }],
          p.Name ≠ d.DatabaseName) →
        d.SyncState = SyncStatus.NotFound :=
  ⟨by decide, by decide,
   (SyncInstance_reconciliation_closure exampleInstanceSyncEnv exampleTable exampleInstance
      { Version := "8.0", Metadata := none,
        Databases := [{ Name := "a", Datashare := false, ServiceName := "" },
                      { Name := "c", Datashare := true, ServiceName := "svc" }],
        InstanceRoles := [] } rfl rfl (by decide)).2.1⟩
/-- What a keyed update leaves under a key. -/
theorem lookup_putOrPrune {V : Type} (dflt : V) (isEmpty : V → Bool) (k : String) (g : V → V)
    (m : NodeMap V) (j : String) :
    (putOrPrune dflt isEmpty k g m).lookup j
      = if j = k then
          (if isEmpty (g ((m.lookup k).getD dflt)) then none
            else some (g ((m.lookup k).getD dflt)))
        else m.lookup j := by
  unfold putOrPrune
  by_cases hj : j = k
  · subst hj
    by_cases he : isEmpty (g ((m.lookup j).getD dflt)) = true
    · simp [he, Finmap.lookup_erase]
    · simp [he, Finmap.lookup_insert]
  · by_cases he : isEmpty (g ((m.lookup k).getD dflt)) = true
    · simp [he, hj, Finmap.lookup_erase_ne hj]
    · simp [he, hj, Finmap.lookup_insert_of_ne _ hj]

/-- Changes applied in order, the last one apart. -/
theorem applyAll_concat {V : Type} (gs : List (V → V)) (g : V → V) (v : V) :
    applyAll (gs ++ [g]) v = g (applyAll gs v) := by
  simp [applyAll, List.foldl_append]

/-- Changes of two lists applied in order. -/
theorem applyAll_append {V : Type} (gs hs : List (V → V)) (v : V) :
    applyAll (gs ++ hs) v = applyAll hs (applyAll gs v) := by
  simp [applyAll, List.foldl_append]

/-- The changes under a key of a run that ends with an update of that key. -/
theorem changesAt_concat_self {V : Type} (ops : List (String × (V → V)))
    (op : String × (V → V)) :
    changesAt op.1 (ops ++ [op]) = changesAt op.1 ops ++ [op.2] := by
  simp [changesAt, List.filter_append]

/-- The changes under a key of a run that ends with an update of another key. -/
theorem changesAt_concat_of_ne {V : Type} (ops : List (String × (V → V)))
    (op : String × (V → V)) (k : String) (hk : ¬ op.1 = k) :
    changesAt k (ops ++ [op]) = changesAt k ops := by
  simp [changesAt, List.filter_append, hk]

/-- A run of keyed updates that ends with one more update. -/
theorem runUpdates_concat {V : Type} (dflt : V) (isEmpty : V → Bool)
    (ops : List (String × (V → V))) (op : String × (V → V)) (m : NodeMap V) :
    runUpdates dflt isEmpty (ops ++ [op]) m
      = putOrPrune dflt isEmpty op.1 op.2 (runUpdates dflt isEmpty ops m) := by
  simp [runUpdates, List.foldl_append]

/-- The node seen under a key after a run of keyed updates, an absent node being
seen as the default one: the changes made under that key, applied in order. -/
theorem view_runUpdates {V : Type} (dflt : V) (isEmpty : V → Bool)
    (hdflt : ∀ v, isEmpty v = true → v = dflt)
    (ops : List (String × (V → V))) (m : NodeMap V) (k : String) :
    ((runUpdates dflt isEmpty ops m).lookup k).getD dflt
      = applyAll (changesAt k ops) ((m.lookup k).getD dflt) := by
  induction ops using List.reverseRecOn with
  | nil => rfl
  | append_singleton ops op ih =>
    rw [runUpdates_concat, lookup_putOrPrune]
    by_cases hk : op.1 = k
    · subst hk
      rw [changesAt_concat_self, applyAll_concat, ← ih, if_pos rfl]
      by_cases he : isEmpty (op.2 (((runUpdates dflt isEmpty ops m).lookup op.1).getD dflt))
          = true
      · rw [if_pos he]
        exact (hdflt _ he).symm
      · rw [if_neg he]
        rfl
    · have hk2 : ¬ k = op.1 := fun h => hk h.symm
      rw [changesAt_concat_of_ne ops op k hk, if_neg hk2, ih]

/-- What a run of keyed updates leaves under a key: what was there when no
update has that key, and otherwise the node seen there, unless it is empty. -/
theorem lookup_runUpdates {V : Type} (dflt : V) (isEmpty : V → Bool)
    (hdflt : ∀ v, isEmpty v = true → v = dflt)
    (ops : List (String × (V → V))) (m : NodeMap V) (k : String) :
    (runUpdates dflt isEmpty ops m).lookup k
      = if (changesAt k ops).isEmpty then m.lookup k
        else if isEmpty (applyAll (changesAt k ops) ((m.lookup k).getD dflt)) then none
        else some (applyAll (changesAt k ops) ((m.lookup k).getD dflt)) := by
  induction ops using List.reverseRecOn with
  | nil => rfl
  | append_singleton ops op ih =>
    rw [runUpdates_concat, lookup_putOrPrune]
    by_cases hk : op.1 = k
    · subst hk
      have hview := view_runUpdates dflt isEmpty hdflt ops m op.1
      rw [changesAt_concat_self, applyAll_concat, hview, if_pos rfl]
      simp
    · have hk2 : ¬ k = op.1 := fun h => hk h.symm
      rw [changesAt_concat_of_ne ops op k hk, if_neg hk2, ih]

/-- A run of keyed updates is idempotent when, under every key, the changes
made there, applied in order, are. -/
theorem runUpdates_idempotent {V : Type} (dflt : V) (isEmpty : V → Bool)
    (hdflt : ∀ v, isEmpty v = true → v = dflt)
    (ops : List (String × (V → V)))
    (hidem : ∀ k v, applyAll (changesAt k ops) (applyAll (changesAt k ops) v)
      = applyAll (changesAt k ops) v)
    (m : NodeMap V) :
    runUpdates dflt isEmpty ops (runUpdates dflt isEmpty ops m)
      = runUpdates dflt isEmpty ops m := by
  apply Finmap.ext_lookup
  intro k
  rw [lookup_runUpdates dflt isEmpty hdflt ops (runUpdates dflt isEmpty ops m) k]
  by_cases hch : (changesAt k ops).isEmpty = true
  · rw [if_pos hch]
  · rw [if_neg hch, view_runUpdates dflt isEmpty hdflt ops m k, hidem,
      lookup_runUpdates dflt isEmpty hdflt ops m k, if_neg hch]

/-- A run of keyed updates over two lists in a row. -/
theorem runUpdates_append {V : Type} (dflt : V) (isEmpty : V → Bool)
    (ops1 ops2 : List (String × (V → V))) (m : NodeMap V) :
    runUpdates dflt isEmpty (ops1 ++ ops2) m
      = runUpdates dflt isEmpty ops2 (runUpdates dflt isEmpty ops1 m) := by
  simp [runUpdates, List.foldl_append]

/-- Erasing a key that was just written erases what was there before. -/
theorem erase_insert_self {V : Type} (k : String) (v : V) (m : NodeMap V) :
    (m.insert k v).erase k = m.erase k := by
  apply Finmap.ext_lookup
  intro j
  by_cases hj : j = k
  · subst hj
    rw [Finmap.lookup_erase, Finmap.lookup_erase]
  · rw [Finmap.lookup_erase_ne hj, Finmap.lookup_erase_ne hj, Finmap.lookup_insert_of_ne _ hj]

/-- A map with no key is the empty map. -/
theorem eq_empty_of_keys_card {V : Type} (m : NodeMap V) (h : m.keys.card = 0) : m = ∅ := by
  apply Finmap.ext_lookup
  intro j
  rw [Finmap.lookup_empty, Finmap.lookup_eq_none, ← Finmap.mem_keys,
    Finset.card_eq_zero.mp h]
  exact Finset.not_mem_empty j

/-- An empty column config is the node with no content. -/
theorem eq_emptyColumnConfig (config : ColumnConfig) (h : isEmptyColumnConfig config = true) :
    config = emptyColumnConfig := by
  obtain ⟨sem, labels, cls⟩ := config
  simp only [isEmptyColumnConfig, Bool.and_eq_true, decide_eq_true_eq, List.length_eq_zero] at h
  obtain ⟨⟨h1, h2⟩, h3⟩ := h
  subst h1 h2 h3
  rfl

/-- An empty table config is the node with no content. -/
theorem eq_emptyTableConfig (config : TableConfig) (h : config.IsEmpty = true) :
    config = emptyTableConfig := by
  obtain ⟨cls, internal⟩ := config
  simp only [TableConfig.IsEmpty, Bool.and_eq_true, decide_eq_true_eq] at h
  obtain ⟨h1, h2⟩ := h
  rw [eq_empty_of_keys_card internal h1, h2]
  rfl

/-- An empty schema config is the node with no content. -/
theorem eq_emptySchemaConfig (config : SchemaConfig) (h : config.IsEmpty = true) :
    config = emptySchemaConfig := by
  obtain ⟨internal⟩ := config
  simp only [SchemaConfig.IsEmpty, decide_eq_true_eq] at h
  rw [eq_empty_of_keys_card internal h]
  rfl

/-- One turn of the column loop on the table config is a keyed update. -/
theorem columnTurn_eq (parseComment : String → String × String) (col : ColumnMetadata)
    (tableConfig : TableConfig) :
    (if isEmptyColumnConfig
          { (tableConfig.CreateOrGetColumnConfig col.Name).1 with
            ClassificationId := (parseComment col.Comment).1 } = true then
        ((tableConfig.CreateOrGetColumnConfig col.Name).2.assignColumnConfig col.Name
          { (tableConfig.CreateOrGetColumnConfig col.Name).1 with
            ClassificationId := (parseComment col.Comment).1 }).RemoveColumnConfig col.Name
      else
        (tableConfig.CreateOrGetColumnConfig col.Name).2.assignColumnConfig col.Name
          { (tableConfig.CreateOrGetColumnConfig col.Name).1 with
            ClassificationId := (parseComment col.Comment).1 })
      = { tableConfig with
          internal := putOrPrune emptyColumnConfig isEmptyColumnConfig
            (columnUpdate parseComment col).1 (columnUpdate parseComment col).2
            tableConfig.internal } := by
  simp only [putOrPrune, columnUpdate, TableConfig.CreateOrGetColumnConfig,
    TableConfig.assignColumnConfig, TableConfig.RemoveColumnConfig, emptyColumnConfig]
  cases hl : tableConfig.internal.lookup col.Name with
  | none =>
    simp only [Option.getD_none]
    split <;> simp [Finmap.insert_insert, erase_insert_self]
  | some config =>
    simp only [Option.getD_some]
    split <;> simp [erase_insert_self]

/-- The column loop: every column gets its user comment, and the column map of
the table config undergoes the keyed updates of the columns. -/
theorem setClassificationAndUserCommentFromCommentColumns_eq
    (parseComment : String → String × String) (cols : List ColumnMetadata)
    (tableConfig : TableConfig) :
    setClassificationAndUserCommentFromCommentColumns parseComment cols tableConfig
      = (cols.map (annotatedColumn parseComment),
         { tableConfig with
           internal := runUpdates emptyColumnConfig isEmptyColumnConfig
             (cols.map (columnUpdate parseComment)) tableConfig.internal }) := by
  induction cols generalizing tableConfig with
  | nil => rfl
  | cons col rest ih =>
    rw [setClassificationAndUserCommentFromCommentColumns]
    simp only [columnTurn_eq, ih]
    rfl

/-- One turn of the table loop on the schema config is a keyed update. -/
theorem tableTurn_eq (parseComment : String → String × String) (table : TableMetadata)
    (schemaConfig : SchemaConfig) :
    (if ((tableUpdate parseComment table).2
          (schemaConfig.CreateOrGetTableConfig table.Name).1).IsEmpty = true then
        ((schemaConfig.CreateOrGetTableConfig table.Name).2.assignTableConfig table.Name
          ((tableUpdate parseComment table).2
            (schemaConfig.CreateOrGetTableConfig table.Name).1)).RemoveTableConfig table.Name
      else
        (schemaConfig.CreateOrGetTableConfig table.Name).2.assignTableConfig table.Name
          ((tableUpdate parseComment table).2
            (schemaConfig.CreateOrGetTableConfig table.Name).1))
      = { internal := putOrPrune emptyTableConfig TableConfig.IsEmpty
            (tableUpdate parseComment table).1 (tableUpdate parseComment table).2
            schemaConfig.internal } := by
  generalize (tableUpdate parseComment table).2 = g
  simp only [putOrPrune, tableUpdate, SchemaConfig.CreateOrGetTableConfig,
    SchemaConfig.assignTableConfig, SchemaConfig.RemoveTableConfig, emptyTableConfig]
  cases hl : schemaConfig.internal.lookup table.Name with
  | none =>
    simp only [Option.getD_none]
    split <;> simp [Finmap.insert_insert, erase_insert_self]
  | some config =>
    simp only [Option.getD_some]
    split <;> simp [erase_insert_self]

/-- The table loop: every table is annotated, and the table map of the schema
config undergoes the keyed updates of the tables. -/
theorem setClassificationAndUserCommentFromCommentTables_eq
    (parseComment : String → String × String) (tables : List TableMetadata)
    (schemaConfig : SchemaConfig) :
    setClassificationAndUserCommentFromCommentTables parseComment tables schemaConfig
      = (tables.map (annotatedTable parseComment),
         { internal := runUpdates emptyTableConfig TableConfig.IsEmpty
             (tables.map (tableUpdate parseComment)) schemaConfig.internal }) := by
  induction tables generalizing schemaConfig with
  | nil => rfl
  | cons table rest ih =>
    rw [setClassificationAndUserCommentFromCommentTables]
    simp only [setClassificationAndUserCommentFromCommentColumns_eq]
    have hturn := tableTurn_eq parseComment table schemaConfig
    simp only [tableUpdate] at hturn
    simp only [hturn, ih]
    rfl

/-- One turn of the schema loop on the database config is a keyed update. -/
theorem schemaTurn_eq (parseComment : String → String × String) (schema : SchemaMetadata)
    (databaseConfig : DatabaseConfig) :
    (if ((schemaUpdate parseComment schema).2
          (databaseConfig.CreateOrGetSchemaConfig schema.Name).1).IsEmpty = true then
        ((databaseConfig.CreateOrGetSchemaConfig schema.Name).2.assignSchemaConfig schema.Name
          ((schemaUpdate parseComment schema).2
            (databaseConfig.CreateOrGetSchemaConfig schema.Name).1)).RemoveSchemaConfig
          schema.Name
      else
        (databaseConfig.CreateOrGetSchemaConfig schema.Name).2.assignSchemaConfig schema.Name
          ((schemaUpdate parseComment schema).2
            (databaseConfig.CreateOrGetSchemaConfig schema.Name).1))
      = { databaseConfig with
          internal := putOrPrune emptySchemaConfig SchemaConfig.IsEmpty
            (schemaUpdate parseComment schema).1 (schemaUpdate parseComment schema).2
            databaseConfig.internal } := by
  generalize (schemaUpdate parseComment schema).2 = g
  simp only [putOrPrune, schemaUpdate, DatabaseConfig.CreateOrGetSchemaConfig,
    DatabaseConfig.assignSchemaConfig, DatabaseConfig.RemoveSchemaConfig, emptySchemaConfig]
  cases hl : databaseConfig.internal.lookup schema.Name with
  | none =>
    simp only [Option.getD_none]
    split <;> simp [Finmap.insert_insert, erase_insert_self]
  | some config =>
    simp only [Option.getD_some]
    split <;> simp [erase_insert_self]

/-- The schema loop: every schema is annotated, and the schema map of the
database config undergoes the keyed updates of the schemas. -/
theorem setClassificationAndUserCommentFromCommentSchemas_eq
    (parseComment : String → String × String) (schemas : List SchemaMetadata)
    (databaseConfig : DatabaseConfig) :
    setClassificationAndUserCommentFromCommentSchemas parseComment schemas databaseConfig
      = (schemas.map (annotatedSchema parseComment),
         { databaseConfig with
           internal := runUpdates emptySchemaConfig SchemaConfig.IsEmpty
             (schemas.map (schemaUpdate parseComment)) databaseConfig.internal }) := by
  induction schemas generalizing databaseConfig with
  | nil => rfl
  | cons schema rest ih =>
    rw [setClassificationAndUserCommentFromCommentSchemas]
    simp only [setClassificationAndUserCommentFromCommentTables_eq]
    have hturn := schemaTurn_eq parseComment schema databaseConfig
    simp only [schemaUpdate] at hturn
    simp only [hturn, ih]
    rfl

/-- The changes made under a key come from the updates of the run. -/
theorem mem_changesAt {V : Type} (k : String) (ops : List (String × (V → V))) (g : V → V)
    (h : g ∈ changesAt k ops) : ∃ op ∈ ops, op.2 = g := by
  simp only [changesAt, List.mem_map, List.mem_filter] at h
  obtain ⟨op, ⟨hop, _⟩, hg⟩ := h
  exact ⟨op, hop, hg⟩

/-- Changes that each set the classification of a column config, applied in
order, set it to what an idempotent function of its former value says and
leave the rest. -/
theorem applyAll_columnChanges (gs : List (ColumnConfig → ColumnConfig))
    (h : ∀ g ∈ gs, ∃ c : String, g = fun config => { config with ClassificationId := c }) :
    ∃ f : String → String, (∀ x, f (f x) = f x)
      ∧ ∀ v : ColumnConfig, applyAll gs v = { v with ClassificationId := f v.ClassificationId } := by
  induction gs using List.reverseRecOn with
  | nil => exact ⟨id, fun _ => rfl, fun _ => rfl⟩
  | append_singleton gs g ih =>
    obtain ⟨f, _, hf⟩ := ih fun g0 hg0 => h g0 (List.mem_append_left _ hg0)
    obtain ⟨c, rfl⟩ := h g (List.mem_append_right _ (List.mem_singleton_self _))
    refine ⟨fun _ => c, fun _ => rfl, ?_⟩
    intro v
    rw [applyAll_concat, hf]

/-- The column loop acts on the column map idempotently. -/
theorem columnsRun_idempotent (parseComment : String → String × String)
    (cols : List ColumnMetadata) (m : NodeMap ColumnConfig) :
    runUpdates emptyColumnConfig isEmptyColumnConfig (cols.map (columnUpdate parseComment))
        (runUpdates emptyColumnConfig isEmptyColumnConfig
          (cols.map (columnUpdate parseComment)) m)
      = runUpdates emptyColumnConfig isEmptyColumnConfig
          (cols.map (columnUpdate parseComment)) m := by
  apply runUpdates_idempotent emptyColumnConfig isEmptyColumnConfig eq_emptyColumnConfig
  intro k v
  obtain ⟨f, hf, hall⟩ := applyAll_columnChanges
    (changesAt k (cols.map (columnUpdate parseComment))) (by
      intro g hg
      obtain ⟨op, hop, rfl⟩ := mem_changesAt k _ g hg
      obtain ⟨col, _, rfl⟩ := List.mem_map.mp hop
      exact ⟨(parseComment col.Comment).1, rfl⟩)
  rw [hall, hall]
  simp [hf]

/-- Changes that each are the update of a table, applied in order, set the
classification of the table config by an idempotent function and run the
column updates of some list of columns on its column map. -/
theorem applyAll_tableChanges (parseComment : String → String × String)
    (gs : List (TableConfig → TableConfig))
    (h : ∀ g ∈ gs, ∃ table : TableMetadata, g = (tableUpdate parseComment table).2) :
    ∃ (f : String → String) (cols : List ColumnMetadata), (∀ x, f (f x) = f x)
      ∧ ∀ v : TableConfig, applyAll gs v
        = { ClassificationID := f v.ClassificationID
            internal := runUpdates emptyColumnConfig isEmptyColumnConfig
              (cols.map (columnUpdate parseComment)) v.internal } := by
  induction gs using List.reverseRecOn with
  | nil => exact ⟨id, [], fun _ => rfl, fun _ => rfl⟩
  | append_singleton gs g ih =>
    obtain ⟨f, cols, _, hf⟩ := ih fun g0 hg0 => h g0 (List.mem_append_left _ hg0)
    obtain ⟨table, rfl⟩ := h g (List.mem_append_right _ (List.mem_singleton_self _))
    refine ⟨fun _ => (parseComment table.Comment).1, cols ++ table.Columns, fun _ => rfl, ?_⟩
    intro v
    rw [applyAll_concat, hf, List.map_append, runUpdates_append]
    rfl

/-- The table loop acts on the table map idempotently. -/
theorem tablesRun_idempotent (parseComment : String → String × String)
    (tables : List TableMetadata) (m : NodeMap TableConfig) :
    runUpdates emptyTableConfig TableConfig.IsEmpty (tables.map (tableUpdate parseComment))
        (runUpdates emptyTableConfig TableConfig.IsEmpty
          (tables.map (tableUpdate parseComment)) m)
      = runUpdates emptyTableConfig TableConfig.IsEmpty
          (tables.map (tableUpdate parseComment)) m := by
  apply runUpdates_idempotent emptyTableConfig TableConfig.IsEmpty eq_emptyTableConfig
  intro k v
  obtain ⟨f, cols, hf, hall⟩ := applyAll_tableChanges parseComment
    (changesAt k (tables.map (tableUpdate parseComment))) (by
      intro g hg
      obtain ⟨op, hop, rfl⟩ := mem_changesAt k _ g hg
      obtain ⟨table, _, rfl⟩ := List.mem_map.mp hop
      exact ⟨table, rfl⟩)
  rw [hall, hall]
  simp only [hf, columnsRun_idempotent]

/-- Changes that each are the update of a schema, applied in order, run the
table updates of some list of tables on the table map of the schema config. -/
theorem applyAll_schemaChanges (parseComment : String → String × String)
    (gs : List (SchemaConfig → SchemaConfig))
    (h : ∀ g ∈ gs, ∃ schema : SchemaMetadata, g = (schemaUpdate parseComment schema).2) :
    ∃ tables : List TableMetadata,
      ∀ v : SchemaConfig, applyAll gs v
        = { internal := runUpdates emptyTableConfig TableConfig.IsEmpty
              (tables.map (tableUpdate parseComment)) v.internal } := by
  induction gs using List.reverseRecOn with
  | nil => exact ⟨[], fun _ => rfl⟩
  | append_singleton gs g ih =>
    obtain ⟨tables, hf⟩ := ih fun g0 hg0 => h g0 (List.mem_append_left _ hg0)
    obtain ⟨schema, rfl⟩ := h g (List.mem_append_right _ (List.mem_singleton_self _))
    refine ⟨tables ++ schema.Tables, ?_⟩
    intro v
    rw [applyAll_concat, hf, List.map_append, runUpdates_append]
    rfl

/-- The schema loop acts on the schema map idempotently. -/
theorem schemasRun_idempotent (parseComment : String → String × String)
    (schemas : List SchemaMetadata) (m : NodeMap SchemaConfig) :
    runUpdates emptySchemaConfig SchemaConfig.IsEmpty (schemas.map (schemaUpdate parseComment))
        (runUpdates emptySchemaConfig SchemaConfig.IsEmpty
          (schemas.map (schemaUpdate parseComment)) m)
      = runUpdates emptySchemaConfig SchemaConfig.IsEmpty
          (schemas.map (schemaUpdate parseComment)) m := by
  apply runUpdates_idempotent emptySchemaConfig SchemaConfig.IsEmpty eq_emptySchemaConfig
  intro k v
  obtain ⟨tables, hall⟩ := applyAll_schemaChanges parseComment
    (changesAt k (schemas.map (schemaUpdate parseComment))) (by
      intro g hg
      obtain ⟨op, hop, rfl⟩ := mem_changesAt k _ g hg
      obtain ⟨schema, _, rfl⟩ := List.mem_map.mp hop
      exact ⟨schema, rfl⟩)
  rw [hall, hall]
  simp only [tablesRun_idempotent]

/-- The updates of an annotated column are those of the column. -/
theorem columnUpdate_annotated (parseComment : String → String × String) (col : ColumnMetadata) :
    columnUpdate parseComment (annotatedColumn parseComment col) = columnUpdate parseComment col :=
  rfl

/-- Annotating a column twice is annotating it once. -/
theorem annotatedColumn_idempotent (parseComment : String → String × String)
    (col : ColumnMetadata) :
    annotatedColumn parseComment (annotatedColumn parseComment col)
      = annotatedColumn parseComment col :=
  rfl

/-- The updates of an annotated table are those of the table. -/
theorem tableUpdate_annotated (parseComment : String → String × String) (table : TableMetadata) :
    tableUpdate parseComment (annotatedTable parseComment table) = tableUpdate parseComment table := by
  simp only [tableUpdate, annotatedTable, List.map_map]
  congr

/-- Annotating a table twice is annotating it once. -/
theorem annotatedTable_idempotent (parseComment : String → String × String)
    (table : TableMetadata) :
    annotatedTable parseComment (annotatedTable parseComment table)
      = annotatedTable parseComment table := by
  simp only [annotatedTable, List.map_map]
  congr

/-- The updates of an annotated schema are those of the schema. -/
theorem schemaUpdate_annotated (parseComment : String → String × String)
    (schema : SchemaMetadata) :
    schemaUpdate parseComment (annotatedSchema parseComment schema)
      = schemaUpdate parseComment schema := by
  simp only [schemaUpdate, annotatedSchema, List.map_map]
  have h : tableUpdate parseComment ∘ annotatedTable parseComment = tableUpdate parseComment :=
    funext (tableUpdate_annotated parseComment)
  rw [h]

/-- Annotating a schema twice is annotating it once. -/
theorem annotatedSchema_idempotent (parseComment : String → String × String)
    (schema : SchemaMetadata) :
    annotatedSchema parseComment (annotatedSchema parseComment schema)
      = annotatedSchema parseComment schema := by
  simp only [annotatedSchema, List.map_map]
  have h : annotatedTable parseComment ∘ annotatedTable parseComment
      = annotatedTable parseComment :=
    funext (annotatedTable_idempotent parseComment)
  rw [h]

/-- C10. Idempotence of the annotator: for every comment splitter, metadata tree
and internal config tree, applying `setClassificationAndUserCommentFromComment`
to the metadata and config it returned returns the same metadata and the same
config. -/
theorem setClassificationAndUserCommentFromComment_idempotent
    (parseComment : String → String × String) (dbSchema : DatabaseSchemaMetadata)
    (databaseConfig : DatabaseConfig) :
    setClassificationAndUserCommentFromComment parseComment
        (setClassificationAndUserCommentFromComment parseComment dbSchema databaseConfig).1
        (setClassificationAndUserCommentFromComment parseComment dbSchema databaseConfig).2
      = setClassificationAndUserCommentFromComment parseComment dbSchema databaseConfig := by
  simp only [setClassificationAndUserCommentFromComment,
    setClassificationAndUserCommentFromCommentSchemas_eq, List.map_map]
  have h1 : annotatedSchema parseComment ∘ annotatedSchema parseComment
      = annotatedSchema parseComment :=
    funext (annotatedSchema_idempotent parseComment)
  have h2 : schemaUpdate parseComment ∘ annotatedSchema parseComment
      = schemaUpdate parseComment :=
    funext (schemaUpdate_annotated parseComment)
  rw [h1, h2, schemasRun_idempotent]

/-- The value of `rawDump` after a snapshot step that ended without error. -/
theorem syncDatabaseSchemaSnapshot_rawDump (env : SyncEnv) (database : DatabaseMessage)
    (force : Bool) (dbSchema : Option DBSchema) (databaseMetadata : DatabaseSchemaMetadata)
    (dbModelConfig : DatabaseConfig)
    (hok : (syncDatabaseSchemaSnapshot env database force dbSchema databaseMetadata
      dbModelConfig).err = none) :
    (syncDatabaseSchemaSnapshot env database force dbSchema databaseMetadata
      dbModelConfig).rawDump = specRawDump env force dbSchema databaseMetadata := by
  unfold syncDatabaseSchemaSnapshot at hok ⊢
  unfold specRawDump
  by_cases ho : (force || !cmpEqual (dbSchema.map fun s => s.metadata)
      (some databaseMetadata)) = true
  · by_cases hi : (force || !equalDatabaseMetadata (dbSchema.map fun s => s.metadata)
        (some databaseMetadata)) = true
    · cases hd : env.driverDump <;> cases hu : env.upsertDBSchema <;>
        simp only [ho, hi, hd, hu, if_true] at hok ⊢ <;> simp at hok ⊢
    · cases hu : env.upsertDBSchema <;>
        simp only [ho, hi, hu, if_true, if_false] at hok ⊢ <;> simp at hok ⊢
  · have hi : ¬ (force || !equalDatabaseMetadata (dbSchema.map fun s => s.metadata)
        (some databaseMetadata)) = true := by
      intro hi
      apply ho
      cases hf : force
      · rw [hf] at hi
        simp only [Bool.false_or, Bool.not_eq_true'] at hi ⊢
        cases hc : cmpEqual (dbSchema.map fun s => s.metadata) (some databaseMetadata)
        · rfl
        · rw [equalDatabaseMetadata_of_cmpEqual _ _ hc] at hi
          exact absurd hi (by decide)
      · rfl
    simp only [ho, hi, if_false]
    simp

/-- The snapshot step makes no anomaly call. -/
theorem syncDatabaseSchemaSnapshot_no_anomaly_call (env : SyncEnv) (database : DatabaseMessage)
    (force : Bool) (dbSchema : Option DBSchema) (databaseMetadata : DatabaseSchemaMetadata)
    (dbModelConfig : DatabaseConfig) :
    (syncDatabaseSchemaSnapshot env database force dbSchema databaseMetadata
      dbModelConfig).events.filter Event.isAnomalyCall = [] := by
  unfold syncDatabaseSchemaSnapshot
  by_cases ho : (force || !cmpEqual (dbSchema.map fun s => s.metadata)
      (some databaseMetadata)) = true
  · by_cases hi : (force || !equalDatabaseMetadata (dbSchema.map fun s => s.metadata)
        (some databaseMetadata)) = true
    · cases hd : env.driverDump <;> cases hu : env.upsertDBSchema <;>
        simp only [ho, hi, hd, hu, if_true] <;> simp [Event.isAnomalyCall]
    · cases hu : env.upsertDBSchema <;>
        simp only [ho, hi, hu, if_true, if_false] <;> simp [Event.isAnomalyCall]
  · simp only [ho, if_false]
    rfl

/-- The anomaly calls of the drift check when the feature is licensed, the
engine is not exempt and the change history is read. -/
theorem syncDatabaseSchemaDrift_anomaly_calls (env : SyncEnv) (inst : InstanceMessage)
    (database : DatabaseMessage) (rawDump : Bytes)
    (history : List InstanceChangeHistoryMessage)
    (hlicensed : env.isFeatureEnabledForInstance = none)
    (hengine : disableSchemaDriftAnomalyCheck inst.Engine = false)
    (hhistory : env.listInstanceChangeHistory = Except.ok history) :
    (syncDatabaseSchemaDrift env inst database rawDump).filter Event.isAnomalyCall
      = specDriftCalls inst database rawDump history := by
  unfold syncDatabaseSchemaDrift specDriftCalls
  simp only [hlicensed, hengine, hhistory, Bool.false_eq_true, if_false]
  cases history with
  | nil => simp [Event.isAnomalyCall]
  | cons latest rest =>
    by_cases hne : latest.Schema = rawDump
    · simp [hne, Event.isAnomalyCall]
    · simp [hne, Event.isAnomalyCall]

/-- C11. Drift decision: in a run of `SyncDatabaseSchema` that reaches the drift
check (every earlier step succeeded) with the SchemaDrift feature licensed, an
engine outside the exclusion set and the change history read, the anomaly calls
of the whole run are the archive of the connection anomaly made after opening
the session, followed by those of `specDriftCalls` on the current `rawDump`:
nothing when the history is empty; otherwise, with `latest` its first row, one
upsert of a `DatabaseSchemaDrift` anomaly keyed on the database UID with
payload `Version = latest.Version`, `Expect = latest.Schema`,
`Actual = rawDump` when `latest.Schema` differs from `rawDump`, and one archive
of the `DatabaseSchemaDrift` anomaly of the database, with no upsert, when
they are equal. -/
theorem SyncDatabaseSchema_drift_decision (parseComment : String → String × String)
    (env : SyncEnv) (database : DatabaseMessage) (force : Bool) (inst : InstanceMessage)
    (live : DatabaseSchemaMetadata) (dbSchema : Option DBSchema) (project : ProjectMessage)
    (classificationConfig : DataClassificationConfig)
    (history : List InstanceChangeHistoryMessage)
    (hreadonly : env.Readonly = false)
    (hinst : env.getInstanceV2 = Except.ok (some inst))
    (hopen : env.getAdminDatabaseDriver = none)
    (hlive : env.driverSyncDBSchema = Except.ok live)
    (hstored : env.getDBSchema = Except.ok dbSchema)
    (hproject : env.getProjectV2 = Except.ok project)
    (hclass : env.getDataClassificationConfigByID = Except.ok classificationConfig)
    (hupdate : env.updateDatabase = none)
    (hsnapshot : (syncDatabaseSchemaSnapshot env database force dbSchema
        (syncDatabaseSchemaAnnotate parseComment inst classificationConfig live
          (initialModelConfig dbSchema)).1
        (syncDatabaseSchemaAnnotate parseComment inst classificationConfig live
          (initialModelConfig dbSchema)).2).err = none)
    (hlicensed : env.isFeatureEnabledForInstance = none)
    (hengine : disableSchemaDriftAnomalyCheck inst.Engine = false)
    (hhistory : env.listInstanceChangeHistory = Except.ok history) :
    (SyncDatabaseSchema parseComment env database force).events.filter Event.isAnomalyCall
      = Event.ArchiveAnomalyV2
          { InstanceID := none
            DatabaseUID := some database.UID
            Type_ := AnomalyType.DatabaseConnection }
        :: specDriftCalls inst database
            (specRawDump env force dbSchema
              (syncDatabaseSchemaAnnotate parseComment inst classificationConfig live
                (initialModelConfig dbSchema)).1)
            history := by
  have hraw := syncDatabaseSchemaSnapshot_rawDump env database force dbSchema _ _ hsnapshot
  have hsnap := syncDatabaseSchemaSnapshot_no_anomaly_call env database force dbSchema
    (syncDatabaseSchemaAnnotate parseComment inst classificationConfig live
      (initialModelConfig dbSchema)).1
    (syncDatabaseSchemaAnnotate parseComment inst classificationConfig live
      (initialModelConfig dbSchema)).2
  have hdrift := syncDatabaseSchemaDrift_anomaly_calls env inst database
    (specRawDump env force dbSchema
      (syncDatabaseSchemaAnnotate parseComment inst classificationConfig live
        (initialModelConfig dbSchema)).1) history hlicensed hengine hhistory
  simp only [SyncDatabaseSchema, hreadonly, hinst, hopen, syncDatabaseSchemaWithDriver, hlive,
    hstored, hproject, hclass, hupdate, hsnapshot, hraw]
  simp only [List.filter_append, upsertDatabaseConnectionAnomaly]
  simp [Event.isAnomalyCall]
  rw [hsnap, hdrift, List.nil_append]

/-- C11 at a first sync with the feature licensed on a MySQL instance whose
latest change-history row has the schema `[9]` at version `v1`, while the dump
just produced is `[4, 5]`: the drift anomaly is upserted with the version, the
history schema and the dump. -/
theorem SyncDatabaseSchema_drift_decision_witness :
    (SyncDatabaseSchema exampleParseComment
      { exampleEnv (exampleMetadata 200 "") none with
        isFeatureEnabledForInstance := none
        listInstanceChangeHistory := Except.ok [{ Schema := [9], Version := "v1" }] }
      exampleDatabase false).events.filter Event.isAnomalyCall
      = [Event.ArchiveAnomalyV2
          { InstanceID := none
            DatabaseUID := some 7
            Type_ := AnomalyType.DatabaseConnection },
         Event.UpsertActiveAnomalyV2
          { InstanceID := "prod"
            DatabaseUID := some 7
            Type_ := AnomalyType.DatabaseSchemaDrift
            Payload := AnomalyPayload.schemaDrift "v1" [9] [4, 5] }] :=
  (SyncDatabaseSchema_drift_decision exampleParseComment
    { exampleEnv (exampleMetadata 200 "") none with
      isFeatureEnabledForInstance := none
      listInstanceChangeHistory := Except.ok [{ Schema := [9], Version := "v1" }] }
    exampleDatabase false exampleInstance (exampleMetadata 200 "") none
    { ResourceID := "shop", DataClassificationConfigID := "cfg" }
    { ClassificationFromConfig := true } [{ Schema := [9], Version := "v1" }]
    rfl rfl rfl rfl rfl rfl rfl rfl (by decide) rfl (by decide) rfl).trans (by decide)

/-- Every node of a map satisfies `p` iff every node found by a lookup does. -/
theorem allNodes_iff {V : Type} (m : NodeMap V) (p : V → Bool) :
    allNodes m p = true ↔ ∀ k v, m.lookup k = some v → p v = true := by
  simp only [allNodes, decide_eq_true_eq]
  constructor
  · intro h k v hv
    have hk : k ∈ m.keys := Finmap.mem_keys.mpr (Finmap.mem_of_lookup_eq_some hv)
    have := h k hk
    rw [hv] at this
    exact this
  · intro h k _
    cases hv : m.lookup k with
    | none => rfl
    | some v => exact h k v hv

/-- A node found after a run of keyed updates is either the node that was
there, no update having its key, or the node that the changes under its key
made, which is then not empty. -/
theorem lookup_runUpdates_cases {V : Type} (dflt : V) (isEmpty : V → Bool)
    (hdflt : ∀ v, isEmpty v = true → v = dflt)
    (ops : List (String × (V → V))) (m : NodeMap V) (k : String) (v : V)
    (h : (runUpdates dflt isEmpty ops m).lookup k = some v) :
    ((changesAt k ops).isEmpty = true ∧ m.lookup k = some v)
    ∨ ((changesAt k ops).isEmpty = false
        ∧ v = applyAll (changesAt k ops) ((m.lookup k).getD dflt) ∧ isEmpty v = false) := by
  rw [lookup_runUpdates dflt isEmpty hdflt] at h
  by_cases hch : (changesAt k ops).isEmpty = true
  · rw [if_pos hch] at h
    exact Or.inl ⟨hch, h⟩
  · rw [if_neg hch] at h
    by_cases he : isEmpty (applyAll (changesAt k ops) ((m.lookup k).getD dflt)) = true
    · rw [if_pos he] at h
      cases h
    · rw [if_neg he] at h
      injection h with h
      subst h
      exact Or.inr ⟨by simpa using hch, rfl, by simpa using he⟩

/-- An empty node found after a run of keyed updates was there before. -/
theorem lookup_runUpdates_of_empty {V : Type} (dflt : V) (isEmpty : V → Bool)
    (hdflt : ∀ v, isEmpty v = true → v = dflt)
    (ops : List (String × (V → V))) (m : NodeMap V) (k : String) (v : V)
    (h : (runUpdates dflt isEmpty ops m).lookup k = some v) (hv : isEmpty v = true) :
    m.lookup k = some v := by
  rcases lookup_runUpdates_cases dflt isEmpty hdflt ops m k v h with ⟨_, hold⟩ | ⟨_, _, hne⟩
  · exact hold
  · rw [hv] at hne
    cases hne

/-- The table config that the table updates under one name make of a table
config: its column map has undergone the column updates of some columns. -/
theorem applyAll_tableChangesAt (parseComment : String → String × String)
    (tables : List TableMetadata) (t : String) (v : TableConfig) :
    ∃ cols : List ColumnMetadata,
      (applyAll (changesAt t (tables.map (tableUpdate parseComment))) v).internal
        = runUpdates emptyColumnConfig isEmptyColumnConfig
            (cols.map (columnUpdate parseComment)) v.internal := by
  obtain ⟨f, cols, _, hall⟩ := applyAll_tableChanges parseComment
    (changesAt t (tables.map (tableUpdate parseComment))) (by
      intro g hg
      obtain ⟨op, hop, rfl⟩ := mem_changesAt t _ g hg
      obtain ⟨table, _, rfl⟩ := List.mem_map.mp hop
      exact ⟨table, rfl⟩)
  exact ⟨cols, by rw [hall]⟩

/-- The schema config that the schema updates under one name make of a schema
config: its table map has undergone the table updates of some tables. -/
theorem applyAll_schemaChangesAt (parseComment : String → String × String)
    (schemas : List SchemaMetadata) (s : String) (v : SchemaConfig) :
    ∃ tables : List TableMetadata,
      (applyAll (changesAt s (schemas.map (schemaUpdate parseComment))) v).internal
        = runUpdates emptyTableConfig TableConfig.IsEmpty
            (tables.map (tableUpdate parseComment)) v.internal := by
  obtain ⟨tables, hall⟩ := applyAll_schemaChanges parseComment
    (changesAt s (schemas.map (schemaUpdate parseComment))) (by
      intro g hg
      obtain ⟨op, hop, rfl⟩ := mem_changesAt s _ g hg
      obtain ⟨schema, _, rfl⟩ := List.mem_map.mp hop
      exact ⟨schema, rfl⟩)
  exact ⟨tables, by rw [hall]⟩

/-- An empty column config found in a table config after the table loop was in
that table config before. -/
theorem tablesRun_empty_column (parseComment : String → String × String)
    (tables : List TableMetadata) (m : NodeMap TableConfig) (t : String) (tc : TableConfig)
    (c : String) (cc : ColumnConfig)
    (ht : (runUpdates emptyTableConfig TableConfig.IsEmpty
      (tables.map (tableUpdate parseComment)) m).lookup t = some tc)
    (hc : tc.internal.lookup c = some cc) (hcc : isEmptyColumnConfig cc = true) :
    ∃ tc0, m.lookup t = some tc0 ∧ tc0.internal.lookup c = some cc := by
  rcases lookup_runUpdates_cases emptyTableConfig TableConfig.IsEmpty eq_emptyTableConfig
    _ m t tc ht with ⟨_, hold⟩ | ⟨_, hnew, _⟩
  · exact ⟨tc, hold, hc⟩
  · obtain ⟨cols, hcols⟩ := applyAll_tableChangesAt parseComment tables t
      ((m.lookup t).getD emptyTableConfig)
    rw [hnew, hcols] at hc
    have hwas := lookup_runUpdates_of_empty emptyColumnConfig isEmptyColumnConfig
      eq_emptyColumnConfig _ _ c cc hc hcc
    cases hm : m.lookup t with
    | none =>
      rw [hm] at hwas
      simp [emptyTableConfig, Finmap.lookup_empty] at hwas
    | some tc0 =>
      rw [hm] at hwas
      exact ⟨tc0, rfl, hwas⟩

/-- The config tree after the annotator: the schema map has undergone the
schema updates of the metadata. -/
theorem setClassificationAndUserCommentFromComment_config
    (parseComment : String → String × String) (dbSchema : DatabaseSchemaMetadata)
    (databaseConfig : DatabaseConfig) :
    (setClassificationAndUserCommentFromComment parseComment dbSchema databaseConfig).2.internal
      = runUpdates emptySchemaConfig SchemaConfig.IsEmpty
          (dbSchema.Schemas.map (schemaUpdate parseComment)) databaseConfig.internal := by
  simp only [setClassificationAndUserCommentFromComment,
    setClassificationAndUserCommentFromCommentSchemas_eq]

/-- An empty table config found in a schema config after the schema loop was in
that schema config before. -/
theorem schemasRun_empty_table (parseComment : String → String × String)
    (schemas : List SchemaMetadata) (m : NodeMap SchemaConfig) (s : String) (sc : SchemaConfig)
    (t : String) (tc : TableConfig)
    (hs : (runUpdates emptySchemaConfig SchemaConfig.IsEmpty
      (schemas.map (schemaUpdate parseComment)) m).lookup s = some sc)
    (ht : sc.internal.lookup t = some tc) (htc : tc.IsEmpty = true) :
    ∃ sc0, m.lookup s = some sc0 ∧ sc0.internal.lookup t = some tc := by
  rcases lookup_runUpdates_cases emptySchemaConfig SchemaConfig.IsEmpty eq_emptySchemaConfig
    _ m s sc hs with ⟨_, hold⟩ | ⟨_, hnew, _⟩
  · exact ⟨sc, hold, ht⟩
  · obtain ⟨tables, htables⟩ := applyAll_schemaChangesAt parseComment schemas s
      ((m.lookup s).getD emptySchemaConfig)
    rw [hnew, htables] at ht
    have hwas := lookup_runUpdates_of_empty emptyTableConfig TableConfig.IsEmpty
      eq_emptyTableConfig _ _ t tc ht htc
    cases hm : m.lookup s with
    | none =>
      rw [hm] at hwas
      simp [emptySchemaConfig, Finmap.lookup_empty] at hwas
    | some sc0 =>
      rw [hm] at hwas
      exact ⟨sc0, rfl, hwas⟩

/-- An empty column config found in a schema config after the schema loop was
in that schema config before, in the same table config. -/
theorem schemasRun_empty_column (parseComment : String → String × String)
    (schemas : List SchemaMetadata) (m : NodeMap SchemaConfig) (s : String) (sc : SchemaConfig)
    (t : String) (tc : TableConfig) (c : String) (cc : ColumnConfig)
    (hs : (runUpdates emptySchemaConfig SchemaConfig.IsEmpty
      (schemas.map (schemaUpdate parseComment)) m).lookup s = some sc)
    (ht : sc.internal.lookup t = some tc) (hc : tc.internal.lookup c = some cc)
    (hcc : isEmptyColumnConfig cc = true) :
    ∃ sc0 tc0, m.lookup s = some sc0 ∧ sc0.internal.lookup t = some tc0
      ∧ tc0.internal.lookup c = some cc := by
  rcases lookup_runUpdates_cases emptySchemaConfig SchemaConfig.IsEmpty eq_emptySchemaConfig
    _ m s sc hs with ⟨_, hold⟩ | ⟨_, hnew, _⟩
  · exact ⟨sc, tc, hold, ht, hc⟩
  · obtain ⟨tables, htables⟩ := applyAll_schemaChangesAt parseComment schemas s
      ((m.lookup s).getD emptySchemaConfig)
    rw [hnew, htables] at ht
    obtain ⟨tc0, htc0, hc0⟩ := tablesRun_empty_column parseComment tables _ t tc c cc ht hc hcc
    cases hm : m.lookup s with
    | none =>
      rw [hm] at htc0
      simp [emptySchemaConfig, Finmap.lookup_empty] at htc0
    | some sc0 =>
      rw [hm] at htc0
      exact ⟨sc0, tc0, rfl, htc0, hc0⟩

/-- Every empty node of the config tree after the annotator was already in the
prior tree at the same place; so when the prior tree contains no empty node,
the resulting tree contains none. -/
theorem setClassificationAndUserCommentFromComment_empty_from_prior
    (parseComment : String → String × String) (dbSchema : DatabaseSchemaMetadata)
    (databaseConfig : DatabaseConfig) :
    (∀ s sc,
      (setClassificationAndUserCommentFromComment parseComment dbSchema
        databaseConfig).2.internal.lookup s = some sc →
      sc.IsEmpty = true → databaseConfig.internal.lookup s = some sc)
    ∧ (∀ s sc t tc,
      (setClassificationAndUserCommentFromComment parseComment dbSchema
        databaseConfig).2.internal.lookup s = some sc →
      sc.internal.lookup t = some tc → tc.IsEmpty = true →
      ∃ sc0, databaseConfig.internal.lookup s = some sc0 ∧ sc0.internal.lookup t = some tc)
    ∧ (∀ s sc t tc c cc,
      (setClassificationAndUserCommentFromComment parseComment dbSchema
        databaseConfig).2.internal.lookup s = some sc →
      sc.internal.lookup t = some tc → tc.internal.lookup c = some cc →
      isEmptyColumnConfig cc = true →
      ∃ sc0 tc0, databaseConfig.internal.lookup s = some sc0
        ∧ sc0.internal.lookup t = some tc0 ∧ tc0.internal.lookup c = some cc)
    ∧ (databaseConfig.noEmptyNode = true →
      (setClassificationAndUserCommentFromComment parseComment dbSchema
        databaseConfig).2.noEmptyNode = true) := by
  have h1 : ∀ s sc,
      (setClassificationAndUserCommentFromComment parseComment dbSchema
        databaseConfig).2.internal.lookup s = some sc →
      sc.IsEmpty = true → databaseConfig.internal.lookup s = some sc := by
    intro s sc hs hsc
    rw [setClassificationAndUserCommentFromComment_config] at hs
    exact lookup_runUpdates_of_empty emptySchemaConfig SchemaConfig.IsEmpty
      eq_emptySchemaConfig _ _ s sc hs hsc
  have h2 : ∀ s sc t tc,
      (setClassificationAndUserCommentFromComment parseComment dbSchema
        databaseConfig).2.internal.lookup s = some sc →
      sc.internal.lookup t = some tc → tc.IsEmpty = true →
      ∃ sc0, databaseConfig.internal.lookup s = some sc0
        ∧ sc0.internal.lookup t = some tc := by
    intro s sc t tc hs ht htc
    rw [setClassificationAndUserCommentFromComment_config] at hs
    exact schemasRun_empty_table parseComment _ _ s sc t tc hs ht htc
  have h3 : ∀ s sc t tc c cc,
      (setClassificationAndUserCommentFromComment parseComment dbSchema
        databaseConfig).2.internal.lookup s = some sc →
      sc.internal.lookup t = some tc → tc.internal.lookup c = some cc →
      isEmptyColumnConfig cc = true →
      ∃ sc0 tc0, databaseConfig.internal.lookup s = some sc0
        ∧ sc0.internal.lookup t = some tc0 ∧ tc0.internal.lookup c = some cc := by
    intro s sc t tc c cc hs ht hc hcc
    rw [setClassificationAndUserCommentFromComment_config] at hs
    exact schemasRun_empty_column parseComment _ _ s sc t tc c cc hs ht hc hcc
  refine ⟨h1, h2, h3, ?_⟩
  intro hprior
  simp only [DatabaseConfig.noEmptyNode, SchemaConfig.noEmptyNode, TableConfig.noEmptyNode,
    allNodes_iff, Bool.and_eq_true, Bool.not_eq_true'] at hprior ⊢
  intro s sc hs
  refine ⟨?_, ?_⟩
  · cases hsc : sc.IsEmpty with
    | false => rfl
    | true =>
      have hwas := h1 s sc hs hsc
      rw [(hprior s sc hwas).1] at hsc
      cases hsc
  · intro t tc ht
    refine ⟨?_, ?_⟩
    · cases htc : tc.IsEmpty with
      | false => rfl
      | true =>
        obtain ⟨sc0, hs0, ht0⟩ := h2 s sc t tc hs ht htc
        rw [((hprior s sc0 hs0).2 t tc ht0).1] at htc
        cases htc
    · intro c cc hc
      cases hcc : isEmptyColumnConfig cc with
      | false => rfl
      | true =>
        obtain ⟨sc0, tc0, hs0, ht0, hc0⟩ := h3 s sc t tc c cc hs ht hc hcc
        rw [((hprior s sc0 hs0).2 t tc0 ht0).2 c cc hc0] at hcc
        cases hcc

/-- C12 as stated fails: on a prior config tree in which the table `t` holds an
empty column config under the name `dropped`, which the metadata does not
name, the annotator leaves that empty column config in the tree. -/
theorem setClassificationAndUserCommentFromComment_empty_node_counterexample :
    (setClassificationAndUserCommentFromComment exampleParseComment (exampleMetadata 200 "")
      exampleConfigWithEmptyNode).2.noEmptyNode = false
    ∧ (((setClassificationAndUserCommentFromComment exampleParseComment
          (exampleMetadata 200 "") exampleConfigWithEmptyNode).2.internal.lookup "public").bind
        fun sc => (sc.internal.lookup "t").bind fun tc => tc.internal.lookup "dropped")
      = some emptyColumnConfig := by
  constructor <;> decide

/-- No change is made under a key iff no update of the run has that key. -/
theorem changesAt_isEmpty_iff {V : Type} (k : String) (ops : List (String × (V → V))) :
    (changesAt k ops).isEmpty = true ↔ ∀ op ∈ ops, op.1 ≠ k := by
  simp [changesAt, List.isEmpty_iff, List.filter_eq_nil_iff]

/-- The changes that a run of updates built from a list makes under a key are
those of the members of the list with that key. -/
theorem changesAt_map {V A : Type} (k : String) (f : A → String × (V → V)) (l : List A) :
    changesAt k (l.map f)
      = (l.filter fun x => decide ((f x).1 = k)).map fun x => (f x).2 := by
  induction l with
  | nil => rfl
  | cons x rest ih =>
    simp only [changesAt, List.map_cons, List.filter_cons] at ih ⊢
    by_cases hx : (f x).1 = k
    · simp [hx, ih]
    · simp [hx, ih]

/-- An empty node is found after a run of keyed updates iff it was there before
and no update of the run has its key. -/
theorem lookup_runUpdates_empty_iff {V : Type} (dflt : V) (isEmpty : V → Bool)
    (hdflt : ∀ v, isEmpty v = true → v = dflt)
    (ops : List (String × (V → V))) (m : NodeMap V) (k : String) (v : V)
    (hv : isEmpty v = true) :
    (runUpdates dflt isEmpty ops m).lookup k = some v
      ↔ (m.lookup k = some v ∧ ∀ op ∈ ops, op.1 ≠ k) := by
  rw [← changesAt_isEmpty_iff]
  constructor
  · intro h
    rcases lookup_runUpdates_cases dflt isEmpty hdflt ops m k v h with ⟨hch, hold⟩ | ⟨_, _, hne⟩
    · exact ⟨hold, hch⟩
    · rw [hv] at hne
      cases hne
  · rintro ⟨hold, hch⟩
    rw [lookup_runUpdates dflt isEmpty hdflt, if_pos hch, hold]

/-- What is found below the node under a key, by a query that finds nothing
below the default node, when the node may be absent. -/
theorem bind_lookup_eq {V W : Type} (dflt : V) (q : V → Option W) (hq : q dflt = none)
    (m : NodeMap V) (k : String) :
    (m.lookup k).bind q = q ((m.lookup k).getD dflt) := by
  cases m.lookup k with
  | none => simp [hq]
  | some v => rfl

/-- What is found below the node under a key after a run of keyed updates, by
a query that finds nothing below the default node: what the query finds below
the node that the changes under that key make. -/
theorem bind_lookup_runUpdates {V W : Type} (dflt : V) (isEmpty : V → Bool)
    (hdflt : ∀ v, isEmpty v = true → v = dflt) (q : V → Option W) (hq : q dflt = none)
    (ops : List (String × (V → V))) (m : NodeMap V) (k : String) :
    ((runUpdates dflt isEmpty ops m).lookup k).bind q
      = q (applyAll (changesAt k ops) ((m.lookup k).getD dflt)) := by
  rw [bind_lookup_eq dflt q hq, view_runUpdates dflt isEmpty hdflt]

/-- The column map of the table config that the updates of a list of tables
make of a table config, applied in order: it has undergone the column updates
of all the columns of these tables, in order. -/
theorem applyAll_tableUpdates_internal (parseComment : String → String × String)
    (tables : List TableMetadata) (v : TableConfig) :
    (applyAll (tables.map fun table => (tableUpdate parseComment table).2) v).internal
      = runUpdates emptyColumnConfig isEmptyColumnConfig
          ((tables.flatMap fun table => table.Columns).map (columnUpdate parseComment))
          v.internal := by
  induction tables generalizing v with
  | nil => rfl
  | cons table rest ih =>
    have hstep : applyAll ((table :: rest).map fun table => (tableUpdate parseComment table).2) v
        = applyAll (rest.map fun table => (tableUpdate parseComment table).2)
            ((tableUpdate parseComment table).2 v) := rfl
    rw [hstep, ih, List.flatMap_cons, List.map_append, runUpdates_append]
    rfl

/-- The table map of the schema config that the updates of a list of schemas
make of a schema config, applied in order: it has undergone the table updates
of all the tables of these schemas, in order. -/
theorem applyAll_schemaUpdates_internal (parseComment : String → String × String)
    (schemas : List SchemaMetadata) (v : SchemaConfig) :
    (applyAll (schemas.map fun schema => (schemaUpdate parseComment schema).2) v).internal
      = runUpdates emptyTableConfig TableConfig.IsEmpty
          ((schemas.flatMap fun schema => schema.Tables).map (tableUpdate parseComment))
          v.internal := by
  induction schemas generalizing v with
  | nil => rfl
  | cons schema rest ih =>
    have hstep : applyAll
          ((schema :: rest).map fun schema => (schemaUpdate parseComment schema).2) v
        = applyAll (rest.map fun schema => (schemaUpdate parseComment schema).2)
            ((schemaUpdate parseComment schema).2 v) := rfl
    rw [hstep, ih, List.flatMap_cons, List.map_append, runUpdates_append]
    rfl

/-- An empty column config is found in a table config after the table loop iff
it was in that table config before and no table of the loop with the name of
the table config has a column with its name. -/
theorem tablesRun_empty_column_iff (parseComment : String → String × String)
    (tables : List TableMetadata) (m : NodeMap TableConfig) (t c : String) (cc : ColumnConfig)
    (hcc : isEmptyColumnConfig cc = true) :
    ((runUpdates emptyTableConfig TableConfig.IsEmpty
        (tables.map (tableUpdate parseComment)) m).lookup t).bind
        (fun tableConfig => tableConfig.internal.lookup c) = some cc
      ↔ ((m.lookup t).bind (fun tableConfig => tableConfig.internal.lookup c) = some cc
        ∧ (tables.any fun table => decide (table.Name = t) &&
            table.Columns.any fun col => decide (col.Name = c)) = false) := by
  have hq : (fun tableConfig : TableConfig => tableConfig.internal.lookup c) emptyTableConfig
      = none := by
    simp [emptyTableConfig, Finmap.lookup_empty]
  rw [bind_lookup_runUpdates emptyTableConfig TableConfig.IsEmpty eq_emptyTableConfig _ hq,
    bind_lookup_eq emptyTableConfig _ hq, changesAt_map]
  rw [applyAll_tableUpdates_internal,
    lookup_runUpdates_empty_iff emptyColumnConfig isEmptyColumnConfig eq_emptyColumnConfig
      _ _ c cc hcc]
  apply and_congr_right
  intro _
  simp only [List.mem_map, List.mem_flatMap, List.mem_filter, decide_eq_true_eq, tableUpdate,
    columnUpdate, Bool.eq_false_iff, ne_eq, List.any_eq_true, Bool.and_eq_true, not_exists,
    not_and]
  constructor
  · intro h table htable hname col hcol hcname
    exact h (columnUpdate parseComment col) ⟨col, ⟨table, ⟨htable, hname⟩, hcol⟩, rfl⟩ hcname
  · rintro h op ⟨col, ⟨table, ⟨htable, hname⟩, hcol⟩, rfl⟩ hcname
    exact h table htable hname col hcol hcname

/-- An empty table config is found in a schema config after the schema loop iff
it was in that schema config before and no schema of the loop with the name of
the schema config has a table with its name. -/
theorem schemasRun_empty_table_iff (parseComment : String → String × String)
    (schemas : List SchemaMetadata) (m : NodeMap SchemaConfig) (s t : String) (tc : TableConfig)
    (htc : tc.IsEmpty = true) :
    ((runUpdates emptySchemaConfig SchemaConfig.IsEmpty
        (schemas.map (schemaUpdate parseComment)) m).lookup s).bind
        (fun schemaConfig => schemaConfig.internal.lookup t) = some tc
      ↔ ((m.lookup s).bind (fun schemaConfig => schemaConfig.internal.lookup t) = some tc
        ∧ (schemas.any fun schema => decide (schema.Name = s) &&
            schema.Tables.any fun table => decide (table.Name = t)) = false) := by
  have hq : (fun schemaConfig : SchemaConfig => schemaConfig.internal.lookup t)
      emptySchemaConfig = none := by
    simp [emptySchemaConfig, Finmap.lookup_empty]
  rw [bind_lookup_runUpdates emptySchemaConfig SchemaConfig.IsEmpty eq_emptySchemaConfig _ hq,
    bind_lookup_eq emptySchemaConfig _ hq, changesAt_map]
  rw [applyAll_schemaUpdates_internal,
    lookup_runUpdates_empty_iff emptyTableConfig TableConfig.IsEmpty eq_emptyTableConfig
      _ _ t tc htc]
  apply and_congr_right
  intro _
  simp only [List.mem_map, List.mem_flatMap, List.mem_filter, decide_eq_true_eq, tableUpdate,
    schemaUpdate, Bool.eq_false_iff, ne_eq, List.any_eq_true, Bool.and_eq_true, not_exists,
    not_and]
  constructor
  · intro h schema hschema hname table htable htname
    exact h (tableUpdate parseComment table) ⟨table, ⟨schema, ⟨hschema, hname⟩, htable⟩, rfl⟩
      htname
  · rintro h op ⟨table, ⟨schema, ⟨hschema, hname⟩, htable⟩, rfl⟩ htname
    exact h schema hschema hname table htable htname

/-- An empty column config is found in a schema config after the schema loop
iff it was in that schema config before, in the same table config, and no
schema of the loop with the name of the schema config has a table with the
name of the table config that has a column with its name. -/
theorem schemasRun_empty_column_iff (parseComment : String → String × String)
    (schemas : List SchemaMetadata) (m : NodeMap SchemaConfig) (s t c : String)
    (cc : ColumnConfig) (hcc : isEmptyColumnConfig cc = true) :
    ((runUpdates emptySchemaConfig SchemaConfig.IsEmpty
        (schemas.map (schemaUpdate parseComment)) m).lookup s).bind
        (fun schemaConfig => (schemaConfig.internal.lookup t).bind
          fun tableConfig => tableConfig.internal.lookup c) = some cc
      ↔ ((m.lookup s).bind (fun schemaConfig => (schemaConfig.internal.lookup t).bind
            fun tableConfig => tableConfig.internal.lookup c) = some cc
        ∧ (schemas.any fun schema => decide (schema.Name = s) &&
            schema.Tables.any fun table => decide (table.Name = t) &&
              table.Columns.any fun col => decide (col.Name = c)) = false) := by
  have hq : (fun schemaConfig : SchemaConfig => (schemaConfig.internal.lookup t).bind
      fun tableConfig => tableConfig.internal.lookup c) emptySchemaConfig = none := by
    simp [emptySchemaConfig, Finmap.lookup_empty]
  rw [bind_lookup_runUpdates emptySchemaConfig SchemaConfig.IsEmpty eq_emptySchemaConfig _ hq,
    bind_lookup_eq emptySchemaConfig _ hq, changesAt_map]
  rw [applyAll_schemaUpdates_internal, tablesRun_empty_column_iff parseComment _ _ t c cc hcc]
  apply and_congr_right
  intro _
  simp only [List.mem_flatMap, List.mem_filter, decide_eq_true_eq, schemaUpdate,
    Bool.eq_false_iff, ne_eq, List.any_eq_true, Bool.and_eq_true, not_exists, not_and]
  constructor
  · intro h schema hschema hname table htable htname col hcol hcname
    exact h table ⟨schema, ⟨hschema, hname⟩, htable⟩ htname col hcol hcname
  · rintro h table ⟨schema, ⟨hschema, hname⟩, htable⟩ htname col hcol hcname
    exact h schema hschema hname table htable htname col hcol hcname

/-- C12 (amended). Pruning of empty config nodes: after
`setClassificationAndUserCommentFromComment` has run on any metadata tree and
any prior config tree, the empty nodes of the config tree are exactly the empty
nodes of the prior tree at places the metadata does not name: an empty schema
config is at the place `s` iff it was there before and the metadata has no
schema named `s`; an empty table config is at `(s, t)` iff it was there before
and the metadata has no schema named `s` with a table named `t`; an empty
column config is at `(s, t, c)` iff it was there before and the metadata has
no such schema with such a table with a column named `c`. So no node at a
place the metadata names is empty, and when the prior tree contains no empty
node the resulting tree contains none. -/
theorem setClassificationAndUserCommentFromComment_empty_nodes
    (parseComment : String → String × String) (dbSchema : DatabaseSchemaMetadata)
    (databaseConfig : DatabaseConfig) :
    (∀ s sc, sc.IsEmpty = true →
      ((setClassificationAndUserCommentFromComment parseComment dbSchema
          databaseConfig).2.schemaAt s = some sc
        ↔ (databaseConfig.schemaAt s = some sc ∧ dbSchema.namesSchema s = false)))
    ∧ (∀ s t tc, tc.IsEmpty = true →
      ((setClassificationAndUserCommentFromComment parseComment dbSchema
          databaseConfig).2.tableAt s t = some tc
        ↔ (databaseConfig.tableAt s t = some tc ∧ dbSchema.namesTable s t = false)))
    ∧ (∀ s t c cc, isEmptyColumnConfig cc = true →
      ((setClassificationAndUserCommentFromComment parseComment dbSchema
          databaseConfig).2.columnAt s t c = some cc
        ↔ (databaseConfig.columnAt s t c = some cc ∧ dbSchema.namesColumn s t c = false)))
    ∧ (∀ s sc, dbSchema.namesSchema s = true →
      (setClassificationAndUserCommentFromComment parseComment dbSchema
        databaseConfig).2.schemaAt s = some sc → sc.IsEmpty = false)
    ∧ (∀ s t tc, dbSchema.namesTable s t = true →
      (setClassificationAndUserCommentFromComment parseComment dbSchema
        databaseConfig).2.tableAt s t = some tc → tc.IsEmpty = false)
    ∧ (∀ s t c cc, dbSchema.namesColumn s t c = true →
      (setClassificationAndUserCommentFromComment parseComment dbSchema
        databaseConfig).2.columnAt s t c = some cc → isEmptyColumnConfig cc = false)
    ∧ (databaseConfig.noEmptyNode = true →
      (setClassificationAndUserCommentFromComment parseComment dbSchema
        databaseConfig).2.noEmptyNode = true) := by
  have h1 : ∀ s sc, sc.IsEmpty = true →
      ((setClassificationAndUserCommentFromComment parseComment dbSchema
          databaseConfig).2.schemaAt s = some sc
        ↔ (databaseConfig.schemaAt s = some sc ∧ dbSchema.namesSchema s = false)) := by
    intro s sc hsc
    rw [DatabaseConfig.schemaAt, setClassificationAndUserCommentFromComment_config,
      lookup_runUpdates_empty_iff emptySchemaConfig SchemaConfig.IsEmpty eq_emptySchemaConfig
        _ _ s sc hsc]
    apply and_congr_right
    intro _
    simp only [DatabaseSchemaMetadata.namesSchema, List.mem_map, schemaUpdate,
      Bool.eq_false_iff, ne_eq, List.any_eq_true, decide_eq_true_eq, not_exists, not_and]
    constructor
    · intro h schema hschema hname
      exact h (schemaUpdate parseComment schema) ⟨schema, hschema, rfl⟩ hname
    · rintro h op ⟨schema, hschema, rfl⟩ hname
      exact h schema hschema hname
  have h2 : ∀ s t tc, tc.IsEmpty = true →
      ((setClassificationAndUserCommentFromComment parseComment dbSchema
          databaseConfig).2.tableAt s t = some tc
        ↔ (databaseConfig.tableAt s t = some tc ∧ dbSchema.namesTable s t = false)) := by
    intro s t tc htc
    rw [DatabaseConfig.tableAt, setClassificationAndUserCommentFromComment_config]
    exact schemasRun_empty_table_iff parseComment _ _ s t tc htc
  have h3 : ∀ s t c cc, isEmptyColumnConfig cc = true →
      ((setClassificationAndUserCommentFromComment parseComment dbSchema
          databaseConfig).2.columnAt s t c = some cc
        ↔ (databaseConfig.columnAt s t c = some cc
          ∧ dbSchema.namesColumn s t c = false)) := by
    intro s t c cc hcc
    rw [DatabaseConfig.columnAt, setClassificationAndUserCommentFromComment_config]
    exact schemasRun_empty_column_iff parseComment _ _ s t c cc hcc
  refine ⟨h1, h2, h3, ?_, ?_, ?_, ?_⟩
  · intro s sc hnamed hs
    cases hsc : sc.IsEmpty with
    | false => rfl
    | true =>
      rw [((h1 s sc hsc).mp hs).2] at hnamed
      cases hnamed
  · intro s t tc hnamed ht
    cases htc : tc.IsEmpty with
    | false => rfl
    | true =>
      rw [((h2 s t tc htc).mp ht).2] at hnamed
      cases hnamed
  · intro s t c cc hnamed hc
    cases hcc : isEmptyColumnConfig cc with
    | false => rfl
    | true =>
      rw [((h3 s t c cc hcc).mp hc).2] at hnamed
      cases hnamed
  · exact (setClassificationAndUserCommentFromComment_empty_from_prior parseComment dbSchema
      databaseConfig).2.2.2

/-- C12 (amended) at two prior trees for the metadata with the one column `c` of
the table `t` and a splitter that finds no classification: an empty column
config under the name `c`, which the metadata names, is pruned, and with it
the table config and the schema config it made non-empty, which leaves the
tree with no node; an empty column config under the name `dropped`, which the
metadata does not name, stays. -/
theorem setClassificationAndUserCommentFromComment_empty_nodes_witness :
    exampleConfigWithEmptyNamedNode.columnAt "public" "t" "c" = some emptyColumnConfig
    ∧ (setClassificationAndUserCommentFromComment exampleParseComment (exampleMetadata 200 "")
        exampleConfigWithEmptyNamedNode).2.columnAt "public" "t" "c" ≠ some emptyColumnConfig
    ∧ (setClassificationAndUserCommentFromComment exampleParseComment (exampleMetadata 200 "")
        exampleConfigWithEmptyNamedNode).2.internal = ∅
    ∧ (setClassificationAndUserCommentFromComment exampleParseComment (exampleMetadata 200 "")
        exampleConfigWithEmptyNode).2.columnAt "public" "t" "dropped" = some emptyColumnConfig :=
  ⟨by decide,
   fun h => absurd
     (((setClassificationAndUserCommentFromComment_empty_nodes exampleParseComment
        (exampleMetadata 200 "") exampleConfigWithEmptyNamedNode).2.2.1
        "public" "t" "c" emptyColumnConfig (by decide)).mp h).2 (by decide),
   by decide,
   ((setClassificationAndUserCommentFromComment_empty_nodes exampleParseComment
      (exampleMetadata 200 "") exampleConfigWithEmptyNode).2.2.1
      "public" "t" "dropped" emptyColumnConfig (by decide)).mpr ⟨by decide, by decide⟩⟩

end SchemaSync
